import Mathlib

/-!
# Mjolnir: global non-bonded interaction pipeline

A shallow embedding of the neighbor-list machinery (`core/VerletList.hpp`), the
Lennard-Jones pair potential (`potential/global/LennardJonesPotential.hpp`), the
Lennard-Jones pair interaction (`omp/GlobalPairLennardJonesInteraction.hpp`) and the
3SPN2 base-base interaction (`interaction/global/ThreeSPN2BasePairingInteraction.hpp`).

`real_type` is embedded as an arbitrary linearly ordered field `α`: every definition is
executable over `ℚ`, and the statements about derivatives are read over `ℝ`.
-/

namespace mjolnir

/-! ## Coordinates -/

/-- Three-component coordinate, the `coordinate_type` of the simulator traits. -/
structure Vec3 (α : Type) where
  x : α
  y : α
  z : α
deriving DecidableEq

namespace Vec3

variable {α : Type}

instance [Zero α] : Zero (Vec3 α) := ⟨⟨0, 0, 0⟩⟩
instance [Add α] : Add (Vec3 α) := ⟨fun a b => ⟨a.x + b.x, a.y + b.y, a.z + b.z⟩⟩
instance [Sub α] : Sub (Vec3 α) := ⟨fun a b => ⟨a.x - b.x, a.y - b.y, a.z - b.z⟩⟩
instance [Neg α] : Neg (Vec3 α) := ⟨fun a => ⟨-a.x, -a.y, -a.z⟩⟩
/-- Scalar times vector, `s * v`. -/
instance instHMulLeft [Mul α] : HMul α (Vec3 α) (Vec3 α) := ⟨fun s a => ⟨s * a.x, s * a.y, s * a.z⟩⟩
/-- Vector times scalar, `v * s`. -/
instance instHMulRight [Mul α] : HMul (Vec3 α) α (Vec3 α) := ⟨fun a s => ⟨a.x * s, a.y * s, a.z * s⟩⟩

end Vec3

/-- Squared length, `math::length_sq`. -/
def length_sq {α : Type} [Add α] [Mul α] (v : Vec3 α) : α :=
  v.x * v.x + v.y * v.y + v.z * v.z

/-- Inner product, `math::dot_product`. -/
def dot_product {α : Type} [Add α] [Mul α] (a b : Vec3 α) : α :=
  a.x * b.x + a.y * b.y + a.z * b.z

/-- Vector product, `math::cross_product`. -/
def cross_product {α : Type} [Sub α] [Mul α] (a b : Vec3 α) : Vec3 α :=
  ⟨a.y * b.z - a.z * b.y, a.z * b.x - a.x * b.z, a.x * b.y - a.y * b.x⟩

/-! ## System -/

/-- The part of `System` read by the spatial partition: the particle positions and the
boundary-aware `adjust_direction`. -/
structure System (α : Type) where
  positions : List (Vec3 α)
  adjust_direction : Vec3 α → Vec3 α

/-- Number of particles, `sys.size()`. -/
def System.size {α : Type} (sys : System α) : Nat := sys.positions.length

/-- Position of particle `i`, `sys[i].position`. -/
def System.position {α : Type} [Zero α] (sys : System α) (i : Nat) : Vec3 α :=
  sys.positions.getD i 0

/-! ## Neighbor list -/

/-- Per-particle store of neighbor entries `(index, parameter)`; `core/NeighborList.hpp`
is used by `VerletList` through `clear`, `add_list_for` and `operator[]` only. -/
def NeighborList (π : Type) : Type := Nat → List (Nat × π)

/-- The empty store, `neighbors_.clear()`. -/
def NeighborList.clear {π : Type} : NeighborList π := fun _ => []

/-- Records the entries of particle `i`, `neighbors_.add_list_for(i, first, last)`. -/
def NeighborList.add_list_for {π : Type} (nl : NeighborList π) (i : Nat)
    (ps : List (Nat × π)) : NeighborList π :=
  fun k => if k = i then ps else nl k

/-- What `VerletList` asks of a potential: the global cutoff and the per-pair
precomputed parameter. -/
structure PairPotential (α π : Type) where
  max_cutoff_length : α
  prepair_params : Nat → Nat → π

/-- State of `VerletList`; `exclusion_` is held through its `is_excluded` query. -/
structure VerletList (α π : Type) where
  cutoff_ : α
  margin_ : α
  current_margin_ : α
  exclusion_ : Nat → Nat → Bool
  neighbors_ : NeighborList π

namespace VerletList

variable {α π : Type} [LinearOrderedField α]

/-- Checks `current_margin_ >= 0.0`, `VerletList::valid`. -/
def valid (vl : VerletList α π) : Bool := decide (0 ≤ vl.current_margin_)

/-- Reads `neighbors_[i]`, `VerletList::partners`. -/
def partners (vl : VerletList α π) (i : Nat) : List (Nat × π) := vl.neighbors_ i

/-- Inner loop of `VerletList::make`: `for(j = i+1; j < sys.size(); ++j)`. -/
def make_partners (vl : VerletList α π) (sys : System α) (pot : PairPotential α π)
    (rc2 : α) (i : Nat) : List (Nat × π) :=
  (List.range' (i + 1) (sys.size - (i + 1))).foldl
    (fun partners j =>
      if vl.exclusion_ i j then partners
      else if length_sq (sys.adjust_direction (sys.position j - sys.position i)) < rc2
        then partners ++ [(j, pot.prepair_params i j)]
        else partners)
    []

/-- Full rebuild, `VerletList::make`. -/
def make (vl : VerletList α π) (sys : System α) (pot : PairPotential α π) :
    VerletList α π :=
  let rc := vl.cutoff_ * (1 + vl.margin_)
  let rc2 := rc * rc
  let nl := (List.range sys.size).foldl
    (fun nl i => nl.add_list_for i (make_partners vl sys pot rc2 i))
    NeighborList.clear
  { vl with neighbors_ := nl, current_margin_ := vl.cutoff_ * vl.margin_ }

/-- Margin accounting, `VerletList::update`. -/
def update (vl : VerletList α π) (dmargin : α) (sys : System α)
    (pot : PairPotential α π) : VerletList α π :=
  let vl1 := { vl with current_margin_ := vl.current_margin_ - dmargin }
  if vl1.current_margin_ < 0 then make vl1 sys pot else vl1

/-- The body of `VerletList::initialize`: `set_cutoff`, `exclusion_.make`, `make`.
`exclusion_make` stands for `ExclusionList::make`, whose header is not part of the
sources. -/
def initialise (vl : VerletList α π)
    (exclusion_make : System α → PairPotential α π → Nat → Nat → Bool)
    (sys : System α) (pot : PairPotential α π) : VerletList α π :=
  let vl1 := { vl with cutoff_ := pot.max_cutoff_length }
  let vl2 := { vl1 with exclusion_ := exclusion_make sys pot }
  make vl2 sys pot

/-- Does the same thing as `initialize`, `VerletList::reconstruct`. -/
def reconstruct (vl : VerletList α π)
    (exclusion_make : System α → PairPotential α π → Nat → Nat → Bool)
    (sys : System α) (pot : PairPotential α π) : VerletList α π :=
  initialise vl exclusion_make sys pot

/-- A run of `update` calls, each with its own `dmargin` and system. -/
def updates (vl : VerletList α π) (pot : PairPotential α π) :
    List (α × System α) → VerletList α π
  | [] => vl
  | (d, sys) :: rest => updates (update vl d sys pot) pot rest

end VerletList

/-- Brute-force enumeration of the partners of `i`: every `j` of the system with `i < j`,
not excluded, and squared minimum-image separation below `rc * rc`, in increasing `j`,
with the pair parameter attached. -/
def brute_force_partners {α π : Type} [LinearOrderedField α]
    (is_excluded : Nat → Nat → Bool) (sys : System α) (prepair : Nat → Nat → π)
    (rc : α) (i : Nat) : List (Nat × π) :=
  ((List.range sys.size).filter (fun j =>
      decide (i < j) && !is_excluded i j &&
      decide (length_sq (sys.adjust_direction (sys.position j - sys.position i)) < rc ^ 2))).map
    (fun j => (j, prepair i j))

/-! ## Lennard-Jones potential -/

/-- State of `LennardJonesPotential`: `radii_` holds `(sigma, epsilon)` per particle. -/
structure LennardJonesPotential (α : Type) where
  radii_ : List (α × α)

namespace LennardJonesPotential

variable {α : Type} [LinearOrderedField α]

/-- The constant `cutoff_ratio = 2.5` (`rc = 2.5 * sigma`). -/
def cutoff_ratio : α := 2.5

/-- Reads `radii_[i]`. -/
def radii (pot : LennardJonesPotential α) (i : Nat) : α × α := pot.radii_.getD i (0, 0)

/-- Energy of the pair, `LennardJonesPotential::potential`; `sqrt` is `std::sqrt`. -/
def potential (sqrt : α → α) (pot : LennardJonesPotential α) (i j : Nat) (r : α) : α :=
  let sigma := 0.5 * ((pot.radii i).1 + (pot.radii j).1)
  if sigma * cutoff_ratio < r then 0.0
  else
    let epsilon := if (pot.radii i).2 = (pot.radii j).2 then (pot.radii i).2
      else sqrt ((pot.radii i).2 * (pot.radii j).2)
    let r1s1 := sigma / r
    let r3s3 := r1s1 * r1s1 * r1s1
    let r6s6 := r3s3 * r3s3
    let r12s12 := r6s6 * r6s6
    4.0 * epsilon * (r12s12 - r6s6)

/-- Derivative along the distance, `LennardJonesPotential::derivative`. -/
def derivative (sqrt : α → α) (pot : LennardJonesPotential α) (i j : Nat) (r : α) : α :=
  let sigma := 0.5 * ((pot.radii i).1 + (pot.radii j).1)
  if sigma * cutoff_ratio < r then 0.0
  else
    let epsilon := if (pot.radii i).2 = (pot.radii j).2 then (pot.radii i).2
      else sqrt ((pot.radii i).2 * (pot.radii j).2)
    let r1s1 := sigma / r
    let r3s3 := r1s1 * r1s1 * r1s1
    let r6s6 := r3s3 * r3s3
    let r12s12 := r6s6 * r6s6
    24.0 * epsilon * (r6s6 - 2.0 * r12s12) / r

/-- The scan of `std::max_element` with the comparator `lhs.first < rhs.first`: the
first element not smaller than any other; `none` stands for the end iterator. -/
def max_element : List (α × α) → Option (α × α)
  | [] => none
  | a :: t => some (t.foldl (fun largest x => if largest.1 < x.1 then x else largest) a)

/-- Global cutoff, `LennardJonesPotential::max_cutoff_length`; `none` when `radii_` is
empty, where the source dereferences the end iterator. -/
def max_cutoff_length (pot : LennardJonesPotential α) : Option α :=
  (max_element pot.radii_).map (fun m => m.1 * cutoff_ratio)

end LennardJonesPotential

/-! ## Lennard-Jones pair interaction (OpenMP specialisation) -/

/-- Outer product of two coordinates as a 3x3 tensor held by rows,
`math::tensor_product`. -/
def tensor_product {α : Type} [Mul α] (a b : Vec3 α) : Vec3 (Vec3 α) :=
  ⟨a.x * b, a.y * b, a.z * b⟩

/-- The part of the OpenMP `System` used by the pair interaction: positions, the
two-argument `adjust_direction`, and the per-thread force and virial accumulators. -/
structure OmpSystem (α : Type) where
  positions : List (Vec3 α)
  adjust_direction : Vec3 α → Vec3 α → Vec3 α
  force_thread : Nat → Nat → Vec3 α
  virial_thread : Nat → Vec3 (Vec3 α)

namespace OmpSystem

variable {α : Type}

/-- Position of particle `i`, `sys.position(i)`. -/
def position [Zero α] (sys : OmpSystem α) (i : Nat) : Vec3 α := sys.positions.getD i 0

/-- The statement `sys.force_thread(thread_id, i) += f`. -/
def add_force_thread [Add α] (sys : OmpSystem α) (thread_id i : Nat) (f : Vec3 α) :
    OmpSystem α :=
  { sys with force_thread := fun t k =>
      if t = thread_id ∧ k = i then sys.force_thread t k + f else sys.force_thread t k }

/-- The statement `sys.force_thread(thread_id, i) -= f`. -/
def sub_force_thread [Sub α] (sys : OmpSystem α) (thread_id i : Nat) (f : Vec3 α) :
    OmpSystem α :=
  { sys with force_thread := fun t k =>
      if t = thread_id ∧ k = i then sys.force_thread t k - f else sys.force_thread t k }

/-- The statement `sys.virial_thread(thread_id) += m`. -/
def add_virial_thread [Add α] (sys : OmpSystem α) (thread_id : Nat) (m : Vec3 (Vec3 α)) :
    OmpSystem α :=
  { sys with virial_thread := fun t =>
      if t = thread_id then sys.virial_thread t + m else sys.virial_thread t }

end OmpSystem

/-- Thread number seen by the loop body in a single-threaded execution,
`omp_get_thread_num()`. -/
def omp_get_thread_num : Nat := 0

/-- The Lennard-Jones pair interaction of `omp/GlobalPairLennardJonesInteraction.hpp`.
The potential is read through `cutoff_ratio()`, `coef_at_cutoff()` and
`leading_participants()`, the partition through `partners(i)`, whose entries carry the
pair parameter `(sigma, epsilon)`. -/
structure OmpLennardJonesInteraction (α : Type) where
  cutoff_ratio : α
  coef_at_cutoff : α
  leading_participants : List Nat
  partners : Nat → List (Nat × (α × α))

namespace OmpLennardJonesInteraction

variable {α : Type} [LinearOrderedField α]

/-- Loop body of `calc_force` for the neighbor entry `ptnr` of particle `i`. -/
def calc_force_pair (self : OmpLennardJonesInteraction α) (i : Nat) (sys : OmpSystem α)
    (ptnr : Nat × (α × α)) : OmpSystem α :=
  let cutoff_ratio_sq := self.cutoff_ratio * self.cutoff_ratio
  let j := ptnr.1
  let param := ptnr.2
  let rij := sys.adjust_direction (sys.position i) (sys.position j)
  let l_sq := length_sq rij
  let sigma_sq := param.1 * param.1
  if sigma_sq * cutoff_ratio_sq < l_sq then sys
  else
    let epsilon := param.2
    let rcp_l_sq := 1 / l_sq
    let s2l2 := sigma_sq * rcp_l_sq
    let s6l6 := s2l2 * s2l2 * s2l2
    let f := rij * (24 * epsilon * (s6l6 - 2 * s6l6 * s6l6) * rcp_l_sq)
    let thread_id := omp_get_thread_num
    let sys1 := sys.add_force_thread thread_id i f
    let sys2 := sys1.sub_force_thread thread_id j f
    sys2.add_virial_thread thread_id (tensor_product rij (-f))

/-- Force evaluation, `calc_force`. -/
def calc_force (self : OmpLennardJonesInteraction α) (sys : OmpSystem α) : OmpSystem α :=
  self.leading_participants.foldl
    (fun sys i => (self.partners i).foldl (fun sys ptnr => self.calc_force_pair i sys ptnr) sys)
    sys

/-- Loop body of `calc_energy` for the neighbor entry `ptnr` of particle `i`. -/
def calc_energy_pair (self : OmpLennardJonesInteraction α) (sys : OmpSystem α) (i : Nat)
    (E : α) (ptnr : Nat × (α × α)) : α :=
  let cutoff_ratio_sq := self.cutoff_ratio * self.cutoff_ratio
  let j := ptnr.1
  let param := ptnr.2
  let rij := sys.adjust_direction (sys.position i) (sys.position j)
  let l_sq := length_sq rij
  let sigma_sq := param.1 * param.1
  if sigma_sq * cutoff_ratio_sq < l_sq then E
  else
    let epsilon := param.2
    let s2l2 := sigma_sq / l_sq
    let s6l6 := s2l2 * s2l2 * s2l2
    E + 4 * epsilon * (s6l6 * s6l6 - s6l6 - self.coef_at_cutoff)

/-- Energy evaluation, `calc_energy`. -/
def calc_energy (self : OmpLennardJonesInteraction α) (sys : OmpSystem α) : α :=
  self.leading_participants.foldl
    (fun E i => (self.partners i).foldl (fun E ptnr => self.calc_energy_pair sys i E ptnr) E)
    0

/-- Loop body of `calc_force_and_energy` for the neighbor entry `ptnr` of particle `i`. -/
def calc_force_and_energy_pair (self : OmpLennardJonesInteraction α) (i : Nat)
    (st : α × OmpSystem α) (ptnr : Nat × (α × α)) : α × OmpSystem α :=
  let energy := st.1
  let sys := st.2
  let cutoff_ratio_sq := self.cutoff_ratio * self.cutoff_ratio
  let j := ptnr.1
  let param := ptnr.2
  let rij := sys.adjust_direction (sys.position i) (sys.position j)
  let l_sq := length_sq rij
  let sigma_sq := param.1 * param.1
  if sigma_sq * cutoff_ratio_sq < l_sq then (energy, sys)
  else
    let epsilon := param.2
    let rcp_l_sq := 1 / l_sq
    let s2l2 := sigma_sq * rcp_l_sq
    let s6l6 := s2l2 * s2l2 * s2l2
    let energy1 := energy + 4 * epsilon * (s6l6 * s6l6 - s6l6 - self.coef_at_cutoff)
    let f := rij * (24 * epsilon * (s6l6 - 2 * s6l6 * s6l6) * rcp_l_sq)
    let thread_id := omp_get_thread_num
    let sys1 := sys.add_force_thread thread_id i f
    let sys2 := sys1.sub_force_thread thread_id j f
    (energy1, sys2.add_virial_thread thread_id (tensor_product rij (-f)))

/-- Combined evaluation, `calc_force_and_energy`: the returned energy and the system
with its accumulators updated. -/
def calc_force_and_energy (self : OmpLennardJonesInteraction α) (sys : OmpSystem α) :
    α × OmpSystem α :=
  self.leading_participants.foldl
    (fun st i => (self.partners i).foldl
      (fun st ptnr => self.calc_force_and_energy_pair i st ptnr) st)
    (0, sys)

end OmpLennardJonesInteraction

/-! ## 3SPN2 base-base interaction -/

/-- The functions of `<cmath>` and the constant `math::constants<real_type>::pi` used by
the 3SPN2 interaction; `rsqrt` is `math::rsqrt`. -/
structure MathFns (α : Type) where
  pi : α
  rsqrt : α → α
  exp : α → α
  acos : α → α
  sin : α → α
  cos : α → α

/-- Restriction of `x` to `[lo, hi]`, `math::clamp`. -/
def clamp {α : Type} [LinearOrder α] (x lo hi : α) : α :=
  if x < lo then lo else if hi < x then hi else x

/-- Magnitude of `x` with the sign of `s`, `std::copysign`. -/
def copysign {α : Type} [LinearOrderedField α] (x s : α) : α :=
  if s < 0 then -|x| else |x|

/-- What the interaction reads from `ThreeSPN2BasePairingPotential`, whose header is not
part of the sources: per base-pair kind the squared cutoff, `r0`, `epsilon`, `phi_0`
and the window `f` with its derivative `df`, and the constant `alpha`. -/
structure ThreeSPN2BasePairingPotential (α : Type) where
  cutoff_sq : Nat → α
  r0 : Nat → α
  epsilon : Nat → α
  alpha : α
  phi_0 : Nat → α
  f : Nat → α → α
  df : Nat → α → α

/-- What the interaction reads from `ThreeSPN2CrossStackingPotential`, whose header is
not part of the sources: the 3' and 5' adjacent base of each base (`parameters()[i].B3`,
`.B5`), the index `invalid()`, the cross-stacking kinds, the window `f` / `df` taken at
a base-pair kind (`f_bp`, `df_bp`) and at a cross-stacking kind (`f`, `df`), and
`epsilon`, `r0`, `alpha`. -/
structure ThreeSPN2CrossStackingPotential (α : Type) where
  B3 : Nat → Nat
  B5 : Nat → Nat
  invalid : Nat
  cs5_kind : Nat → Nat → Nat
  cs3_kind : Nat → Nat → Nat
  f_bp : Nat → α → α
  df_bp : Nat → α → α
  f : Nat → α → α
  df : Nat → α → α
  epsilon : Nat → α
  r0 : Nat → α
  alpha : α

/-- Pair parameter of a neighbor entry, `ptnr.parameter()`: the sugars bound to the two
bases and the base-pair kind. -/
structure BasePairParameter where
  Si : Nat
  Sj : Nat
  bp_kind : Nat
deriving DecidableEq

/-- The terms of the force of one base pair. -/
inductive ForceTerm where
  | repulsive
  | dihedral
  | theta1
  | theta2
  | radial
  | cross_stacking_5
  | cross_stacking_3
deriving DecidableEq

/-- State of `ThreeSPN2BaseBaseInteraction`. `participants` is
`potential_.participants()`, `partners` is `partition_.partners`, and `tolerance` is the
constant of that name used in the divisions by a sine. -/
structure ThreeSPN2BaseBaseInteraction (α : Type) where
  base_pairing_potential_ : ThreeSPN2BasePairingPotential α
  cross_stacking_potential_ : ThreeSPN2CrossStackingPotential α
  participants : List Nat
  partners : Nat → List (Nat × BasePairParameter)
  tolerance : α

/-- Sum of the vectors of a list of force increments `sys.force(k) += v`, each recorded
as `(term, k, v)`. -/
def net_force {α : Type} [Zero α] [Add α] (incs : List (ForceTerm × Nat × Vec3 α)) :
    Vec3 α :=
  (incs.map (fun e => e.2.2)).foldr (fun v acc => v + acc) 0

/-- Sum of the increments that belong to the term `t`. -/
def term_force {α : Type} [Zero α] [Add α] (t : ForceTerm)
    (incs : List (ForceTerm × Nat × Vec3 α)) : Vec3 α :=
  net_force (incs.filter (fun e => decide (e.1 = t)))

/-- Applies the recorded increments to the force buffer, in order. -/
def apply_increments {α : Type} [Add α] (force : Nat → Vec3 α)
    (incs : List (ForceTerm × Nat × Vec3 α)) : Nat → Vec3 α :=
  incs.foldl (fun F e => fun k => if k = e.2.1 then F k + e.2.2 else F k) force

/-- Sum of the force buffer over the particles `0 .. n-1`. -/
def total_force {α : Type} [Zero α] [Add α] (force : Nat → Vec3 α) : Nat → Vec3 α
  | 0 => 0
  | n + 1 => total_force force n + force n

namespace ThreeSPN2BaseBaseInteraction

variable {α : Type} [LinearOrderedField α]

/-- Repulsive part of `calc_force` (lines 128-137); `Bi`, `Bj` are the bases `i`, `j`. -/
def repulsive_force (M : MathFns α) (a_BP e_BP r0 lBij : α) (Bij_reg Bji_reg : Vec3 α)
    (Bi Bj : Nat) : List (ForceTerm × Nat × Vec3 α) :=
  if lBij < r0 then
    let term := M.exp (-a_BP * (lBij - r0))
    let coef := 2 * a_BP * e_BP * term * (1 - term)
    [(ForceTerm.repulsive, Bi, coef * Bji_reg), (ForceTerm.repulsive, Bj, coef * Bij_reg)]
  else []

/-- Dihedral term of `calc_force` (lines 246-260). -/
def dihedral_force (sin_dphi f1 f2 Um_attr lBij dot_SBiBj dot_SBjBi rlBij_sq : α)
    (m n : Vec3 α) (Si Bi Bj Sj : Nat) : List (ForceTerm × Nat × Vec3 α) :=
  if sin_dphi ≠ 0 then
    let coef := -0.5 * sin_dphi * f1 * f2 * Um_attr
    let fSi := (coef * lBij / length_sq m) * m
    let fSj := (-coef * lBij / length_sq n) * n
    let coef_Bi := dot_SBiBj * rlBij_sq
    let coef_Bj := dot_SBjBi * rlBij_sq
    [(ForceTerm.dihedral, Si, fSi),
     (ForceTerm.dihedral, Bi, (coef_Bi - 1) * fSi - coef_Bj * fSj),
     (ForceTerm.dihedral, Bj, (coef_Bj - 1) * fSj - coef_Bi * fSi),
     (ForceTerm.dihedral, Sj, fSj)]
  else []

/-- The `theta1` term of `calc_force` (lines 267-282). -/
def theta1_force (M : MathFns α) (tolerance dihd_term df1 f2 Um_attr theta1 cos_theta1
    rlSBi rlBij : α) (BSi_reg Bij_reg : Vec3 α) (Si Bi Bj : Nat) :
    List (ForceTerm × Nat × Vec3 α) :=
  if df1 ≠ 0 then
    let coef := dihd_term * df1 * f2 * Um_attr
    let sin_theta1 := M.sin theta1
    let coef_rsin := if sin_theta1 > tolerance then coef / sin_theta1 else coef / tolerance
    let fSi := (coef_rsin * rlSBi) * (cos_theta1 * BSi_reg - Bij_reg)
    let fBj := (coef_rsin * rlBij) * (cos_theta1 * Bij_reg - BSi_reg)
    [(ForceTerm.theta1, Si, fSi),
     (ForceTerm.theta1, Bi, -(fSi + fBj)),
     (ForceTerm.theta1, Bj, fBj)]
  else []

/-- The vector `fSj` of the `theta2` term (lines 288-297), the force on the sugar `Sj`. -/
def theta2_fSj (M : MathFns α) (tolerance dihd_term f1 df2 Um_attr theta2 cos_theta2
    rlSBj : α) (BSj_reg Bji_reg : Vec3 α) : Vec3 α :=
  let coef := dihd_term * f1 * df2 * Um_attr
  let sin_theta2 := M.sin theta2
  let coef_rsin := if sin_theta2 > tolerance then coef / sin_theta2 else coef / tolerance
  (coef_rsin * rlSBj) * (cos_theta2 * BSj_reg - Bji_reg)

/-- The `theta2` term of `calc_force` (lines 286-301). The statement of line 299 is
`sys.force(Bj) -= (fBi + fSi)`: the name `fSi` is declared in the dihedral block and in
the `theta1` block only, both closed at that point, so the vector it stands for is the
argument `fSi` here; the vector computed by this block for the sugar is `fSj`. -/
def theta2_force (M : MathFns α) (tolerance dihd_term f1 df2 Um_attr theta2 cos_theta2
    rlBij rlSBj : α) (BSj_reg Bji_reg : Vec3 α) (fSi : Vec3 α) (Bi Bj Sj : Nat) :
    List (ForceTerm × Nat × Vec3 α) :=
  if df2 ≠ 0 then
    let coef := dihd_term * f1 * df2 * Um_attr
    let sin_theta2 := M.sin theta2
    let coef_rsin := if sin_theta2 > tolerance then coef / sin_theta2 else coef / tolerance
    let fBi := (coef_rsin * rlBij) * (cos_theta2 * Bji_reg - BSj_reg)
    let fSj := theta2_fSj M tolerance dihd_term f1 df2 Um_attr theta2 cos_theta2 rlSBj
      BSj_reg Bji_reg
    [(ForceTerm.theta2, Bi, fBi),
     (ForceTerm.theta2, Bj, -(fBi + fSi)),
     (ForceTerm.theta2, Sj, fSj)]
  else []

/-- Radial term of `calc_force` (lines 305-310). -/
def radial_force (dihd_term f1 f2 dUm_attr : α) (Bij_reg Bji_reg : Vec3 α) (Bi Bj : Nat) :
    List (ForceTerm × Nat × Vec3 α) :=
  if dUm_attr ≠ 0 then
    let coef := dihd_term * f1 * f2 * dUm_attr
    [(ForceTerm.radial, Bi, -(coef * Bij_reg)), (ForceTerm.radial, Bj, -(coef * Bji_reg))]
  else []

/-- Attractive part of the base pairing in `calc_force` (lines 176-312). The names
`BP_kind` (line 205) and `dBij` (line 235) are read as `bp_kind` and `lBij`, and
`this->potential_` as the base-pairing potential. -/
def attractive_force (M : MathFns α) (bp : ThreeSPN2BasePairingPotential α) (tolerance : α)
    (bp_kind : Nat) (Bij SBi SBj Bij_reg Bji_reg BSi_reg BSj_reg : Vec3 α)
    (lBij rlBij rlSBi rlSBj dot_SBiBj dot_SBjBi cos_theta1 cos_theta2 theta1 theta2
      r0 e_BP a_BP : α)
    (fSi_outer : Vec3 α) (Si Bi Bj Sj : Nat) : List (ForceTerm × Nat × Vec3 α) :=
  let f1 := bp.f bp_kind theta1
  let f2 := bp.f bp_kind theta2
  if f1 ≠ 0 ∧ f2 ≠ 0 then
    let df1 := bp.df bp_kind theta1
    let df2 := bp.df bp_kind theta2
    let rlBij_sq := rlBij * rlBij
    let R := -SBi + (-dot_SBiBj * rlBij_sq) * Bij
    let S := -SBj + (dot_SBjBi * rlBij_sq) * Bij
    let dot_phi := dot_product R S * M.rsqrt (length_sq R * length_sq S)
    let cos_phi := clamp dot_phi (-1) 1
    let m := cross_product (-SBi) Bij
    let n := cross_product Bij SBj
    let phi := copysign (M.acos cos_phi) (-dot_product SBi n)
    let dphi0 := phi - bp.phi_0 bp_kind
    let dphi1 := if dphi0 < -M.pi then dphi0 + 2 * M.pi else dphi0
    let dphi := if M.pi ≤ dphi1 then dphi1 - 2 * M.pi else dphi1
    let cos_dphi := M.cos dphi
    let sin_dphi := M.sin dphi
    if cos_dphi ≠ -1 then
      let expm := M.exp (-a_BP * (lBij - r0))
      let Um_attr := if lBij > r0 then -e_BP + e_BP * (1 - expm) * (1 - expm) else -e_BP
      let dUm_attr := if lBij > r0 then 2 * a_BP * e_BP * expm * (1 - expm) else 0
      let dihd_term := 0.5 * (1 + cos_dphi)
      dihedral_force sin_dphi f1 f2 Um_attr lBij dot_SBiBj dot_SBjBi rlBij_sq m n Si Bi Bj Sj
        ++ theta1_force M tolerance dihd_term df1 f2 Um_attr theta1 cos_theta1 rlSBi rlBij
            BSi_reg Bij_reg Si Bi Bj
        ++ theta2_force M tolerance dihd_term f1 df2 Um_attr theta2 cos_theta2 rlBij rlSBj
            BSj_reg Bji_reg fSi_outer Bi Bj Sj
        ++ radial_force dihd_term f1 f2 dUm_attr Bij_reg Bji_reg Bi Bj
    else []
  else []

/-- One half of the cross stacking in `calc_force`: the 5' half (lines 367-456) with
`(S, B, Badj) = (Si, Bi, Bj5)` and `SB = SBi`, the 3' half (lines 458-549) with
`(S, B, Badj) = (Sj, Bj, Bi3)` and `SB = SBj`. `Badj_B` is the vector from the adjacent
base to `B` (`Bj5i`, `Bi3j`), whose squared length is taken where the source writes
`length_sq(lBj5i)`, `length_sq(lBi3j)`. -/
def cross_stacking_half (M : MathFns α) (cs : ThreeSPN2CrossStackingPotential α)
    (tolerance : α) (term : ForceTerm) (cs_kind : Nat) (Badj_B SB BS_reg : Vec3 α)
    (rlSB r0 lBij f3 df3 : α) (fSi_theta3 fSj_theta3 fBi_theta3 fBj_theta3 : Vec3 α)
    (Si Sj Bi Bj S B Badj : Nat) : List (ForceTerm × Nat × Vec3 α) :=
  let lBadj_sq := length_sq Badj_B
  let rlBadj := M.rsqrt lBadj_sq
  let dot_theta_CS := dot_product SB Badj_B
  let cos_theta_CS := dot_theta_CS * rlSB * rlBadj
  let theta_CS := M.acos (clamp cos_theta_CS (-1) 1)
  let fCS := cs.f cs_kind theta_CS
  if fCS ≠ 0 then
    let dfCS := cs.df cs_kind theta_CS
    let e_CS := cs.epsilon cs_kind
    let a_CS := cs.alpha
    let r0_CS := cs.r0 cs_kind
    let lBadj := lBadj_sq * rlBadj
    let term_exp := M.exp (-a_CS * (lBadj - r0_CS))
    let U_attr := if r0 < lBij then -e_CS + e_CS * (1 - term_exp) * (1 - term_exp) else -e_CS
    let dU_attr := if r0 < lBij then 2 * a_CS * e_CS * (1 - term_exp) * term_exp else 0
    let part3 :=
      if df3 ≠ 0 then
        let coef := df3 * fCS * U_attr
        [(term, Si, coef * fSi_theta3), (term, Sj, coef * fSj_theta3),
         (term, Bi, coef * fBi_theta3), (term, Bj, coef * fBj_theta3)]
      else []
    let partCS :=
      if dfCS ≠ 0 then
        let coef := f3 * dfCS * U_attr
        let sin_theta_CS := M.sin theta_CS
        let coef_rsin := if sin_theta_CS > tolerance then coef / sin_theta_CS
          else coef / tolerance
        let Badj_reg := rlBadj * Badj_B
        let fS := (coef_rsin * rlSB) * (-cos_theta_CS * BS_reg - Badj_reg)
        let fBadj := (coef_rsin * rlBadj) * (cos_theta_CS * Badj_reg + BS_reg)
        [(term, S, fS), (term, B, -(fS + fBadj)), (term, Badj, fBadj)]
      else []
    let coef := f3 * fCS * dU_attr * rlBadj
    part3 ++ partCS ++ [(term, B, -(coef * Badj_B)), (term, Badj, coef * Badj_B)]
  else []

/-- Cross-stacking part of `calc_force` for one pair (lines 332-549);
`math::dor_product` (line 343) is read as `math::dot_product`. -/
def cross_stacking_force (M : MathFns α) (cs : ThreeSPN2CrossStackingPotential α)
    (sys : System α) (tolerance : α) (bp_kind : Nat) (rBi rBj SBi SBj BSi_reg BSj_reg : Vec3 α)
    (rlSBi rlSBj r0 lBij : α) (Si Sj Bi Bj : Nat) : List (ForceTerm × Nat × Vec3 α) :=
  let Bi3 := cs.B3 Bi
  let Bj5 := cs.B5 Bj
  let Bi3_exists := decide (Bi3 ≠ cs.invalid)
  let Bj5_exists := decide (Bj5 ≠ cs.invalid)
  if (!Bi3_exists && !Bj5_exists) = true then []
  else
    let dot_SBiSBj := dot_product SBi SBj
    let cos_theta3 := dot_SBiSBj * rlSBi * rlSBj
    let theta3 := M.acos (clamp cos_theta3 (-1) 1)
    let f3 := cs.f_bp bp_kind theta3
    if f3 = 0 then []
    else
      let df3 := cs.df_bp bp_kind theta3
      let sin_theta3 := M.sin cos_theta3
      let rsin_theta3 := if sin_theta3 > tolerance then 1 / sin_theta3 else 1 / tolerance
      let fSi_theta3 := (rsin_theta3 * rlSBi) * (cos_theta3 * BSi_reg - BSj_reg)
      let fSj_theta3 := (rsin_theta3 * rlSBj) * (cos_theta3 * BSj_reg - BSi_reg)
      let fBi_theta3 := (-1 : α) * fSi_theta3
      let fBj_theta3 := (-1 : α) * fSj_theta3
      let half5 :=
        if Bj5_exists = true then
          cross_stacking_half M cs tolerance ForceTerm.cross_stacking_5 (cs.cs5_kind Bi Bj5)
            (sys.adjust_direction (rBi - sys.position Bj5)) SBi BSi_reg rlSBi r0 lBij f3 df3
            fSi_theta3 fSj_theta3 fBi_theta3 fBj_theta3 Si Sj Bi Bj Si Bi Bj5
        else []
      let half3 :=
        if Bi3_exists = true then
          cross_stacking_half M cs tolerance ForceTerm.cross_stacking_3 (cs.cs3_kind Bj Bi3)
            (sys.adjust_direction (rBj - sys.position Bi3)) SBj BSj_reg rlSBj r0 lBij f3 df3
            fSi_theta3 fSj_theta3 fBi_theta3 fBj_theta3 Si Sj Bi Bj Sj Bj Bi3
        else []
      half5 ++ half3

/-- Body of the pair loop of `calc_force` (lines 96-549) for the neighbor entry `ptnr` of
base `i`: the force increments it applies, in order. The particle indices written `Bi`,
`Bj` are the bases `i`, `j`; `rlSBj` is computed from `lSBi_sq` as in line 160;
`fSi_outer` is the vector denoted by `fSi` at line 299. -/
def pair_force (M : MathFns α) (self : ThreeSPN2BaseBaseInteraction α) (sys : System α)
    (i : Nat) (ptnr : Nat × BasePairParameter) (fSi_outer : Vec3 α) :
    List (ForceTerm × Nat × Vec3 α) :=
  let bp := self.base_pairing_potential_
  let rBi := sys.position i
  let j := ptnr.1
  let para := ptnr.2
  let rBj := sys.position j
  let bp_kind := para.bp_kind
  let Bij := sys.adjust_direction (rBj - rBi)
  let lBij_sq := length_sq Bij
  if lBij_sq > bp.cutoff_sq bp_kind then []
  else
    let rlBij := M.rsqrt lBij_sq
    let lBij := lBij_sq * rlBij
    let Bij_reg := rlBij * Bij
    let Bji_reg := -rlBij * Bij
    let r0 := bp.r0 bp_kind
    let e_BP := bp.epsilon bp_kind
    let a_BP := bp.alpha
    let Si := para.Si
    let Sj := para.Sj
    let rSi := sys.position Si
    let rSj := sys.position Sj
    let SBi := sys.adjust_direction (rBi - rSi)
    let SBj := sys.adjust_direction (rBj - rSj)
    let lSBi_sq := length_sq SBi
    let rlSBi := M.rsqrt lSBi_sq
    let rlSBj := M.rsqrt lSBi_sq
    let BSi_reg := -rlSBi * SBi
    let BSj_reg := -rlSBj * SBj
    let dot_SBiBj := -dot_product SBi Bij
    let dot_SBjBi := dot_product SBj Bij
    let cos_theta1 := dot_SBiBj * rlSBi * rlBij
    let cos_theta2 := dot_SBjBi * rlSBj * rlBij
    let theta1 := M.acos (clamp cos_theta1 (-1) 1)
    let theta2 := M.acos (clamp cos_theta2 (-1) 1)
    repulsive_force M a_BP e_BP r0 lBij Bij_reg Bji_reg i j
      ++ attractive_force M bp self.tolerance bp_kind Bij SBi SBj Bij_reg Bji_reg BSi_reg
          BSj_reg lBij rlBij rlSBi rlSBj dot_SBiBj dot_SBjBi cos_theta1 cos_theta2 theta1
          theta2 r0 e_BP a_BP fSi_outer Si i j Sj
      ++ cross_stacking_force M self.cross_stacking_potential_ sys self.tolerance bp_kind
          rBi rBj SBi SBj BSi_reg BSj_reg rlSBi rlSBj r0 lBij Si Sj i j

/-- Force evaluation `calc_force`, acting on the force buffer of the system;
`fSi_outer i j` is the vector denoted by `fSi` at line 299 while the pair `(i, j)` is
processed. -/
def calc_force (M : MathFns α) (self : ThreeSPN2BaseBaseInteraction α) (sys : System α)
    (fSi_outer : Nat → Nat → Vec3 α) (force : Nat → Vec3 α) : Nat → Vec3 α :=
  self.participants.foldl
    (fun F i => (self.partners i).foldl
      (fun F ptnr =>
        apply_increments F (pair_force M self sys i ptnr (fSi_outer i ptnr.1))) F)
    force

end ThreeSPN2BaseBaseInteraction

/-! ## 3SPN2 base-base interaction: energy -/

/-- The terms of the energy of one base pair. -/
inductive EnergyTerm where
  | repulsive
  | attractive
  | cross_stacking_5
  | cross_stacking_3
deriving DecidableEq

/-- The quantities that `calc_force` (lines 101-169 and 343-345) and `calc_energy`
(lines 576-638 and 720-722) compute alike from the positions of a base pair. -/
structure PairGeometry (α : Type) where
  Bij : Vec3 α
  SBi : Vec3 α
  SBj : Vec3 α
  lBij_sq : α
  rlBij : α
  lBij : α
  rlSBi : α
  rlSBj : α
  dot_SBiBj : α
  dot_SBjBi : α
  cos_theta1 : α
  cos_theta2 : α
  theta1 : α
  theta2 : α
  cos_theta3 : α
  theta3 : α

namespace ThreeSPN2BaseBaseInteraction

variable {α : Type} [LinearOrderedField α]

/-- The separations and angles of the neighbor entry `ptnr` of base `i`, as in lines
576-638 and 720-722 of `calc_energy` (the same statements as lines 101-169 and 343-345
of `calc_force`); `rlSBj` is computed from `lSBi_sq` as in lines 160 and 629. -/
def pair_geometry (M : MathFns α) (sys : System α) (i : Nat)
    (ptnr : Nat × BasePairParameter) : PairGeometry α :=
  let rBi := sys.position i
  let j := ptnr.1
  let para := ptnr.2
  let rBj := sys.position j
  let Bij := sys.adjust_direction (rBj - rBi)
  let lBij_sq := length_sq Bij
  let rlBij := M.rsqrt lBij_sq
  let lBij := lBij_sq * rlBij
  let Si := para.Si
  let Sj := para.Sj
  let rSi := sys.position Si
  let rSj := sys.position Sj
  let SBi := sys.adjust_direction (rBi - rSi)
  let SBj := sys.adjust_direction (rBj - rSj)
  let lSBi_sq := length_sq SBi
  let rlSBi := M.rsqrt lSBi_sq
  let rlSBj := M.rsqrt lSBi_sq
  let dot_SBiBj := -dot_product SBi Bij
  let dot_SBjBi := dot_product SBj Bij
  let cos_theta1 := dot_SBiBj * rlSBi * rlBij
  let cos_theta2 := dot_SBjBi * rlSBj * rlBij
  let theta1 := M.acos (clamp cos_theta1 (-1) 1)
  let theta2 := M.acos (clamp cos_theta2 (-1) 1)
  let dot_SBiSBj := dot_product SBi SBj
  let cos_theta3 := dot_SBiSBj * rlSBi * rlSBj
  let theta3 := M.acos (clamp cos_theta3 (-1) 1)
  { Bij := Bij, SBi := SBi, SBj := SBj, lBij_sq := lBij_sq, rlBij := rlBij, lBij := lBij,
    rlSBi := rlSBi, rlSBj := rlSBj, dot_SBiBj := dot_SBiBj, dot_SBjBi := dot_SBjBi,
    cos_theta1 := cos_theta1, cos_theta2 := cos_theta2, theta1 := theta1, theta2 := theta2,
    cos_theta3 := cos_theta3, theta3 := theta3 }

/-- The angle `theta_CS` of one cross-stacking half (lines 383-390, 475-482, 748-755,
800-807): `Badj_B` is the vector from the adjacent base to the base (`Bj5i`, `Bi3j`),
`SB` the vector from the sugar to the base. -/
def cross_stacking_theta (M : MathFns α) (Badj_B SB : Vec3 α) (rlSB : α) : α :=
  let lBadj_sq := length_sq Badj_B
  let rlBadj := M.rsqrt lBadj_sq
  let dot_theta_CS := dot_product SB Badj_B
  let cos_theta_CS := dot_theta_CS * rlSB * rlBadj
  M.acos (clamp cos_theta_CS (-1) 1)

/-- The vector `Bj5i` of the 5' half for the neighbor entry `ptnr` of base `i`. -/
def pair_Bj5i (cs : ThreeSPN2CrossStackingPotential α) (sys : System α) (i : Nat)
    (ptnr : Nat × BasePairParameter) : Vec3 α :=
  sys.adjust_direction (sys.position i - sys.position (cs.B5 ptnr.1))

/-- The vector `Bi3j` of the 3' half for the neighbor entry `ptnr` of base `i`. -/
def pair_Bi3j (cs : ThreeSPN2CrossStackingPotential α) (sys : System α) (i : Nat)
    (ptnr : Nat × BasePairParameter) : Vec3 α :=
  sys.adjust_direction (sys.position ptnr.1 - sys.position (cs.B3 i))

/-- Repulsive part of `calc_energy` (lines 599-606). -/
def repulsive_energy (M : MathFns α) (a_BP e_BP r0 lBij : α) : List (EnergyTerm × α) :=
  if lBij < r0 then
    let term := 1.0 - M.exp (-a_BP * (lBij - r0))
    [(EnergyTerm.repulsive, e_BP * term * term)]
  else []

/-- Attractive part of the base pairing in `calc_energy` (lines 648-695). The names
`R_lensq`, `S_lensq` (line 667) are read as the squared lengths of `R` and `S`. -/
def attractive_energy (M : MathFns α) (bp : ThreeSPN2BasePairingPotential α) (bp_kind : Nat)
    (Bij SBi SBj : Vec3 α) (lBij rlBij theta1 theta2 r0 e_BP a_BP : α) :
    List (EnergyTerm × α) :=
  let f1 := bp.f bp_kind theta1
  let f2 := bp.f bp_kind theta2
  if f1 ≠ 0 ∧ f2 ≠ 0 then
    let Bij_reg := Bij * rlBij
    let R := dot_product SBi Bij_reg * Bij_reg - SBi
    let S := dot_product SBj Bij_reg * Bij_reg - SBj
    let dot_RS := dot_product R S * M.rsqrt (length_sq R * length_sq S)
    let cos_phi := clamp dot_RS (-1) 1
    let n := cross_product Bij SBj
    let sign := -dot_product SBi n
    let phi := copysign (M.acos cos_phi) sign
    let dphi0 := phi - bp.phi_0 bp_kind
    let dphi := if M.pi < dphi0 then dphi0 - 2 * M.pi
      else if dphi0 < -M.pi then dphi0 + 2 * M.pi else dphi0
    let cos_dphi := M.cos dphi
    let term := 1.0 - M.exp (-a_BP * (lBij - r0))
    let U_attr := if r0 < lBij then -e_BP + e_BP * term * term else -e_BP
    [(EnergyTerm.attractive, 0.5 * (1 + cos_dphi) * f1 * f2 * U_attr)]
  else []

/-- One half of the cross stacking in `calc_energy`: the 5' half (lines 745-779) with
`Badj_B = Bj5i`, `SB = SBi`, the 3' half (lines 797-830) with `Badj_B = Bi3j`,
`SB = SBj`. The squared length of `Badj_B` is taken where the source writes
`length_sq(lBj5i)`, `length_sq(lBi3j)`; the test `r0 < lBij` of lines 771 and 823 is on
the base-pair `r0` and `lBij`. -/
def cross_stacking_half_energy (M : MathFns α) (cs : ThreeSPN2CrossStackingPotential α)
    (term : EnergyTerm) (cs_kind : Nat) (Badj_B SB : Vec3 α) (rlSB r0 lBij f3 : α) :
    List (EnergyTerm × α) :=
  let lBadj_sq := length_sq Badj_B
  let rlBadj := M.rsqrt lBadj_sq
  let theta_CS := cross_stacking_theta M Badj_B SB rlSB
  let fCS := cs.f cs_kind theta_CS
  if fCS ≠ 0 then
    let e_CS := cs.epsilon cs_kind
    let a_CS := cs.alpha
    let r0_CS := cs.r0 cs_kind
    let lBadj := lBadj_sq * rlBadj
    let term_exp := 1.0 - M.exp (-a_CS * (lBadj - r0_CS))
    let U_attr := if r0 < lBij then -e_CS + e_CS * term_exp * term_exp else -e_CS
    [(term, f3 * fCS * U_attr)]
  else []

/-- Cross-stacking part of `calc_energy` for one pair (lines 709-831);
`math::dor_product` (line 720) is read as `math::dot_product`. -/
def cross_stacking_energy (M : MathFns α) (cs : ThreeSPN2CrossStackingPotential α)
    (sys : System α) (bp_kind : Nat) (rBi rBj SBi SBj : Vec3 α)
    (rlSBi rlSBj r0 lBij : α) (Bi Bj : Nat) : List (EnergyTerm × α) :=
  let Bi3 := cs.B3 Bi
  let Bj5 := cs.B5 Bj
  let Bi3_exists := decide (Bi3 ≠ cs.invalid)
  let Bj5_exists := decide (Bj5 ≠ cs.invalid)
  if (!Bi3_exists && !Bj5_exists) = true then []
  else
    let dot_SBiSBj := dot_product SBi SBj
    let cos_theta3 := dot_SBiSBj * rlSBi * rlSBj
    let theta3 := M.acos (clamp cos_theta3 (-1) 1)
    let f3 := cs.f_bp bp_kind theta3
    if f3 = 0 then []
    else
      let half5 :=
        if Bj5_exists = true then
          cross_stacking_half_energy M cs EnergyTerm.cross_stacking_5 (cs.cs5_kind Bi Bj5)
            (sys.adjust_direction (rBi - sys.position Bj5)) SBi rlSBi r0 lBij f3
        else []
      let half3 :=
        if Bi3_exists = true then
          cross_stacking_half_energy M cs EnergyTerm.cross_stacking_3 (cs.cs3_kind Bj Bi3)
            (sys.adjust_direction (rBj - sys.position Bi3)) SBj rlSBj r0 lBij f3
        else []
      half5 ++ half3

/-- Body of the pair loop of `calc_energy` (lines 570-831) for the neighbor entry `ptnr`
of base `i`: the amounts added to `E`, in order. The particle indices written `Bi`, `Bj`
(lines 709-710) are the bases `i`, `j`. -/
def pair_energy (M : MathFns α) (self : ThreeSPN2BaseBaseInteraction α) (sys : System α)
    (i : Nat) (ptnr : Nat × BasePairParameter) : List (EnergyTerm × α) :=
  let bp := self.base_pairing_potential_
  let j := ptnr.1
  let bp_kind := ptnr.2.bp_kind
  let g := pair_geometry M sys i ptnr
  if g.lBij_sq > bp.cutoff_sq bp_kind then []
  else
    let r0 := bp.r0 bp_kind
    let e_BP := bp.epsilon bp_kind
    let a_BP := bp.alpha
    repulsive_energy M a_BP e_BP r0 g.lBij
      ++ attractive_energy M bp bp_kind g.Bij g.SBi g.SBj g.lBij g.rlBij g.theta1 g.theta2
          r0 e_BP a_BP
      ++ cross_stacking_energy M self.cross_stacking_potential_ sys bp_kind
          (sys.position i) (sys.position j) g.SBi g.SBj g.rlSBi g.rlSBj r0 g.lBij i j

/-- Energy evaluation `calc_energy`: `E` starts at `0.0` and every amount of every pair
is added to it in turn. -/
def calc_energy (M : MathFns α) (self : ThreeSPN2BaseBaseInteraction α) (sys : System α) :
    α :=
  self.participants.foldl
    (fun E i => (self.partners i).foldl
      (fun E ptnr => (pair_energy M self sys i ptnr).foldl (fun E e => E + e.2) E) E)
    0.0

end ThreeSPN2BaseBaseInteraction

namespace ThreeSPN2BaseBaseInteraction

variable {α : Type} [LinearOrderedField α]

/-- The angle `theta3` between the two sugar-base vectors (lines 343-345, 720-722). -/
def cross_stacking_theta3 (M : MathFns α) (SBi SBj : Vec3 α) (rlSBi rlSBj : α) : α :=
  let dot_SBiSBj := dot_product SBi SBj
  let cos_theta3 := dot_SBiSBj * rlSBi * rlSBj
  M.acos (clamp cos_theta3 (-1) 1)

/-- The vector `fSi_theta3` of `calc_force` (lines 357-361); the sine is taken of
`cos_theta3`, as line 357 does. -/
def theta3_fSi (M : MathFns α) (tolerance : α) (SBi SBj BSi_reg BSj_reg : Vec3 α)
    (rlSBi rlSBj : α) : Vec3 α :=
  let dot_SBiSBj := dot_product SBi SBj
  let cos_theta3 := dot_SBiSBj * rlSBi * rlSBj
  let sin_theta3 := M.sin cos_theta3
  let rsin_theta3 := if sin_theta3 > tolerance then 1 / sin_theta3 else 1 / tolerance
  (rsin_theta3 * rlSBi) * (cos_theta3 * BSi_reg - BSj_reg)

/-- The vector `fSj_theta3` of `calc_force` (lines 357-362). -/
def theta3_fSj (M : MathFns α) (tolerance : α) (SBi SBj BSi_reg BSj_reg : Vec3 α)
    (rlSBi rlSBj : α) : Vec3 α :=
  let dot_SBiSBj := dot_product SBi SBj
  let cos_theta3 := dot_SBiSBj * rlSBi * rlSBj
  let sin_theta3 := M.sin cos_theta3
  let rsin_theta3 := if sin_theta3 > tolerance then 1 / sin_theta3 else 1 / tolerance
  (rsin_theta3 * rlSBj) * (cos_theta3 * BSj_reg - BSi_reg)

end ThreeSPN2BaseBaseInteraction

/-! ## Rigid rotation of a system -/

/-- The matrix with rows `Q.x`, `Q.y`, `Q.z` applied to the vector `v`. -/
def rotate {α : Type} [Add α] [Mul α] (Q : Vec3 (Vec3 α)) (v : Vec3 α) : Vec3 α :=
  ⟨dot_product Q.x v, dot_product Q.y v, dot_product Q.z v⟩

/-- The matrix `Q` is a proper rotation: its columns are orthonormal and its determinant
is `1`. -/
def is_proper_rotation {α : Type} [LinearOrderedField α] (Q : Vec3 (Vec3 α)) : Prop :=
  Q.x.x * Q.x.x + Q.y.x * Q.y.x + Q.z.x * Q.z.x = 1
  ∧ Q.x.y * Q.x.y + Q.y.y * Q.y.y + Q.z.y * Q.z.y = 1
  ∧ Q.x.z * Q.x.z + Q.y.z * Q.y.z + Q.z.z * Q.z.z = 1
  ∧ Q.x.x * Q.x.y + Q.y.x * Q.y.y + Q.z.x * Q.z.y = 0
  ∧ Q.x.x * Q.x.z + Q.y.x * Q.y.z + Q.z.x * Q.z.z = 0
  ∧ Q.x.y * Q.x.z + Q.y.y * Q.y.z + Q.z.y * Q.z.z = 0
  ∧ dot_product Q.x (cross_product Q.y Q.z) = 1

/-- The system with every particle position rotated by `Q`; the boundary is kept. -/
def rotate_system {α : Type} [Add α] [Mul α] (Q : Vec3 (Vec3 α)) (sys : System α) :
    System α :=
  { sys with positions := sys.positions.map (rotate Q) }

/-! ## 3SPN2 base-stacking potential -/

/-- The members of `ThreeSPN2BaseStackingPotential`: the flag `unit_converted_`, the
constants of the window function and the three parameter tables, indexed by
`base_stack_kind`. -/
structure ThreeSPN2BaseStackingPotential (α : Type) where
  unit_converted_ : Bool
  K_BS_ : α
  pi_over_K_BS_ : α
  alpha_BS_ : α
  epsilon_BS_ : List α
  r0_BS_ : List α
  theta0_BS_ : List α

namespace ThreeSPN2BaseStackingPotential

variable {α : Type} [LinearOrderedField α]

/-- The potential as constructed, by its member initialisers: `K_BS_ = 6.0` and
`pi_over_K_BS_ = pi / 6.0`, which no member function changes, and the tables in kJ/mol,
angstrom and degree. -/
def constructed (M : MathFns α) : ThreeSPN2BaseStackingPotential α :=
  { unit_converted_ := false, K_BS_ := 6.0, pi_over_K_BS_ := M.pi / 6.0, alpha_BS_ := 3.0,
    epsilon_BS_ :=
      [14.39, 14.34, 13.25, 14.51, 10.37, 13.36, 10.34, 12.89,
       14.81, 15.57, 14.93, 15.39, 11.42, 12.79, 10.52, 13.24],
    r0_BS_ :=
      [3.716, 3.675, 3.827, 3.975, 4.238, 3.984, 4.416, 4.468,
       3.576, 3.598, 3.664, 3.822, 3.859, 3.586, 4.030, 3.957],
    theta0_BS_ :=
      [101.15, 85.94, 105.26, 90.26, 101.59, 89.50, 104.31, 90.82,
       100.89, 84.83, 105.48, 90.18, 115.95, 101.51, 119.32, 104.49] }

/-- The member function `update`, which does nothing. -/
def update (self : ThreeSPN2BaseStackingPotential α) (_sys : System α) :
    ThreeSPN2BaseStackingPotential α := self

/-- The member function `initialize`. The unit system is the one of
`physics::constants` (`energy_unit`, `length_unit`) with the factors `J_to_cal` and
`angstrom_to_nm` of `unit::constants`; a failed `assert` gives `none`. -/
def initialise (M : MathFns α) (energy_unit length_unit : String)
    (J_to_cal angstrom_to_nm : α) (self : ThreeSPN2BaseStackingPotential α)
    (sys : System α) : Option (ThreeSPN2BaseStackingPotential α) :=
  if self.unit_converted_ = false then
    if ¬ (energy_unit = "kJ/mol" ∨ energy_unit = "kcal/mol") then none
    else
      let self1 :=
        if energy_unit = "kcal/mol" then
          { self with epsilon_BS_ := self.epsilon_BS_.map (fun epsilon => epsilon * J_to_cal) }
        else self
      if ¬ (length_unit = "nm" ∨ length_unit = "angstrom") then none
      else
        let self2 :=
          if length_unit = "nm" then
            { self1 with r0_BS_ := self1.r0_BS_.map (fun r0_BS => r0_BS * angstrom_to_nm) }
          else self1
        let self3 :=
          { self2 with
            theta0_BS_ := self2.theta0_BS_.map (fun theta0_BS => theta0_BS * (M.pi / 180.0)) }
        some (update { self3 with unit_converted_ := true } sys)
  else some (update self sys)

/-- The accessor `r0(bs)`. -/
def r0 (self : ThreeSPN2BaseStackingPotential α) (bs : Nat) : α := self.r0_BS_.getD bs 0

/-- The accessor `theta_0(bs)`. -/
def theta_0 (self : ThreeSPN2BaseStackingPotential α) (bs : Nat) : α :=
  self.theta0_BS_.getD bs 0

/-- The accessor `epsilon(bs)`. -/
def epsilon (self : ThreeSPN2BaseStackingPotential α) (bs : Nat) : α :=
  self.epsilon_BS_.getD bs 0

/-- The window `f(theta, theta0)`. -/
def f (M : MathFns α) (self : ThreeSPN2BaseStackingPotential α) (theta theta0 : α) : α :=
  let dtheta := theta - theta0
  let abs_dtheta := |dtheta|
  if abs_dtheta < self.pi_over_K_BS_ * 0.5 then 1.0
  else if abs_dtheta < self.pi_over_K_BS_ then
    let cos_Kdtheta := M.cos (self.K_BS_ * dtheta)
    1.0 - cos_Kdtheta * cos_Kdtheta
  else 0.0

/-- The function `df(theta, theta0)`. -/
def df (M : MathFns α) (self : ThreeSPN2BaseStackingPotential α) (theta theta0 : α) : α :=
  let dtheta := theta - theta0
  let abs_dtheta := |dtheta|
  if abs_dtheta < self.pi_over_K_BS_ * 0.5 then 0.0
  else if abs_dtheta < self.pi_over_K_BS_ then
    self.K_BS_ * M.sin (2 * self.K_BS_ * dtheta)
  else 0.0

end ThreeSPN2BaseStackingPotential

/-! ## Global force field -/

/-- The system as a force evaluation sees it: `sys[i].position`, `sys[i].force`,
`sys.size()` and the boundary-aware `adjust_direction`. -/
structure ParticleSystem (α : Type) where
  positions : List (Vec3 α)
  adjust_direction : Vec3 α → Vec3 α
  force : Nat → Vec3 α

namespace ParticleSystem

variable {α : Type}

/-- Number of particles, `sys.size()`. -/
def size (sys : ParticleSystem α) : Nat := sys.positions.length

/-- Position of particle `i`, `sys[i].position`. -/
def position [Zero α] (sys : ParticleSystem α) (i : Nat) : Vec3 α := sys.positions.getD i 0

/-- The statement `sys[i].force += f`. -/
def add_force [Add α] (sys : ParticleSystem α) (i : Nat) (f : Vec3 α) : ParticleSystem α :=
  { sys with force := fun k => if k = i then sys.force k + f else sys.force k }

/-- The statement `sys[i].force -= f`. -/
def sub_force [Sub α] (sys : ParticleSystem α) (i : Nat) (f : Vec3 α) : ParticleSystem α :=
  { sys with force := fun k => if k = i then sys.force k - f else sys.force k }

end ParticleSystem

/-- The interface `GlobalInteractionBase`, whose header is not part of the sources: the
virtual member functions `calc_force` and `calc_energy` that `GlobalForceField` calls,
taken as parameters. What an interaction keeps for itself (its partition) is not part of
a force-field evaluation, which calls every interaction once. -/
structure GlobalInteractionBase (α : Type) where
  calc_force : ParticleSystem α → ParticleSystem α
  calc_energy : ParticleSystem α → α

/-- The class `GlobalForceField`: the container `interactions_`. -/
structure GlobalForceField (α : Type) where
  interactions_ : List (GlobalInteractionBase α)

namespace GlobalForceField

variable {α : Type}

/-- The default-constructed force field: no interaction. -/
def default_constructed : GlobalForceField α := { interactions_ := [] }

/-- Appends an interaction, `GlobalForceField::emplace`. -/
def emplace (self : GlobalForceField α) (inter : GlobalInteractionBase α) :
    GlobalForceField α :=
  { interactions_ := self.interactions_ ++ [inter] }

/-- Force evaluation, `GlobalForceField::calc_force`: every interaction in turn. -/
def calc_force (self : GlobalForceField α) (sys : ParticleSystem α) : ParticleSystem α :=
  self.interactions_.foldl (fun sys item => item.calc_force sys) sys

/-- Energy evaluation, `GlobalForceField::calc_energy`: `energy` starts at `0.` and every
interaction adds its energy in turn. -/
def calc_energy [Zero α] [Add α] (self : GlobalForceField α) (sys : ParticleSystem α) : α :=
  self.interactions_.foldl (fun energy item => energy + item.calc_energy sys) 0

end GlobalForceField

/-! ## Lennard-Jones pair interaction (specialisation for `SimulatorTraits`) -/

/-- The member functions of the template parameter `partitionT` called by the
specialisation, taken as parameters: `update(sys)` and `partners(i)`. -/
structure PartitionInterface (P α : Type) where
  update : P → ParticleSystem α → P
  partners : P → Nat → List Nat

/-- The specialisation `GlobalPairInteraction<SimulatorTraits, LennardJonesPotential,
partitionT>`: its members `potential_` and `partition_`. -/
structure GlobalPairLennardJonesInteraction (P α : Type) where
  potential_ : LennardJonesPotential α
  partition_ : P

namespace GlobalPairLennardJonesInteraction

variable {P α : Type} [LinearOrderedField α]

/-- Loop body of `calc_force` for the partner `j` of particle `i`; `sqrt` is
`std::sqrt`. -/
def calc_force_pair (sqrt : α → α) (self : GlobalPairLennardJonesInteraction P α) (i : Nat)
    (sys : ParticleSystem α) (j : Nat) : ParticleSystem α :=
  let cutoff_ratio : α := LennardJonesPotential.cutoff_ratio
  let cutoff_ratio_sq := cutoff_ratio * cutoff_ratio
  let rij := sys.adjust_direction (sys.position j - sys.position i)
  let l_sq := length_sq rij
  let para_i := self.potential_.radii i
  let para_j := self.potential_.radii j
  let sigma := (para_i.1 + para_j.1) * 0.5
  let sigma_sq := sigma * sigma
  if sigma_sq * cutoff_ratio_sq < l_sq then sys
  else
    let epsilon := if para_i.2 = para_j.2 then para_i.2 else sqrt (para_i.2 * para_j.2)
    let rcp_l_sq := 1 / l_sq
    let s2l2 := sigma_sq * rcp_l_sq
    let s6l6 := s2l2 * s2l2 * s2l2
    let f := rij * (24 * epsilon * (s6l6 - 2 * s6l6 * s6l6) * rcp_l_sq)
    (sys.add_force i f).sub_force j f

/-- Force evaluation, `calc_force`: the partition is updated first, then the pairs of
the updated partition are visited. The result is the interaction and the system after
the call. -/
def calc_force (ops : PartitionInterface P α) (sqrt : α → α)
    (self : GlobalPairLennardJonesInteraction P α) (sys : ParticleSystem α) :
    GlobalPairLennardJonesInteraction P α × ParticleSystem α :=
  let self1 := { self with partition_ := ops.update self.partition_ sys }
  (self1,
    (List.range sys.size).foldl
      (fun sys i =>
        (ops.partners self1.partition_ i).foldl
          (fun sys j => calc_force_pair sqrt self1 i sys j) sys)
      sys)

/-- Loop body of `calc_energy` for the partner `j` of particle `i`; `coef_at_cutoff`
is `potential_type::coef_at_cutoff`, which the potential of the sources does not
declare. -/
def calc_energy_pair (sqrt : α → α) (coef_at_cutoff : α)
    (self : GlobalPairLennardJonesInteraction P α) (sys : ParticleSystem α) (i : Nat)
    (E : α) (j : Nat) : α :=
  let cutoff_ratio : α := LennardJonesPotential.cutoff_ratio
  let cutoff_ratio_sq := cutoff_ratio * cutoff_ratio
  let rij := sys.adjust_direction (sys.position j - sys.position i)
  let l_sq := length_sq rij
  let para_i := self.potential_.radii i
  let para_j := self.potential_.radii j
  let sigma := (para_i.1 + para_j.1) * 0.5
  let sigma_sq := sigma * sigma
  if sigma_sq * cutoff_ratio_sq < l_sq then E
  else
    let epsilon := if para_i.2 = para_j.2 then para_i.2 else sqrt (para_i.2 * para_j.2)
    let s2l2 := sigma_sq / l_sq
    let s6l6 := s2l2 * s2l2 * s2l2
    E + 4 * epsilon * (s6l6 * s6l6 - s6l6 - coef_at_cutoff)

/-- Energy evaluation, `calc_energy`: a `const` member function reading a `const`
system. -/
def calc_energy (ops : PartitionInterface P α) (sqrt : α → α) (coef_at_cutoff : α)
    (self : GlobalPairLennardJonesInteraction P α) (sys : ParticleSystem α) : α :=
  (List.range sys.size).foldl
    (fun E i =>
      (ops.partners self.partition_ i).foldl
        (fun E j => calc_energy_pair sqrt coef_at_cutoff self sys i E j) E)
    0

end GlobalPairLennardJonesInteraction

/-! ## Configuration values -/

/-- The exceptions thrown by the readers: `std::out_of_range`, `toml::type_error` and
`std::runtime_error`, each with its message. -/
inductive Exception where
  | out_of_range (what : String)
  | type_error (what : String)
  | runtime_error (what : String)
deriving DecidableEq

namespace toml

/-- A value of the configuration file, `toml::value` of the library toml11 that the
readers include as `extlib/toml/toml.hpp`: `empty` is the uninitialised value
`toml::value{}`, a table is held as the list of its entries. -/
inductive value where
  | empty
  | boolean (b : Bool)
  | integer (i : Int)
  | floating (x : ℚ)
  | string (s : String)
  | array (a : List value)
  | table (t : List (String × value))

namespace value

/-- The test `v.is_table()`. -/
def is_table : value → Bool
  | table _ => true
  | _ => false

/-- The test `v.is_string()`. -/
def is_string : value → Bool
  | string _ => true
  | _ => false

/-- The test `v.is_uninitialized()`. -/
def is_uninitialized : value → Bool
  | empty => true
  | _ => false

/-- The access `v.as_string(std::nothrow)`, called on strings only. -/
def as_string : value → String
  | string s => s
  | _ => ""

/-- The access `v.as_table()`, which throws on a value that is no table. -/
def as_table : value → Except Exception (List (String × value))
  | table t => Except.ok t
  | _ => Except.error (Exception.type_error "toml::value::as_table: bad_cast")

end value

/-- The number `t.count(key)` of entries under `key`; the keys of a table are unique. -/
def count (t : List (String × value)) (key : String) : Nat :=
  if (t.lookup key).isSome then 1 else 0

/-- The access `t.at(key)`, which throws `std::out_of_range` on a missing key. -/
def at_key (t : List (String × value)) (key : String) : Except Exception value :=
  match t.lookup key with
  | some v => Except.ok v
  | none => Except.error (Exception.out_of_range "unordered_map::at")

/-- The lookup `toml::find(v, key)`: `v` has to be a table that holds `key`. -/
def find (v : value) (key : String) : Except Exception value := do
  let t ← v.as_table
  match t.lookup key with
  | some x => Except.ok x
  | none => Except.error (Exception.out_of_range ("key not found: " ++ key))

/-- The conversion `toml::get<std::string>(v)`. -/
def get_string : value → Except Exception String
  | value.string s => Except.ok s
  | _ => Except.error (Exception.type_error "toml::get: not a string")

/-- The conversion `toml::get<std::size_t>(v)`: the 64-bit integer of the file, cast to
`std::size_t`. -/
def get_size_t : value → Except Exception Nat
  | value.integer i => Except.ok (i % 18446744073709551616).toNat
  | _ => Except.error (Exception.type_error "toml::get: not an integer")

/-- The conversion `toml::get<real_type>(v)`. -/
def get_floating : value → Except Exception ℚ
  | value.floating x => Except.ok x
  | _ => Except.error (Exception.type_error "toml::get: not a floating")

/-- The conversion `toml::get<toml::array>(v)`. -/
def get_array : value → Except Exception (List value)
  | value.array a => Except.ok a
  | _ => Except.error (Exception.type_error "toml::get: not an array")

/-- The typed lookup `toml::find<T>(v, key)`, with `get` for `toml::get<T>`. -/
def find_as {T : Type} (get : value → Except Exception T) (v : value) (key : String) :
    Except Exception T := do
  let x ← find v key
  get x

end toml

/-! ## Readers of the global interactions -/

/-- The overloads of `find_parameter<T>` for `T` other than `std::string`, with `get`
for `toml::get<T>`. -/
def find_parameter {T : Type} (get : toml.value → Except Exception T)
    (params env : toml.value) (name : String) : Except Exception T :=
  match params with
  | toml.value.table t =>
    if toml.count t name ≠ 1 then
      Except.error (Exception.out_of_range ("value " ++ name ++ " does not exists"))
    else do
      let p ← toml.at_key t name
      match p with
      | toml.value.string var =>
        if env.is_uninitialized then
          Except.error (Exception.out_of_range
            ("named variable " ++ var ++ " used but no env is defined"))
        else
          match env with
          | toml.value.table e =>
            if toml.count e var ≠ 1 then
              Except.error (Exception.out_of_range
                ("named variable " ++ var ++ " does not exists"))
            else do
              let q ← toml.at_key e var
              get q
          | _ =>
            Except.error (Exception.out_of_range
              ("named variable " ++ var ++ " does not exists"))
      | _ => get p
  | _ => Except.error (Exception.out_of_range ("value " ++ name ++ " does not exists"))

/-- The overload of `find_parameter<T>` for `T = std::string`: `env` is ignored. -/
def find_parameter_string (params _env : toml.value) (name : String) :
    Except Exception String :=
  match params with
  | toml.value.table t =>
    if toml.count t name ≠ 1 then
      Except.error (Exception.out_of_range ("value " ++ name ++ " does not exists"))
    else do
      let p ← toml.at_key t name
      toml.get_string p
  | _ => Except.error (Exception.out_of_range ("value " ++ name ++ " does not exists"))

/-- The enumeration `parameter_3SPN2::base_kind`, as far as the reader assigns it. -/
inductive base_kind where
  | A | T | G | C
deriving DecidableEq

/-- The members of `ThreeSPN2BaseBaseInteractionPotential::parameter_type` assigned by
the reader. -/
structure parameter_type where
  S_idx : Nat
  strand_index : Nat
  base : base_kind
  B5_idx : Nat
  B3_idx : Nat
deriving DecidableEq

/-- The body of the loop over the parameter tables in
`read_global_3spn2_base_base_interaction` (lines 122-166); `invalid` is
`potential_type::invalid()`. Line 144 initialises the variable `B5` from the key `"B3"`,
line 145 the variable `B3` from the key `"B5"`. -/
def read_base_base_parameter (invalid : Nat) (env param : toml.value) :
    Except Exception (Nat × parameter_type) := do
  let B ← find_parameter toml.get_size_t param env "B"
  let base ← find_parameter_string param env "base"
  if base ≠ "A" ∧ base ≠ "T" ∧ base ≠ "G" ∧ base ≠ "C" then
    let _ ← find_parameter (fun v => Except.ok v) param env "base"
    Except.error (Exception.runtime_error
      "mjolnir::read_global_3spn2_base_base_interaction: invalid base")
  else do
    let S_idx ← find_parameter toml.get_size_t param env "S"
    let strand_index ← find_parameter toml.get_size_t param env "nucleotide_index"
    let kind :=
      if base = "A" then base_kind.A else if base = "T" then base_kind.T
      else if base = "G" then base_kind.G else base_kind.C
    let B5 ← toml.find param "B3"
    let B3 ← toml.find param "B5"
    let B5_idx ←
      (if B5.is_string = true ∧ B5.as_string = "none" then Except.ok invalid
        else toml.get_size_t B5)
    let B3_idx ←
      (if B3.is_string = true ∧ B3.as_string = "none" then Except.ok invalid
        else toml.get_size_t B3)
    Except.ok (B, { S_idx := S_idx, strand_index := strand_index, base := kind,
                    B5_idx := B5_idx, B3_idx := B3_idx })

/-- The code that `read_global_3spn2_base_base_interaction` calls and whose headers are
not part of the sources, taken as parameters: `read_ignored_group`, the constructor of
the potential, and the three `make_unique<ThreeSPN2BaseBaseInteraction<...>>` calls with
a cell list, a Verlet list and the naive pair calculation. -/
structure BaseBaseBuilders (Ign Pot R : Type) where
  read_ignored_group : toml.value → Except Exception Ign
  potential : List (Nat × parameter_type) → Ign → Pot
  with_cell_list : Pot → ℚ → R
  with_verlet_list : Pot → ℚ → R
  with_naive_pair : Pot → R

/-- The reader `read_global_3spn2_base_base_interaction`. -/
def read_global_3spn2_base_base_interaction {Ign Pot R : Type}
    (bb : BaseBaseBuilders Ign Pot R) (invalid : Nat) (global : toml.value) :
    Except Exception R := do
  let g ← global.as_table
  let env ← if toml.count g "env" = 1 then toml.at_key g "env"
    else Except.ok toml.value.empty
  let ps ← toml.find_as toml.get_array global "parameters"
  let params ← ps.mapM (read_base_base_parameter invalid env)
  let ignore ← toml.find global "ignore"
  let ign ← bb.read_ignored_group ignore
  let potential := bb.potential params ign
  let sp ← toml.find global "spatial_partition"
  let type ← toml.find_as toml.get_string sp "type"
  if type = "CellList" then do
    let margin ← toml.find_as toml.get_floating sp "margin"
    Except.ok (bb.with_cell_list potential margin)
  else if type = "VerletList" then do
    let margin ← toml.find_as toml.get_floating sp "margin"
    Except.ok (bb.with_verlet_list potential margin)
  else if type = "Naive" ∨ type = "Nothing" then
    Except.ok (bb.with_naive_pair potential)
  else
    Except.error (Exception.runtime_error
      "mjolnir::read_global_3spn2_base_base_interaction: unknown option")

/-- The readers that `read_global_pair_interaction` calls and whose headers are not part
of the sources, taken as parameters: the five potential readers and
`read_spatial_partition`, which receives the potential just read. -/
structure PairReaders (Pot R : Type) where
  read_excluded_volume_potential : toml.value → Except Exception Pot
  read_debye_huckel_potential : toml.value → Except Exception Pot
  read_lennard_jones_potential : toml.value → Except Exception Pot
  read_uniform_lennard_jones_potential : toml.value → Except Exception Pot
  read_3spn2_excluded_volume_potential : toml.value → Except Exception Pot
  read_spatial_partition : toml.value → Pot → Except Exception R

/-- The reader `read_global_pair_interaction`. -/
def read_global_pair_interaction {Pot R : Type} (rd : PairReaders Pot R)
    (global : toml.value) : Except Exception R := do
  let potential ← toml.find_as toml.get_string global "potential"
  if potential = "ExcludedVolume" then do
    let pot ← rd.read_excluded_volume_potential global
    rd.read_spatial_partition global pot
  else if potential = "DebyeHuckel" then do
    let pot ← rd.read_debye_huckel_potential global
    rd.read_spatial_partition global pot
  else if potential = "LennardJones" then do
    let pot ← rd.read_lennard_jones_potential global
    rd.read_spatial_partition global pot
  else if potential = "UniformLennardJones" then do
    let pot ← rd.read_uniform_lennard_jones_potential global
    rd.read_spatial_partition global pot
  else if potential = "3SPN2ExcludedVolume" then do
    let pot ← rd.read_3spn2_excluded_volume_potential global
    rd.read_spatial_partition global pot
  else
    Except.error (Exception.runtime_error
      "mjolnir::read_global_pair_interaction: invalid potential")

/-- The reader `read_global_interaction`. -/
def read_global_interaction {Ign Pot PotB R : Type} (rd : PairReaders Pot R)
    (bb : BaseBaseBuilders Ign PotB R) (invalid : Nat) (global : toml.value) :
    Except Exception R := do
  let interaction ← toml.find_as toml.get_string global "interaction"
  if interaction = "Pair" then
    read_global_pair_interaction rd global
  else if interaction = "3SPN2BaseBase" then
    read_global_3spn2_base_base_interaction bb invalid global
  else
    Except.error (Exception.runtime_error
      "mjolnir::read_global_interaction: invalid interaction")

/-! ## Gaussian potential -/

/-- The class `GaussianPotential`: its members `epsilon_`, `inv_w2_`, `native_val_`. -/
structure GaussianPotential (α : Type) where
  epsilon_ : α
  inv_w2_ : α
  native_val_ : α

namespace GaussianPotential

variable {α : Type} [LinearOrderedField α]

/-- The constructor `GaussianPotential(e, w, native_val)`: `inv_w2_` is initialised with
`-1./(w*w)`. -/
def construct (e w native_val : α) : GaussianPotential α :=
  { epsilon_ := e, inv_w2_ := -1.0 / (w * w), native_val_ := native_val }

/-- The member function `potential`; the name `inv_w2` of the body is read as the member
`inv_w2_`. -/
def potential (M : MathFns α) (self : GaussianPotential α) (val : α) : α :=
  let dval := val - self.native_val_
  self.epsilon_ * M.exp (self.inv_w2_ * dval * dval)

/-- The member function `derivative`; the name `inv_w2` of the body is read as the member
`inv_w2_`. -/
def derivative (M : MathFns α) (self : GaussianPotential α) (val : α) : α :=
  let dval := val - self.native_val_
  self.inv_w2_ * dval * self.epsilon_ * M.exp (self.inv_w2_ * dval * dval)

end GaussianPotential

/-! ## Simulated annealing simulator -/

/-- The schedule `linear_schedule`: its members `first_` and `last_`. -/
structure linear_schedule (α : Type) where
  first_ : α
  last_ : α

/-- The member function `linear_schedule::current`; a failed `assert` gives `none`. -/
def linear_schedule.current {α : Type} [LinearOrderedField α] (self : linear_schedule α)
    (ratio : α) : Option α :=
  if 0.0 ≤ ratio ∧ ratio ≤ 1.0 then
    some (self.first_ * (1.0 - ratio) + self.last_ * ratio)
  else none

/-- The system as the simulator itself uses it: `attributes name` is
`sys.attribute(name)`; `rest` stands for everything else of the system. -/
structure AttributedSystem (X α : Type) where
  attributes : String → α
  rest : X

namespace AttributedSystem

variable {X α : Type}

/-- The statement `sys.attribute(name) = v`. -/
def attribute_assign (sys : AttributedSystem X α) (name : String) (v : α) :
    AttributedSystem X α :=
  { sys with attributes := fun n => if n = name then v else sys.attributes n }

end AttributedSystem

/-- The member functions of the force field, the integrator and the observer that the
simulator calls and whose headers are not part of the sources, taken as parameters. `R`
is the joint state of `ff_`, `integrator_` and `observer_`; a call returns the system and
the state it leaves. -/
structure SimulatorParts (X R α : Type) where
  delta_t : R → α
  ff_initialise : AttributedSystem X α → α → R → AttributedSystem X α × R
  integrator_initialise : AttributedSystem X α → R → AttributedSystem X α × R
  observer_initialise : AttributedSystem X α → R → AttributedSystem X α × R
  observer_output : α → AttributedSystem X α → R → AttributedSystem X α × R
  observer_is_output_time : R → Bool
  integrator_step : α → AttributedSystem X α → R → AttributedSystem X α × R
  integrator_update : AttributedSystem X α → R → AttributedSystem X α × R

/-- The class `SimulatedAnnealingSimulator`; `parts_` holds `ff_`, `integrator_` and
`observer_`. -/
structure SimulatedAnnealingSimulator (X R α : Type) where
  total_step_ : Nat
  step_count_ : Nat
  time_ : α
  r_total_step_ : α
  scheduler_ : linear_schedule α
  system_ : AttributedSystem X α
  parts_ : R

namespace SimulatedAnnealingSimulator

variable {X R α : Type} [LinearOrderedField α]

/-- The constructor: `step_count_(0)`, `time_(0.)`, `r_total_step_(1.0 / tstep)`. -/
def construct (tstep : Nat) (scheduler : linear_schedule α) (sys : AttributedSystem X α)
    (parts : R) : SimulatedAnnealingSimulator X R α :=
  { total_step_ := tstep, step_count_ := 0, time_ := 0.0, r_total_step_ := 1.0 / (tstep : α),
    scheduler_ := scheduler, system_ := sys, parts_ := parts }

/-- The member function `initialize`. -/
def initialise (P : SimulatorParts X R α) (self : SimulatedAnnealingSimulator X R α) :
    SimulatedAnnealingSimulator X R α :=
  let s1 := P.ff_initialise self.system_ (P.delta_t self.parts_) self.parts_
  let s2 := P.integrator_initialise s1.1 s1.2
  let s3 := P.observer_initialise s2.1 s2.2
  let s4 := P.observer_output 0.0 s3.1 s3.2
  { self with system_ := s4.1, parts_ := s4.2 }

/-- The member function `step`: the returned flag and the simulator after the call;
`step_count_` is a `std::size_t`. -/
def step (P : SimulatorParts X R α) (self : SimulatedAnnealingSimulator X R α) :
    Option (Bool × SimulatedAnnealingSimulator X R α) :=
  let s1 := P.integrator_step self.time_ self.system_ self.parts_
  let step_count := (self.step_count_ + 1) % 18446744073709551616
  let time := (step_count : α) * P.delta_t s1.2
  match self.scheduler_.current ((step_count : α) * self.r_total_step_) with
  | none => none
  | some temperature =>
    let sys2 := s1.1.attribute_assign "temperature" temperature
    let s3 := P.integrator_update sys2 s1.2
    let s4 := if P.observer_is_output_time s3.2 then P.observer_output time s3.1 s3.2 else s3
    some (decide (step_count < self.total_step_),
      { self with step_count_ := step_count, time_ := time, system_ := s4.1, parts_ := s4.2 })

/-- The simulator after `k` calls of `step`, if every call returns. -/
def steps (P : SimulatorParts X R α) :
    Nat → SimulatedAnnealingSimulator X R α → Option (SimulatedAnnealingSimulator X R α)
  | 0, self => some self
  | k + 1, self => (steps P k self).bind (fun s => (step P s).map Prod.snd)

end SimulatedAnnealingSimulator

/-- The component of a coordinate by its index: `0`, `1`, `2` for `x`, `y`, `z`; on a
tensor held by rows, `(m.get p).get q` is the entry `m(p, q)`. -/
def Vec3.get {β : Type} (v : Vec3 β) (a : Fin 3) : β :=
  match a with
  | 0 => v.x
  | 1 => v.y
  | 2 => v.z

/-! ## The pair force of the specialised loop; the OpenMP loop on several threads -/

/-- The vector `f` that the loop body of the specialised `calc_force` applies to the pair
`(i, j)`: `rij` times the kernel, and zero where the body skips the pair
(`continue`). -/
def GlobalPairLennardJonesInteraction.pair_force {P α : Type} [LinearOrderedField α]
    (sqrt : α → α) (self : GlobalPairLennardJonesInteraction P α) (sys : ParticleSystem α)
    (i j : Nat) : Vec3 α :=
  let cutoff_ratio : α := LennardJonesPotential.cutoff_ratio
  let cutoff_ratio_sq := cutoff_ratio * cutoff_ratio
  let rij := sys.adjust_direction (sys.position j - sys.position i)
  let l_sq := length_sq rij
  let para_i := self.potential_.radii i
  let para_j := self.potential_.radii j
  let sigma := (para_i.1 + para_j.1) * 0.5
  let sigma_sq := sigma * sigma
  if sigma_sq * cutoff_ratio_sq < l_sq then 0
  else
    let epsilon := if para_i.2 = para_j.2 then para_i.2 else sqrt (para_i.2 * para_j.2)
    let rcp_l_sq := 1 / l_sq
    let s2l2 := sigma_sq * rcp_l_sq
    let s6l6 := s2l2 * s2l2 * s2l2
    rij * (24 * epsilon * (s6l6 - 2 * s6l6 * s6l6) * rcp_l_sq)

/-- Loop body of the OpenMP `calc_force` for the neighbor entry `ptnr` of particle `i`,
run by the thread for which `omp_get_thread_num()` returns `thread_id`. -/
def OmpLennardJonesInteraction.calc_force_pair_on {α : Type} [LinearOrderedField α]
    (self : OmpLennardJonesInteraction α) (thread_id i : Nat) (sys : OmpSystem α)
    (ptnr : Nat × (α × α)) : OmpSystem α :=
  let cutoff_ratio_sq := self.cutoff_ratio * self.cutoff_ratio
  let j := ptnr.1
  let param := ptnr.2
  let rij := sys.adjust_direction (sys.position i) (sys.position j)
  let l_sq := length_sq rij
  let sigma_sq := param.1 * param.1
  if sigma_sq * cutoff_ratio_sq < l_sq then sys
  else
    let epsilon := param.2
    let rcp_l_sq := 1 / l_sq
    let s2l2 := sigma_sq * rcp_l_sq
    let s6l6 := s2l2 * s2l2 * s2l2
    let f := rij * (24 * epsilon * (s6l6 - 2 * s6l6 * s6l6) * rcp_l_sq)
    let sys1 := sys.add_force_thread thread_id i f
    let sys2 := sys1.sub_force_thread thread_id j f
    sys2.add_virial_thread thread_id (tensor_product rij (-f))

/-- One iteration `idx` of the `omp parallel for` loop of `calc_force`, run by the thread
`thread_id`: the loop over the partners of `i = leading_participants[idx]`. -/
def OmpLennardJonesInteraction.calc_force_iteration {α : Type} [LinearOrderedField α]
    (self : OmpLennardJonesInteraction α) (thread_id idx : Nat) (sys : OmpSystem α) :
    OmpSystem α :=
  let i := self.leading_participants.getD idx 0
  (self.partners i).foldl (fun sys ptnr => self.calc_force_pair_on thread_id i sys ptnr) sys

/-- The OpenMP `calc_force` under `#pragma omp parallel for`: every iteration `idx` of the
outer loop is run by one thread. `schedule` lists the iterations as pairs
`(idx, thread_id)` in an order in which they take effect. An iteration reads the
positions, which no iteration writes, and writes the accumulators of its own thread
only, so what a thread leaves in its accumulators is fixed by the sequence of its
own iterations, and every interleaving of the threads has the effect of such a list. -/
def OmpLennardJonesInteraction.calc_force_parallel {α : Type} [LinearOrderedField α]
    (self : OmpLennardJonesInteraction α) (schedule : List (Nat × Nat))
    (sys : OmpSystem α) : OmpSystem α :=
  schedule.foldl (fun sys e => self.calc_force_iteration e.2 e.1 sys) sys

/-- A schedule of the `n` iterations of a parallel loop on `nthreads` threads: every
iteration `idx < n` is run exactly once, by a thread with a number below `nthreads`. -/
def omp_schedule (n nthreads : Nat) (schedule : List (Nat × Nat)) : Prop :=
  (schedule.map Prod.fst).Perm (List.range n) ∧ ∀ e ∈ schedule, e.2 < nthreads

instance (n nthreads : Nat) (schedule : List (Nat × Nat)) :
    Decidable (omp_schedule n nthreads schedule) :=
  inferInstanceAs (Decidable (_ ∧ _))

/-! ## Sample inputs -/

/-- Two particles on the x axis, at the origin and at `(x, 0, 0)`, unlimited boundary. -/
def two_particles (x : ℚ) : System ℚ :=
  { positions := [⟨0, 0, 0⟩, ⟨x, 0, 0⟩], adjust_direction := fun v => v }

/-- A potential with cutoff `1` and no pair parameter. -/
def unit_potential : PairPotential ℚ Unit :=
  { max_cutoff_length := 1, prepair_params := fun _ _ => () }

/-- A freshly constructed list with cutoff `1`, margin ratio `1/2`, nothing excluded. -/
def sample_list : VerletList ℚ Unit :=
  { cutoff_ := 1, margin_ := 1 / 2, current_margin_ := -1,
    exclusion_ := fun _ _ => false, neighbors_ := NeighborList.clear }

/-- Two Lennard-Jones particles, `sigma = 3` and `sigma = 2`, both with `epsilon = 1`. -/
def sample_lj : LennardJonesPotential ℚ := { radii_ := [(3, 1), (2, 1)] }

/-- Modelled from the spec: the window `f` of `ThreeSPN2BasePairingPotential` (its header
is not part of the sources), as documented in `calc_energy` (lines 644-646) and coded in
`ThreeSPN2BaseStackingPotential::f`: `1` for `|dtheta| < pi/2K`,
`1 - cos^2(K dtheta)` for `|dtheta| < pi/K`, `0` beyond. -/
def window_f {α : Type} [LinearOrderedField α] (M : MathFns α) (K theta theta0 : α) : α :=
  let dtheta := theta - theta0
  let abs_dtheta := |dtheta|
  if abs_dtheta < M.pi / K * 0.5 then 1.0
  else if abs_dtheta < M.pi / K then
    let cos_Kdtheta := M.cos (K * dtheta)
    1.0 - cos_Kdtheta * cos_Kdtheta
  else 0.0

/-- Modelled from the spec: the derivative `df` of the window of
`ThreeSPN2BasePairingPotential`, as coded in `ThreeSPN2BaseStackingPotential::df`:
`K sin(2 K dtheta)` for `pi/2K <= |dtheta| < pi/K`, `0` elsewhere. -/
def window_df {α : Type} [LinearOrderedField α] (M : MathFns α) (K theta theta0 : α) : α :=
  let dtheta := theta - theta0
  let abs_dtheta := |dtheta|
  if abs_dtheta < M.pi / K * 0.5 then 0.0
  else if abs_dtheta < M.pi / K then K * M.sin (2 * K * dtheta)
  else 0.0

/-- A base-pairing potential with `r0 = 1`, `epsilon = 1`, `alpha = 1`, `phi_0 = 0`,
squared cutoff `4`, and the window with `K = 12` centred at `theta0 = 7 pi / 16`. -/
def sample_base_pairing {α : Type} [LinearOrderedField α] (M : MathFns α) :
    ThreeSPN2BasePairingPotential α :=
  { cutoff_sq := fun _ => 4, r0 := fun _ => 1, epsilon := fun _ => 1, alpha := 1,
    phi_0 := fun _ => 0,
    f := fun _ theta => window_f M 12 theta (7 * M.pi / 16),
    df := fun _ theta => window_df M 12 theta (7 * M.pi / 16) }

/-- A cross-stacking potential in which no base has a 3' or 5' neighbour. -/
def sample_cross_stacking {α : Type} [LinearOrderedField α] (M : MathFns α) :
    ThreeSPN2CrossStackingPotential α :=
  { B3 := fun _ => 18446744073709551615, B5 := fun _ => 18446744073709551615,
    invalid := 18446744073709551615,
    cs5_kind := fun _ _ => 0, cs3_kind := fun _ _ => 0,
    f_bp := fun _ theta => window_f M 8 theta (M.pi / 2),
    df_bp := fun _ theta => window_df M 8 theta (M.pi / 2),
    f := fun _ theta => window_f M 8 theta (M.pi / 2),
    df := fun _ theta => window_df M 8 theta (M.pi / 2),
    epsilon := fun _ => 1, r0 := fun _ => 1, alpha := 1 }

/-- One base pair: bases `0` and `1`, bound to the sugars `2` and `3`. -/
def sample_base_base {α : Type} [LinearOrderedField α] (M : MathFns α) :
    ThreeSPN2BaseBaseInteraction α :=
  { base_pairing_potential_ := sample_base_pairing M,
    cross_stacking_potential_ := sample_cross_stacking M,
    participants := [0],
    partners := fun i => if i = 0 then [(1, { Si := 2, Sj := 3, bp_kind := 0 })] else [],
    tolerance := 1 / 1000 }

/-- Bases at `(0,0,0)` and `(1,0,0)`, their sugars at `(0,1,0)` and `(1,1,0)`, unlimited
boundary. -/
def four_particles {α : Type} [LinearOrderedField α] : System α :=
  { positions := [⟨0, 0, 0⟩, ⟨1, 0, 0⟩, ⟨0, 1, 0⟩, ⟨1, 1, 0⟩],
    adjust_direction := fun v => v }

/-- The sample base-pairing potential with the equilibrium distance `r0 = 2`: bases at
distance `1` are inside the repulsive core. -/
def close_base_pairing {α : Type} [LinearOrderedField α] (M : MathFns α) :
    ThreeSPN2BasePairingPotential α :=
  { sample_base_pairing M with r0 := fun _ => 2 }

/-- The sample base pair with the potential `close_base_pairing`. -/
def close_base_base {α : Type} [LinearOrderedField α] (M : MathFns α) :
    ThreeSPN2BaseBaseInteraction α :=
  { sample_base_base M with base_pairing_potential_ := close_base_pairing M }

/-- An interaction that pulls every particle towards the origin: it adds `-r_i` to the
force of particle `i`, and its energy is the sum of the squared distances. -/
def sample_tether : GlobalInteractionBase ℚ :=
  { calc_force := fun sys =>
      { sys with force := fun i => sys.force i + -(sys.positions.getD i 0) },
    calc_energy := fun sys => (sys.positions.map length_sq).sum }

/-- An interaction that adds the uniform force `(1, 0, 0)` to every particle; its energy
is minus the sum of the x coordinates. -/
def sample_drift : GlobalInteractionBase ℚ :=
  { calc_force := fun sys => { sys with force := fun i => sys.force i + ⟨1, 0, 0⟩ },
    calc_energy := fun sys => -(sys.positions.map Vec3.x).sum }

/-- Two particles at `(0,0,0)` and `(1,0,0)` with no force yet, unlimited boundary. -/
def two_particle_system : ParticleSystem ℚ :=
  { positions := [⟨0, 0, 0⟩, ⟨1, 0, 0⟩], adjust_direction := fun v => v,
    force := fun _ => 0 }

/-- The specialised interaction on the sample potential, with a fresh counting
partition. -/
def sample_lj_interaction : GlobalPairLennardJonesInteraction Nat ℚ :=
  { potential_ := sample_lj, partition_ := 0 }

/-- The parameter table of the format comment of
`read_global_3spn2_base_base_interaction` (line 107). -/
def documented_parameter : toml.value :=
  toml.value.table
    [("nucleotide_index", toml.value.integer 0), ("S", toml.value.integer 0),
     ("B", toml.value.integer 1), ("base", toml.value.string "A"),
     ("B5", toml.value.string "none"), ("B3", toml.value.integer 4)]

/-- Bases at `(0,0,0)` and `(1,0,0)`, their sugars at `(0,10,0)` and `(-2,-4,0)`, unlimited
boundary: the sugar-base vectors are `(0,-10,0)` and `(3,4,0)`, of lengths `10` and
`5`. -/
def skew_particles {α : Type} [LinearOrderedField α] : System α :=
  { positions := [⟨0, 0, 0⟩, ⟨1, 0, 0⟩, ⟨0, 10, 0⟩, ⟨-2, -4, 0⟩],
    adjust_direction := fun v => v }

/-- Force field, integrator and observer that leave the system as it is, with the time
step `0.1`. -/
def idle_parts : SimulatorParts Unit Unit ℚ :=
  { delta_t := fun _ => 1 / 10,
    ff_initialise := fun sys _ r => (sys, r),
    integrator_initialise := fun sys r => (sys, r),
    observer_initialise := fun sys r => (sys, r),
    observer_output := fun _ sys r => (sys, r),
    observer_is_output_time := fun _ => true,
    integrator_step := fun _ sys r => (sys, r),
    integrator_update := fun sys r => (sys, r) }

/-- A simulator of `100` steps with the linear schedule from `300` to `10`, built on a
system whose attributes are all `0`. -/
def sample_annealing : SimulatedAnnealingSimulator Unit Unit ℚ :=
  SimulatedAnnealingSimulator.construct 100 { first_ := 300, last_ := 10 }
    { attributes := fun _ => 0, rest := () } ()

/-- An OpenMP interaction on three particles: particle `0` leads the pairs `(0, 1)` and
`(0, 2)`, particle `1` leads the pair `(1, 2)`; `sigma = 1`, `epsilon = 1`. -/
def three_omp_interaction : OmpLennardJonesInteraction ℚ :=
  { cutoff_ratio := 5 / 2, coef_at_cutoff := 0, leading_participants := [0, 1],
    partners := fun i =>
      if i = 0 then [(1, (1, 1)), (2, (1, 1))] else if i = 1 then [(2, (1, 1))] else [] }

/-- Three particles at the corners of a right triangle, unlimited boundary, cleared
accumulators. -/
def three_omp_system : OmpSystem ℚ :=
  { positions := [⟨0, 0, 0⟩, ⟨1, 0, 0⟩, ⟨0, 1, 0⟩], adjust_direction := fun a b => b - a,
    force_thread := fun _ _ => 0, virial_thread := fun _ => 0 }

/-- A schedule on two threads: thread `1` runs iteration `1`, thread `0` runs iteration
`0`, and the writes of thread `1` take effect first. -/
def two_thread_schedule : List (Nat × Nat) := [(1, 1), (0, 0)]

/-! # Theorems -/

namespace Vec3

variable {α : Type}

@[ext]
theorem ext {a b : Vec3 α} (hx : a.x = b.x) (hy : a.y = b.y) (hz : a.z = b.z) : a = b := by
  cases a; cases b; simp_all

@[simp] theorem zero_x [Zero α] : (0 : Vec3 α).x = 0 := rfl
@[simp] theorem zero_y [Zero α] : (0 : Vec3 α).y = 0 := rfl
@[simp] theorem zero_z [Zero α] : (0 : Vec3 α).z = 0 := rfl
@[simp] theorem add_x [Add α] (a b : Vec3 α) : (a + b).x = a.x + b.x := rfl
@[simp] theorem add_y [Add α] (a b : Vec3 α) : (a + b).y = a.y + b.y := rfl
@[simp] theorem add_z [Add α] (a b : Vec3 α) : (a + b).z = a.z + b.z := rfl
@[simp] theorem sub_x [Sub α] (a b : Vec3 α) : (a - b).x = a.x - b.x := rfl
@[simp] theorem sub_y [Sub α] (a b : Vec3 α) : (a - b).y = a.y - b.y := rfl
@[simp] theorem sub_z [Sub α] (a b : Vec3 α) : (a - b).z = a.z - b.z := rfl
@[simp] theorem neg_x [Neg α] (a : Vec3 α) : (-a).x = -a.x := rfl
@[simp] theorem neg_y [Neg α] (a : Vec3 α) : (-a).y = -a.y := rfl
@[simp] theorem neg_z [Neg α] (a : Vec3 α) : (-a).z = -a.z := rfl
@[simp] theorem smul_x [Mul α] (s : α) (a : Vec3 α) : (s * a).x = s * a.x := rfl
@[simp] theorem smul_y [Mul α] (s : α) (a : Vec3 α) : (s * a).y = s * a.y := rfl
@[simp] theorem smul_z [Mul α] (s : α) (a : Vec3 α) : (s * a).z = s * a.z := rfl
@[simp] theorem muls_x [Mul α] (a : Vec3 α) (s : α) : (a * s).x = a.x * s := rfl
@[simp] theorem muls_y [Mul α] (a : Vec3 α) (s : α) : (a * s).y = a.y * s := rfl
@[simp] theorem muls_z [Mul α] (a : Vec3 α) (s : α) : (a * s).z = a.z * s := rfl

end Vec3

/-! ## VerletList -/

section verlet

variable {α π : Type} [LinearOrderedField α]

theorem foldl_push_eq_filter_map {β γ : Type} (p : β → Bool) (f : β → γ) (l : List β)
    (acc : List γ) :
    l.foldl (fun ps j => if p j then ps ++ [f j] else ps) acc
      = acc ++ (l.filter p).map f := by
  induction l generalizing acc with
  | nil => simp
  | cons a t ih =>
    simp only [List.foldl_cons, List.filter_cons]
    by_cases h : p a = true
    · simp [h, ih]
    · simp [h, ih]

theorem range_filter_lt (n i : Nat) (q : Nat → Bool) :
    (List.range n).filter (fun j => decide (i < j) && q j)
      = (List.range' (i + 1) (n - (i + 1))).filter q := by
  by_cases h : i + 1 ≤ n
  · have hsplit : List.range n = List.range (i + 1) ++ List.range' (i + 1) (n - (i + 1)) := by
      have happ := List.range'_append 0 (i + 1) (n - (i + 1)) 1
      rw [Nat.sub_add_cancel h] at happ
      simp only [Nat.zero_add, Nat.one_mul] at happ
      rw [List.range_eq_range', List.range_eq_range', ← happ]
    rw [hsplit, List.filter_append]
    have h1 : (List.range (i + 1)).filter (fun j => decide (i < j) && q j) = [] := by
      rw [List.filter_eq_nil_iff]
      intro a ha
      have : a < i + 1 := List.mem_range.mp ha
      simp
      intro h2
      omega
    rw [h1, List.nil_append]
    apply List.filter_congr
    intro a ha
    have : i + 1 ≤ a := (List.mem_range'_1.mp ha).1
    have h3 : i < a := by omega
    simp [h3]
  · have h0 : n - (i + 1) = 0 := by omega
    rw [h0]
    simp only [List.range'_zero, List.filter_nil]
    rw [List.filter_eq_nil_iff]
    intro a ha
    have : a < n := List.mem_range.mp ha
    simp
    intro h2
    omega

theorem make_partners_eq (vl : VerletList α π) (sys : System α) (pot : PairPotential α π)
    (rc : α) (i : Nat) :
    VerletList.make_partners vl sys pot (rc * rc) i
      = brute_force_partners vl.exclusion_ sys pot.prepair_params rc i := by
  unfold VerletList.make_partners brute_force_partners
  have hfun : (fun (partners : List (Nat × π)) (j : Nat) =>
      if vl.exclusion_ i j = true then partners
      else if length_sq (sys.adjust_direction (sys.position j - sys.position i)) < rc * rc
        then partners ++ [(j, pot.prepair_params i j)]
        else partners)
      = (fun partners j =>
          if (!vl.exclusion_ i j &&
              decide (length_sq (sys.adjust_direction (sys.position j - sys.position i))
                < rc ^ 2)) = true
          then partners ++ [(j, pot.prepair_params i j)] else partners) := by
    funext partners j
    by_cases he : vl.exclusion_ i j = true
    · simp [he]
    · simp [he, pow_two]
  rw [hfun, foldl_push_eq_filter_map, List.nil_append]
  congr 1
  rw [← range_filter_lt]
  apply List.filter_congr
  intro a _
  simp [Bool.and_assoc]

theorem foldl_add_list_for (g : Nat → List (Nat × π)) (l : List Nat) (nl : NeighborList π)
    (k : Nat) :
    (l.foldl (fun nl i => nl.add_list_for i (g i)) nl) k = if k ∈ l then g k else nl k := by
  induction l generalizing nl with
  | nil => simp
  | cons a t ih =>
    simp only [List.foldl_cons, ih, List.mem_cons]
    by_cases hk : k ∈ t
    · simp [hk]
    · by_cases ha : k = a
      · subst ha
        simp [hk, NeighborList.add_list_for]
      · simp [hk, ha, NeighborList.add_list_for]

theorem partners_make (vl : VerletList α π) (sys : System α) (pot : PairPotential α π)
    (i : Nat) :
    (VerletList.make vl sys pot).partners i
      = brute_force_partners vl.exclusion_ sys pot.prepair_params
          (vl.cutoff_ * (1 + vl.margin_)) i := by
  unfold VerletList.make VerletList.partners
  simp only
  rw [foldl_add_list_for, make_partners_eq]
  by_cases hi : i ∈ List.range sys.size
  · simp [hi]
  · simp only [hi, if_false, NeighborList.clear]
    have hi2 : sys.size ≤ i := by simpa using hi
    unfold brute_force_partners
    symm
    rw [List.map_eq_nil_iff, List.filter_eq_nil_iff]
    intro a ha
    have : a < sys.size := List.mem_range.mp ha
    simp
    intro h2
    omega

theorem brute_force_fst {β : Type} [LinearOrderedField β] (ex : Nat → Nat → Bool)
    (sys : System β) (pp : Nat → Nat → π) (rc : β) (i : Nat) :
    (brute_force_partners ex sys pp rc i).map Prod.fst
      = (List.range sys.size).filter (fun j =>
          decide (i < j) && !ex i j &&
          decide (length_sq (sys.adjust_direction (sys.position j - sys.position i))
            < rc ^ 2)) := by
  unfold brute_force_partners
  rw [List.map_map]
  have : (Prod.fst ∘ fun j => (j, pp i j)) = id := by
    funext j
    rfl
  rw [this, List.map_id]

theorem brute_force_sorted {β : Type} [LinearOrderedField β] (ex : Nat → Nat → Bool)
    (sys : System β) (pp : Nat → Nat → π) (rc : β) (i : Nat) :
    ((brute_force_partners ex sys pp rc i).map Prod.fst).Pairwise (fun a b => a < b) := by
  rw [brute_force_fst]
  exact List.Pairwise.filter _ (List.pairwise_lt_range sys.size)

theorem mem_brute_force {β : Type} [LinearOrderedField β] (ex : Nat → Nat → Bool)
    (sys : System β) (pp : Nat → Nat → π) (rc : β) (i j : Nat) (p : π) :
    (j, p) ∈ brute_force_partners ex sys pp rc i ↔
      (i < j ∧ j < sys.size ∧ ex i j = false ∧
        length_sq (sys.adjust_direction (sys.position j - sys.position i)) < rc ^ 2 ∧
        p = pp i j) := by
  unfold brute_force_partners
  simp only [List.mem_map, List.mem_filter, List.mem_range, Bool.and_eq_true,
    decide_eq_true_eq, Bool.not_eq_true', Prod.mk.injEq]
  constructor
  · rintro ⟨a, ⟨ha, ⟨h1, h2⟩, h3⟩, rfl, rfl⟩
    exact ⟨h1, ha, h2, h3, rfl⟩
  · rintro ⟨h1, h2, h3, h4, rfl⟩
    exact ⟨j, ⟨h2, ⟨h1, h3⟩, h4⟩, rfl, rfl⟩

/-- C1: after `VerletList::make` (and so after `initialize` / `reconstruct`) `partners(i)`
is exactly the list of `(j, pot.prepair_params(i, j))` over the indices `j` with
`i < j < N`, `is_excluded(i, j)` false and
`|adjust_direction(r_j - r_i)|^2 < (cutoff * (1 + margin))^2`, in increasing `j`; no pair
appears twice and no pair with `j <= i` appears. -/
theorem verlet_make_partners_exact (vl : VerletList α π)
    (exclusion_make : System α → PairPotential α π → Nat → Nat → Bool)
    (sys : System α) (pot : PairPotential α π) (i : Nat) :
    ((VerletList.make vl sys pot).partners i
        = ((List.range sys.size).filter (fun j =>
            decide (i < j) && !vl.exclusion_ i j &&
            decide (length_sq (sys.adjust_direction (sys.position j - sys.position i))
              < (vl.cutoff_ * (1 + vl.margin_)) ^ 2))).map
          (fun j => (j, pot.prepair_params i j)))
    ∧ (∀ j p, (j, p) ∈ (VerletList.make vl sys pot).partners i ↔
        (i < j ∧ j < sys.size ∧ vl.exclusion_ i j = false ∧
          length_sq (sys.adjust_direction (sys.position j - sys.position i))
            < (vl.cutoff_ * (1 + vl.margin_)) ^ 2 ∧
          p = pot.prepair_params i j))
    ∧ (((VerletList.make vl sys pot).partners i).map Prod.fst).Pairwise (fun a b => a < b)
    ∧ ((VerletList.make vl sys pot).partners i).Nodup
    ∧ ((VerletList.initialise vl exclusion_make sys pot).partners i
        = brute_force_partners (exclusion_make sys pot) sys pot.prepair_params
            (pot.max_cutoff_length * (1 + vl.margin_)) i)
    ∧ ((VerletList.reconstruct vl exclusion_make sys pot).partners i
        = brute_force_partners (exclusion_make sys pot) sys pot.prepair_params
            (pot.max_cutoff_length * (1 + vl.margin_)) i) := by
  have hsorted := brute_force_sorted vl.exclusion_ sys pot.prepair_params
    (vl.cutoff_ * (1 + vl.margin_)) i
  refine ⟨?_, ?_, ?_, ?_, ?_, ?_⟩
  · rw [partners_make]
    rfl
  · intro j p
    rw [partners_make]
    exact mem_brute_force _ _ _ _ _ _ _
  · rw [partners_make]
    exact hsorted
  · rw [partners_make]
    have hnd : ((brute_force_partners vl.exclusion_ sys pot.prepair_params
        (vl.cutoff_ * (1 + vl.margin_)) i).map Prod.fst).Nodup :=
      hsorted.imp (fun h => Nat.ne_of_lt h)
    exact List.Nodup.of_map _ hnd
  · unfold VerletList.initialise
    rw [partners_make]
  · unfold VerletList.reconstruct VerletList.initialise
    rw [partners_make]

theorem verlet_partners_initialise (vl : VerletList α π)
    (exclusion_make : System α → PairPotential α π → Nat → Nat → Bool)
    (sys : System α) (pot : PairPotential α π) (i : Nat) :
    (VerletList.initialise vl exclusion_make sys pot).partners i
      = brute_force_partners (exclusion_make sys pot) sys pot.prepair_params
          (pot.max_cutoff_length * (1 + vl.margin_)) i := by
  unfold VerletList.initialise
  rw [partners_make]

theorem make_ignores_current_margin (vl : VerletList α π) (mu : α) (sys : System α)
    (pot : PairPotential α π) :
    VerletList.make { vl with current_margin_ := mu } sys pot = VerletList.make vl sys pot := rfl

theorem update_eq_ite (vl : VerletList α π) (d : α) (sys : System α)
    (pot : PairPotential α π) :
    VerletList.update vl d sys pot
      = if 0 ≤ vl.current_margin_ - d
          then { vl with current_margin_ := vl.current_margin_ - d }
          else VerletList.make vl sys pot := by
  unfold VerletList.update
  by_cases h : 0 ≤ vl.current_margin_ - d
  · simp [h, not_lt.mpr h]
  · simp only [h, if_false]
    rw [if_pos (not_le.mp h)]
    rfl

theorem updates_no_rebuild (pot : PairPotential α π) (steps : List (α × System α))
    (vl : VerletList α π)
    (h : ∀ k, k ≤ steps.length → 0 ≤ vl.current_margin_ - ((steps.take k).map Prod.fst).sum) :
    VerletList.updates vl pot steps
      = { vl with current_margin_ := vl.current_margin_ - (steps.map Prod.fst).sum } := by
  induction steps generalizing vl with
  | nil => simp [VerletList.updates]
  | cons a t ih =>
    obtain ⟨d, sys⟩ := a
    have h1 : 0 ≤ vl.current_margin_ - d := by
      have := h 1 (by simp)
      simpa using this
    have hu : VerletList.update vl d sys pot
        = { vl with current_margin_ := vl.current_margin_ - d } := by
      rw [update_eq_ite, if_pos h1]
    simp only [VerletList.updates, hu]
    rw [ih]
    · simp only [List.map_cons, List.sum_cons, sub_sub]
    · intro k hk
      have := h (k + 1) (by simpa using hk)
      simpa [sub_sub] using this

theorem take_sum_le_of_nonneg (l : List α) (hl : ∀ e ∈ l, 0 ≤ e) (k : Nat) :
    (l.take k).sum ≤ l.sum := by
  induction l generalizing k with
  | nil => simp
  | cons a t ih =>
    cases k with
    | zero =>
      simp only [List.take_zero, List.sum_nil, List.sum_cons]
      have h0 : 0 ≤ a := hl a (by simp)
      have h1 : 0 ≤ t.sum := List.sum_nonneg (fun e he => hl e (by simp [he]))
      linarith
    | succ k =>
      simp only [List.take_succ_cons, List.sum_cons]
      have := ih (fun e he => hl e (by simp [he])) k
      linarith

/-- C2: build the list with `make` on `sys0`, then run `update` calls none of which
triggers a rebuild (the remaining margin `cutoff * margin - (d_1 + ... + d_k)` stays
non-negative). A non-excluded pair `i < j` whose distance moved from `d0` at build time to
`d1` now, with `|d1 - d0| <= d_1 + ... + d_n` and `d1 < cutoff`, is present in
`partners(i)`: no interacting pair is missed between rebuilds. -/
theorem verlet_no_pair_missed (vl : VerletList α π) (sys0 sysNow : System α)
    (pot : PairPotential α π) (steps : List (α × System α)) (i j : Nat) (d0 d1 : α)
    (hnorebuild : ∀ k, k ≤ steps.length →
      0 ≤ vl.cutoff_ * vl.margin_ - ((steps.take k).map Prod.fst).sum)
    (hd0 : 0 ≤ d0 ∧
      d0 ^ 2 = length_sq (sys0.adjust_direction (sys0.position j - sys0.position i)))
    (_hd1 : 0 ≤ d1 ∧
      d1 ^ 2 = length_sq (sysNow.adjust_direction (sysNow.position j - sysNow.position i)))
    (hmove : |d1 - d0| ≤ (steps.map Prod.fst).sum)
    (hij : i < j) (hj : j < sys0.size) (hex : vl.exclusion_ i j = false)
    (hin : d1 < vl.cutoff_) :
    (j, pot.prepair_params i j)
      ∈ (VerletList.updates (VerletList.make vl sys0 pot) pot steps).partners i := by
  have hstate := updates_no_rebuild pot steps (VerletList.make vl sys0 pot) hnorebuild
  have hp : (VerletList.updates (VerletList.make vl sys0 pot) pot steps).partners i
      = (VerletList.make vl sys0 pot).partners i := by
    rw [hstate]
    rfl
  rw [hp, partners_make, mem_brute_force]
  refine ⟨hij, hj, hex, ?_, rfl⟩
  rw [← hd0.2]
  have hS : (steps.map Prod.fst).sum ≤ vl.cutoff_ * vl.margin_ := by
    have := hnorebuild steps.length le_rfl
    rw [List.take_length] at this
    linarith
  have hlt : d0 < vl.cutoff_ * (1 + vl.margin_) := by
    have := (abs_le.mp hmove).1
    nlinarith
  have hpos : 0 ≤ d0 := hd0.1
  exact pow_lt_pow_left₀ hlt hpos (by norm_num)

/-- C3: `VerletList::update(d, sys, pot)` on a list whose remaining margin is `mu`: when
`mu - d >= 0` only the remaining margin changes, to `mu - d`; when `mu - d < 0` the
resulting state is exactly that of `make(sys, pot)`, whose remaining margin is
`cutoff * margin ratio` and whose cutoff and margin ratio are those before the call. -/
theorem verlet_update_spec (vl : VerletList α π) (d : α) (sys : System α)
    (pot : PairPotential α π) :
    (VerletList.update vl d sys pot
      = if 0 ≤ vl.current_margin_ - d
          then { cutoff_ := vl.cutoff_, margin_ := vl.margin_,
                 current_margin_ := vl.current_margin_ - d,
                 exclusion_ := vl.exclusion_, neighbors_ := vl.neighbors_ }
          else VerletList.make vl sys pot)
    ∧ (VerletList.make vl sys pot).current_margin_ = vl.cutoff_ * vl.margin_
    ∧ (VerletList.make vl sys pot).cutoff_ = vl.cutoff_
    ∧ (VerletList.make vl sys pot).margin_ = vl.margin_ :=
  ⟨update_eq_ite vl d sys pot, rfl, rfl, rfl⟩

/-- C4: `initialize` leaves `valid()` true and the remaining margin equal to
`pot.max_cutoff_length() * margin ratio` (cutoff and margin ratio non-negative). For
non-negative `d_1, d_2, ...`: while the running sum is at most the initial margin no
rebuild happens (only the remaining margin changes), and the first call at which the
running sum exceeds the initial margin rebuilds the list, so that `partners(i)` is the
brute-force neighbor list of the system passed to that call and `valid()` is true. -/
theorem verlet_margin_triggered_rebuild (vl : VerletList α π)
    (exclusion_make : System α → PairPotential α π → Nat → Nat → Bool)
    (sys0 : System α) (pot : PairPotential α π)
    (pre : List (α × System α)) (d : α) (sys : System α)
    (hc : 0 ≤ pot.max_cutoff_length) (hm : 0 ≤ vl.margin_)
    (hnonneg : ∀ e ∈ pre, 0 ≤ e.1)
    (hpre : (pre.map Prod.fst).sum ≤ pot.max_cutoff_length * vl.margin_)
    (hexceed : pot.max_cutoff_length * vl.margin_ < (pre.map Prod.fst).sum + d) :
    (VerletList.initialise vl exclusion_make sys0 pot).valid = true
    ∧ (VerletList.initialise vl exclusion_make sys0 pot).current_margin_
        = pot.max_cutoff_length * vl.margin_
    ∧ (VerletList.updates (VerletList.initialise vl exclusion_make sys0 pot) pot pre
        = { VerletList.initialise vl exclusion_make sys0 pot with
            current_margin_ := pot.max_cutoff_length * vl.margin_ - (pre.map Prod.fst).sum })
    ∧ (∀ i, (VerletList.updates (VerletList.initialise vl exclusion_make sys0 pot) pot
              pre).partners i
          = brute_force_partners (exclusion_make sys0 pot) sys0 pot.prepair_params
              (pot.max_cutoff_length * (1 + vl.margin_)) i)
    ∧ (∀ i, (VerletList.updates (VerletList.initialise vl exclusion_make sys0 pot) pot
              (pre ++ [(d, sys)])).partners i
          = brute_force_partners (exclusion_make sys0 pot) sys pot.prepair_params
              (pot.max_cutoff_length * (1 + vl.margin_)) i)
    ∧ (VerletList.updates (VerletList.initialise vl exclusion_make sys0 pot) pot
          (pre ++ [(d, sys)])).valid = true := by
  have hM : (VerletList.initialise vl exclusion_make sys0 pot).current_margin_
      = pot.max_cutoff_length * vl.margin_ := rfl
  have hM0 : 0 ≤ pot.max_cutoff_length * vl.margin_ := mul_nonneg hc hm
  have hpre_state : VerletList.updates (VerletList.initialise vl exclusion_make sys0 pot) pot pre
      = { VerletList.initialise vl exclusion_make sys0 pot with
          current_margin_ := pot.max_cutoff_length * vl.margin_ - (pre.map Prod.fst).sum } := by
    have hside : ∀ k, k ≤ pre.length →
        0 ≤ (VerletList.initialise vl exclusion_make sys0 pot).current_margin_
              - ((pre.take k).map Prod.fst).sum := by
      intro k _
      rw [hM]
      have hk : ((pre.take k).map Prod.fst).sum ≤ (pre.map Prod.fst).sum := by
        rw [List.map_take]
        apply take_sum_le_of_nonneg
        intro e he
        obtain ⟨a, ha, rfl⟩ := List.mem_map.mp he
        exact hnonneg a ha
      linarith
    rw [updates_no_rebuild pot pre _ hside]
    rfl
  have happ : ∀ (l : List (α × System α)) (w : VerletList α π),
      VerletList.updates w pot (l ++ [(d, sys)])
        = VerletList.update (VerletList.updates w pot l) d sys pot := by
    intro l
    induction l with
    | nil => intro w; simp [VerletList.updates]
    | cons a t ih =>
      intro w
      obtain ⟨d1, s1⟩ := a
      simp only [List.cons_append, VerletList.updates]
      exact ih _
  have hfinal : VerletList.updates (VerletList.initialise vl exclusion_make sys0 pot) pot
      (pre ++ [(d, sys)])
      = VerletList.make (VerletList.initialise vl exclusion_make sys0 pot) sys pot := by
    rw [happ, hpre_state, update_eq_ite]
    have hneg : ¬ (0 ≤ pot.max_cutoff_length * vl.margin_ - (pre.map Prod.fst).sum - d) := by
      intro h
      linarith
    simp only [hneg, if_false]
    rfl
  refine ⟨?_, hM, hpre_state, ?_, ?_, ?_⟩
  · simp only [VerletList.valid, decide_eq_true_eq]
    rw [hM]
    exact hM0
  · intro i
    rw [hpre_state]
    exact (verlet_partners_initialise vl exclusion_make sys0 pot i)
  · intro i
    rw [hfinal, partners_make]
    rfl
  · rw [hfinal]
    simp only [VerletList.valid, decide_eq_true_eq]
    exact hM0

end verlet

theorem two_particles_length_sq (x : ℚ) :
    length_sq ((two_particles x).adjust_direction
      ((two_particles x).position 1 - (two_particles x).position 0)) = x * x := by
  simp [two_particles, System.position, length_sq]

/-- Witness of C2: the list is built at separation `6/5` (cutoff `1`, margin ratio `1/2`),
two updates of `1/4` each follow, and the pair, now at separation `9/10`, is present. -/
theorem verlet_no_pair_missed_witness :
    (1, ()) ∈ (VerletList.updates (VerletList.make sample_list (two_particles (6 / 5))
        unit_potential) unit_potential
        [(1 / 4, two_particles 1), (1 / 4, two_particles (9 / 10))]).partners 0 :=
  verlet_no_pair_missed sample_list (two_particles (6 / 5)) (two_particles (9 / 10))
    unit_potential [(1 / 4, two_particles 1), (1 / 4, two_particles (9 / 10))] 0 1
    (6 / 5) (9 / 10)
    (by
      intro k hk
      have hk2 : k ≤ 2 := hk
      interval_cases k <;> norm_num [sample_list])
    ⟨by norm_num, by rw [two_particles_length_sq]; norm_num⟩
    ⟨by norm_num, by rw [two_particles_length_sq]; norm_num⟩
    (by norm_num [abs_le])
    (by norm_num) (by simp [two_particles, System.size]) rfl (by norm_num [sample_list])

/-- Witness of C4: cutoff `1`, margin ratio `1/2`; the updates `1/4, 1/4` keep the list,
the next update `1/8` exceeds the initial margin `1/2` and rebuilds it on the system
passed to that call. -/
theorem verlet_margin_triggered_rebuild_witness :
    (VerletList.updates
          (VerletList.initialise sample_list (fun _ _ _ _ => false) (two_particles (6 / 5))
            unit_potential) unit_potential
          ([(1 / 4, two_particles 1), (1 / 4, two_particles 2)]
            ++ [(1 / 8, two_particles 3)])).partners 0
        = brute_force_partners (fun _ _ => false) (two_particles 3)
            unit_potential.prepair_params
            (unit_potential.max_cutoff_length * (1 + sample_list.margin_)) 0 :=
  (verlet_margin_triggered_rebuild sample_list (fun _ _ _ _ => false) (two_particles (6 / 5))
    unit_potential [(1 / 4, two_particles 1), (1 / 4, two_particles 2)] (1 / 8)
    (two_particles 3)
    (by norm_num [unit_potential]) (by norm_num [sample_list])
    (by
      intro e he
      simp only [List.mem_cons, List.mem_singleton, List.not_mem_nil, or_false] at he
      rcases he with rfl | rfl <;> norm_num)
    (by norm_num [unit_potential, sample_list])
    (by norm_num [unit_potential, sample_list])).2.2.2.2.1 0

/-- Counterexample to C5: with cutoff `1` and margin ratio `1/2`, two particles at
separation `6/5`: right after `make` the pair `(0, 1)` is reported by `partners(0)`
although its distance `6/5` is not below the cutoff. -/
theorem verlet_rebuild_not_within_cutoff :
    (1, ()) ∈ (VerletList.make sample_list (two_particles (6 / 5)) unit_potential).partners 0
    ∧ (0 : ℚ) ≤ 6 / 5
    ∧ ((6 / 5 : ℚ)) ^ 2 = length_sq ((two_particles (6 / 5)).adjust_direction
        ((two_particles (6 / 5)).position 1 - (two_particles (6 / 5)).position 0))
    ∧ ¬ ((6 / 5 : ℚ) < sample_list.cutoff_)
    ∧ brute_force_partners sample_list.exclusion_ (two_particles (6 / 5))
        unit_potential.prepair_params sample_list.cutoff_ 0 = []
    ∧ (VerletList.make sample_list (two_particles (6 / 5)) unit_potential).partners 0
        ≠ brute_force_partners sample_list.exclusion_ (two_particles (6 / 5))
            unit_potential.prepair_params sample_list.cutoff_ 0 := by
  have hmem : (1, ()) ∈ (VerletList.make sample_list (two_particles (6 / 5))
      unit_potential).partners 0 := by
    rw [partners_make, mem_brute_force, two_particles_length_sq]
    refine ⟨by norm_num, by simp [two_particles, System.size], rfl, ?_, rfl⟩
    norm_num [sample_list]
  have hnil : brute_force_partners sample_list.exclusion_ (two_particles (6 / 5))
      unit_potential.prepair_params sample_list.cutoff_ 0 = [] := by
    apply List.eq_nil_iff_forall_not_mem.mpr
    rintro ⟨j, p⟩ hjp
    rw [mem_brute_force] at hjp
    obtain ⟨h1, h2, _, h4, _⟩ := hjp
    have hj : j = 1 := by
      have : j < 2 := h2
      omega
    subst hj
    rw [two_particles_length_sq] at h4
    norm_num [sample_list] at h4
  refine ⟨hmem, by norm_num, ?_, by norm_num [sample_list], hnil, ?_⟩
  · rw [two_particles_length_sq]
    norm_num
  · intro h
    rw [h, hnil] at hmem
    simp at hmem

/-- C5 (amended): immediately after a rebuild the set of pairs reported by `partners` is
exactly the brute-force set of non-excluded pairs `i < j` whose squared distance is below
`(cutoff * (1 + margin))^2`; with margin ratio `0` it is the set of pairs within the
cutoff. -/
theorem verlet_rebuild_pair_set {α π : Type} [LinearOrderedField α] (vl : VerletList α π)
    (sys : System α) (pot : PairPotential α π) (i j : Nat) :
    ((∃ p, (j, p) ∈ (VerletList.make vl sys pot).partners i) ↔
      (i < j ∧ j < sys.size ∧ vl.exclusion_ i j = false ∧
        length_sq (sys.adjust_direction (sys.position j - sys.position i))
          < (vl.cutoff_ * (1 + vl.margin_)) ^ 2))
    ∧ ((∃ p, (j, p) ∈ (VerletList.make { vl with margin_ := 0 } sys pot).partners i) ↔
      (i < j ∧ j < sys.size ∧ vl.exclusion_ i j = false ∧
        length_sq (sys.adjust_direction (sys.position j - sys.position i))
          < vl.cutoff_ ^ 2)) := by
  constructor
  · rw [partners_make]
    constructor
    · rintro ⟨p, hp⟩
      obtain ⟨h1, h2, h3, h4, _⟩ := (mem_brute_force _ _ _ _ _ _ _).mp hp
      exact ⟨h1, h2, h3, h4⟩
    · rintro ⟨h1, h2, h3, h4⟩
      exact ⟨pot.prepair_params i j, (mem_brute_force _ _ _ _ _ _ _).mpr ⟨h1, h2, h3, h4, rfl⟩⟩
  · rw [partners_make]
    simp only [add_zero, mul_one]
    constructor
    · rintro ⟨p, hp⟩
      obtain ⟨h1, h2, h3, h4, _⟩ := (mem_brute_force _ _ _ _ _ _ _).mp hp
      exact ⟨h1, h2, h3, h4⟩
    · rintro ⟨h1, h2, h3, h4⟩
      exact ⟨pot.prepair_params i j, (mem_brute_force _ _ _ _ _ _ _).mpr ⟨h1, h2, h3, h4, rfl⟩⟩

/-! ## Lennard-Jones potential -/

section lennard_jones

variable {α : Type} [LinearOrderedField α]

theorem lj_potential_eq (sqrt : α → α) (pot : LennardJonesPotential α) (i j : Nat) (r : α) :
    LennardJonesPotential.potential sqrt pot i j r
      = if r ≤ 2.5 * (((pot.radii i).1 + (pot.radii j).1) / 2)
        then 4 * (if (pot.radii i).2 = (pot.radii j).2 then (pot.radii i).2
                  else sqrt ((pot.radii i).2 * (pot.radii j).2))
              * (((((pot.radii i).1 + (pot.radii j).1) / 2) / r) ^ 12
                  - ((((pot.radii i).1 + (pot.radii j).1) / 2) / r) ^ 6)
        else 0 := by
  unfold LennardJonesPotential.potential LennardJonesPotential.cutoff_ratio
  simp only
  have hs : (0.5 : α) * ((pot.radii i).1 + (pot.radii j).1)
      = ((pot.radii i).1 + (pot.radii j).1) / 2 := by
    rw [show (0.5 : α) = 1 / 2 by norm_num]
    ring
  rw [hs]
  by_cases h : ((pot.radii i).1 + (pot.radii j).1) / 2 * 2.5 < r
  · have h2 : ¬ (r ≤ 2.5 * (((pot.radii i).1 + (pot.radii j).1) / 2)) := by
      rw [mul_comm]
      exact not_le.mpr h
    rw [if_pos h, if_neg h2]
    norm_num
  · have h2 : r ≤ 2.5 * (((pot.radii i).1 + (pot.radii j).1) / 2) := by
      rw [mul_comm]
      exact not_lt.mp h
    rw [if_neg h, if_pos h2, show (4.0 : α) = 4 by norm_num]
    ring

theorem lj_derivative_eq (sqrt : α → α) (pot : LennardJonesPotential α) (i j : Nat) (r : α) :
    LennardJonesPotential.derivative sqrt pot i j r
      = if r ≤ 2.5 * (((pot.radii i).1 + (pot.radii j).1) / 2)
        then 24 * (if (pot.radii i).2 = (pot.radii j).2 then (pot.radii i).2
                  else sqrt ((pot.radii i).2 * (pot.radii j).2))
              * (((((pot.radii i).1 + (pot.radii j).1) / 2) / r) ^ 6
                  - 2 * ((((pot.radii i).1 + (pot.radii j).1) / 2) / r) ^ 12) / r
        else 0 := by
  unfold LennardJonesPotential.derivative LennardJonesPotential.cutoff_ratio
  simp only
  have hs : (0.5 : α) * ((pot.radii i).1 + (pot.radii j).1)
      = ((pot.radii i).1 + (pot.radii j).1) / 2 := by
    rw [show (0.5 : α) = 1 / 2 by norm_num]
    ring
  rw [hs]
  by_cases h : ((pot.radii i).1 + (pot.radii j).1) / 2 * 2.5 < r
  · have h2 : ¬ (r ≤ 2.5 * (((pot.radii i).1 + (pot.radii j).1) / 2)) := by
      rw [mul_comm]
      exact not_le.mpr h
    rw [if_pos h, if_neg h2]
    norm_num
  · have h2 : r ≤ 2.5 * (((pot.radii i).1 + (pot.radii j).1) / 2) := by
      rw [mul_comm]
      exact not_lt.mp h
    rw [if_neg h, if_pos h2, show (24.0 : α) = 24 by norm_num,
      show (2.0 : α) = 2 by norm_num]
    ring

/-- C6: with `sigma = (sigma_i + sigma_j)/2` and `epsilon = epsilon_i` when
`epsilon_i = epsilon_j`, `sqrt(epsilon_i * epsilon_j)` otherwise,
`LennardJonesPotential::potential(i, j, r)` is `4*epsilon*[(sigma/r)^12 - (sigma/r)^6]`
when `r <= 2.5*sigma` and exactly `0` when `r > 2.5*sigma`; for `sigma = 3`,
`epsilon = 1`, `r = 10` it is `0`. -/
theorem lj_potential_formula (sqrt : α → α) (pot : LennardJonesPotential α) (i j : Nat)
    (r : α) :
    (LennardJonesPotential.potential sqrt pot i j r
      = if r ≤ 2.5 * (((pot.radii i).1 + (pot.radii j).1) / 2)
        then 4 * (if (pot.radii i).2 = (pot.radii j).2 then (pot.radii i).2
                  else sqrt ((pot.radii i).2 * (pot.radii j).2))
              * (((((pot.radii i).1 + (pot.radii j).1) / 2) / r) ^ 12
                  - ((((pot.radii i).1 + (pot.radii j).1) / 2) / r) ^ 6)
        else 0)
    ∧ LennardJonesPotential.potential sqrt { radii_ := [(3, 1), (3, 1)] } 0 1 10 = 0 := by
  refine ⟨lj_potential_eq sqrt pot i j r, ?_⟩
  unfold LennardJonesPotential.potential LennardJonesPotential.cutoff_ratio
  norm_num [LennardJonesPotential.radii]

theorem lj_max_scan (t : List (α × α)) (a : α × α) :
    (t.foldl (fun largest x => if largest.1 < x.1 then x else largest) a) ∈ a :: t
    ∧ ∀ x ∈ a :: t,
        x.1 ≤ (t.foldl (fun largest x => if largest.1 < x.1 then x else largest) a).1 := by
  induction t generalizing a with
  | nil => simp
  | cons b t ih =>
    simp only [List.foldl_cons]
    by_cases h : a.1 < b.1
    · rw [if_pos h]
      obtain ⟨h1, h2⟩ := ih b
      refine ⟨List.mem_cons_of_mem _ h1, ?_⟩
      intro x hx
      rcases List.mem_cons.mp hx with rfl | hx
      · exact le_trans h.le (h2 b (by simp))
      · exact h2 x hx
    · rw [if_neg h]
      obtain ⟨h1, h2⟩ := ih a
      constructor
      · rcases List.mem_cons.mp h1 with h1 | h1
        · rw [h1]; simp
        · simp [h1]
      · intro x hx
        rcases List.mem_cons.mp hx with rfl | hx
        · exact h2 x (by simp)
        · rcases List.mem_cons.mp hx with rfl | hx
          · exact le_trans (not_lt.mp h) (h2 a (by simp))
          · exact h2 x (by simp [hx])

theorem lj_radii_mem (pot : LennardJonesPotential α) (i : Nat) (hi : i < pot.radii_.length) :
    pot.radii i ∈ pot.radii_ := by
  unfold LennardJonesPotential.radii
  rw [List.getD_eq_getElem _ _ hi]
  exact List.getElem_mem hi

/-- C8: for a non-empty parameter list `max_cutoff_length()` is `2.5` times the largest
`sigma_k` (a value `M` among the sigmas that no sigma exceeds), it bounds the cutoff
`2.5*(sigma_i + sigma_j)/2` of every pair from above, and `potential(i, j, r) = 0` and
`derivative(i, j, r) = 0` for every pair whenever `r > max_cutoff_length()`. -/
theorem lj_max_cutoff_length_bound (sqrt : α → α) (pot : LennardJonesPotential α)
    (hne : pot.radii_ ≠ []) :
    ∃ M, pot.max_cutoff_length = some (M * 2.5)
      ∧ M ∈ pot.radii_.map Prod.fst
      ∧ (∀ s ∈ pot.radii_.map Prod.fst, s ≤ M)
      ∧ (∀ i j, i < pot.radii_.length → j < pot.radii_.length →
          2.5 * (((pot.radii i).1 + (pot.radii j).1) / 2) ≤ M * 2.5)
      ∧ (∀ i j r, i < pot.radii_.length → j < pot.radii_.length → M * 2.5 < r →
          LennardJonesPotential.potential sqrt pot i j r = 0
          ∧ LennardJonesPotential.derivative sqrt pot i j r = 0) := by
  obtain ⟨radii⟩ := pot
  cases radii with
  | nil => exact absurd rfl hne
  | cons a t =>
    obtain ⟨hmem, hmax⟩ := lj_max_scan t a
    refine ⟨(t.foldl (fun (largest x : α × α) => if largest.1 < x.1 then x else largest) a).1,
      rfl, List.mem_map_of_mem _ hmem, ?_, ?_, ?_⟩
    · intro s hs
      obtain ⟨x, hx, rfl⟩ := List.mem_map.mp hs
      exact hmax x hx
    · intro i j hi hj
      have h1 := hmax _ (lj_radii_mem ⟨a :: t⟩ i hi)
      have h2 := hmax _ (lj_radii_mem ⟨a :: t⟩ j hj)
      have h25 : (2.5 : α) = 5 / 2 := by norm_num
      rw [h25]
      linarith
    · intro i j r hi hj hr
      have h1 := hmax _ (lj_radii_mem ⟨a :: t⟩ i hi)
      have h2 := hmax _ (lj_radii_mem ⟨a :: t⟩ j hj)
      have h25 : (2.5 : α) = 5 / 2 := by norm_num
      have hcut : ¬ (r ≤ 2.5 * (((LennardJonesPotential.radii ⟨a :: t⟩ i).1
          + (LennardJonesPotential.radii ⟨a :: t⟩ j).1) / 2)) := by
        rw [h25] at hr ⊢
        intro hle
        linarith
      rw [lj_potential_eq, lj_derivative_eq, if_neg hcut, if_neg hcut]
      exact ⟨rfl, rfl⟩

/-- Witness of C8: two particles with `sigma = 3` and `sigma = 2`. -/
theorem lj_max_cutoff_length_bound_witness :
    ∃ M : ℚ, sample_lj.max_cutoff_length = some (M * 2.5)
      ∧ M ∈ sample_lj.radii_.map Prod.fst
      ∧ (∀ s ∈ sample_lj.radii_.map Prod.fst, s ≤ M)
      ∧ (∀ i j, i < sample_lj.radii_.length → j < sample_lj.radii_.length →
          2.5 * (((sample_lj.radii i).1 + (sample_lj.radii j).1) / 2) ≤ M * 2.5)
      ∧ (∀ i j r, i < sample_lj.radii_.length → j < sample_lj.radii_.length →
          M * 2.5 < r →
          LennardJonesPotential.potential (fun x => x) sample_lj i j r = 0
          ∧ LennardJonesPotential.derivative (fun x => x) sample_lj i j r = 0) :=
  lj_max_cutoff_length_bound (fun x => x) sample_lj (by simp [sample_lj])

end lennard_jones

theorem lj_formula_hasDerivAt (e s r : ℝ) (hr : r ≠ 0) :
    HasDerivAt (fun x : ℝ => 4 * e * ((s / x) ^ 12 - (s / x) ^ 6))
      (24 * e * ((s / r) ^ 6 - 2 * (s / r) ^ 12) / r) r := by
  have h1 : HasDerivAt (fun x : ℝ => s / x) (-s / r ^ 2) r := by
    have := HasDerivAt.div (hasDerivAt_const r s) (hasDerivAt_id r) hr
    simpa using this
  have h := ((h1.pow 12).sub (h1.pow 6)).const_mul (4 * e)
  convert h using 1
  field_simp
  ring


/-- C7: for `r > 0` other than the pair cutoff `2.5*sigma`,
`LennardJonesPotential::derivative(i, j, r)` is the derivative with respect to `r` of
`potential(i, j, .)` at `r`; it is `24*epsilon*[(sigma/r)^6 - 2*(sigma/r)^12]/r` inside
the cutoff and exactly `0` beyond it, and `derivative(0, 1, 10) = 0` for `sigma = 3`,
`epsilon = 1`. -/
theorem lj_derivative_is_deriv (pot : LennardJonesPotential ℝ) (i j : Nat) (r : ℝ)
    (hr : 0 < r) (hcut : r ≠ 2.5 * (((pot.radii i).1 + (pot.radii j).1) / 2)) :
    HasDerivAt (fun x => LennardJonesPotential.potential Real.sqrt pot i j x)
      (LennardJonesPotential.derivative Real.sqrt pot i j r) r
    ∧ (LennardJonesPotential.derivative Real.sqrt pot i j r
      = if r ≤ 2.5 * (((pot.radii i).1 + (pot.radii j).1) / 2)
        then 24 * (if (pot.radii i).2 = (pot.radii j).2 then (pot.radii i).2
                  else Real.sqrt ((pot.radii i).2 * (pot.radii j).2))
              * (((((pot.radii i).1 + (pot.radii j).1) / 2) / r) ^ 6
                  - 2 * ((((pot.radii i).1 + (pot.radii j).1) / 2) / r) ^ 12) / r
        else 0)
    ∧ LennardJonesPotential.derivative Real.sqrt { radii_ := [(3, 1), (3, 1)] } 0 1 10
        = 0 := by
  refine ⟨?_, lj_derivative_eq _ _ _ _ _, ?_⟩
  · rw [lj_derivative_eq]
    have hfun : (fun x => LennardJonesPotential.potential Real.sqrt pot i j x)
        = fun x => if x ≤ 2.5 * (((pot.radii i).1 + (pot.radii j).1) / 2)
          then 4 * (if (pot.radii i).2 = (pot.radii j).2 then (pot.radii i).2
                    else Real.sqrt ((pot.radii i).2 * (pot.radii j).2))
                * (((((pot.radii i).1 + (pot.radii j).1) / 2) / x) ^ 12
                    - ((((pot.radii i).1 + (pot.radii j).1) / 2) / x) ^ 6)
          else 0 := by
      funext x
      exact lj_potential_eq _ _ _ _ _
    rw [hfun]
    rcases lt_or_gt_of_ne hcut with hlt | hgt
    · rw [if_pos hlt.le]
      apply (lj_formula_hasDerivAt _ _ r hr.ne').congr_of_eventuallyEq
      filter_upwards [Iio_mem_nhds hlt] with x hx
      rw [if_pos (le_of_lt hx)]
    · rw [if_neg (not_le.mpr hgt)]
      apply (hasDerivAt_const r (0 : ℝ)).congr_of_eventuallyEq
      filter_upwards [Ioi_mem_nhds hgt] with x hx
      rw [if_neg (not_le.mpr hx)]
  · unfold LennardJonesPotential.derivative LennardJonesPotential.cutoff_ratio
    norm_num [LennardJonesPotential.radii]

/-- Witness of C7: `sigma = 3`, `epsilon = 1` at `r = 3`, inside the cutoff `7.5`. -/
theorem lj_derivative_is_deriv_witness :
    HasDerivAt (fun x => LennardJonesPotential.potential Real.sqrt
        { radii_ := [(3, 1), (3, 1)] } 0 1 x)
      (LennardJonesPotential.derivative Real.sqrt { radii_ := [(3, 1), (3, 1)] } 0 1 3) 3 :=
  (lj_derivative_is_deriv { radii_ := [(3, 1), (3, 1)] } 0 1 3 (by norm_num)
    (by norm_num [LennardJonesPotential.radii])).1

/-! ## Lennard-Jones pair interaction -/

section omp_lj

variable {α : Type} [LinearOrderedField α]

theorem omp_force_pair_geometry (self : OmpLennardJonesInteraction α) (i : Nat)
    (sys : OmpSystem α) (ptnr : Nat × (α × α)) :
    (self.calc_force_pair i sys ptnr).positions = sys.positions
    ∧ (self.calc_force_pair i sys ptnr).adjust_direction = sys.adjust_direction := by
  unfold OmpLennardJonesInteraction.calc_force_pair
  simp only
  split_ifs
  · exact ⟨rfl, rfl⟩
  · exact ⟨rfl, rfl⟩

theorem omp_energy_pair_geometry (self : OmpLennardJonesInteraction α) (s s0 : OmpSystem α)
    (hp : s.positions = s0.positions) (ha : s.adjust_direction = s0.adjust_direction)
    (i : Nat) (E : α) (ptnr : Nat × (α × α)) :
    self.calc_energy_pair s i E ptnr = self.calc_energy_pair s0 i E ptnr := by
  unfold OmpLennardJonesInteraction.calc_energy_pair OmpSystem.position
  rw [hp, ha]

theorem omp_combined_pair (self : OmpLennardJonesInteraction α) (i : Nat)
    (E : α) (s : OmpSystem α) (ptnr : Nat × (α × α)) :
    self.calc_force_and_energy_pair i (E, s) ptnr
      = (self.calc_energy_pair s i E ptnr, self.calc_force_pair i s ptnr) := by
  unfold OmpLennardJonesInteraction.calc_force_and_energy_pair
    OmpLennardJonesInteraction.calc_energy_pair OmpLennardJonesInteraction.calc_force_pair
  simp only
  split_ifs
  · rfl
  · simp only [mul_one_div]

theorem omp_combined_inner (self : OmpLennardJonesInteraction α) (s0 : OmpSystem α) (i : Nat)
    (l : List (Nat × (α × α))) (E : α) (s : OmpSystem α)
    (hp : s.positions = s0.positions) (ha : s.adjust_direction = s0.adjust_direction) :
    l.foldl (fun st ptnr => self.calc_force_and_energy_pair i st ptnr) (E, s)
      = (l.foldl (fun E ptnr => self.calc_energy_pair s0 i E ptnr) E,
         l.foldl (fun sys ptnr => self.calc_force_pair i sys ptnr) s) := by
  induction l generalizing E s with
  | nil => rfl
  | cons p t ih =>
    simp only [List.foldl_cons]
    rw [omp_combined_pair, omp_energy_pair_geometry self s s0 hp ha]
    have hg := omp_force_pair_geometry self i s p
    exact ih _ _ (hg.1.trans hp) (hg.2.trans ha)

theorem omp_force_inner_geometry (self : OmpLennardJonesInteraction α) (i : Nat)
    (l : List (Nat × (α × α))) (s : OmpSystem α) :
    (l.foldl (fun sys ptnr => self.calc_force_pair i sys ptnr) s).positions = s.positions
    ∧ (l.foldl (fun sys ptnr => self.calc_force_pair i sys ptnr) s).adjust_direction
        = s.adjust_direction := by
  induction l generalizing s with
  | nil => exact ⟨rfl, rfl⟩
  | cons p t ih =>
    simp only [List.foldl_cons]
    have hg := omp_force_pair_geometry self i s p
    have := ih (self.calc_force_pair i s p)
    exact ⟨this.1.trans hg.1, this.2.trans hg.2⟩

theorem omp_combined_outer (self : OmpLennardJonesInteraction α) (s0 : OmpSystem α)
    (l : List Nat) (E : α) (s : OmpSystem α)
    (hp : s.positions = s0.positions) (ha : s.adjust_direction = s0.adjust_direction) :
    l.foldl (fun st i => (self.partners i).foldl
        (fun st ptnr => self.calc_force_and_energy_pair i st ptnr) st) (E, s)
      = (l.foldl (fun E i => (self.partners i).foldl
            (fun E ptnr => self.calc_energy_pair s0 i E ptnr) E) E,
         l.foldl (fun sys i => (self.partners i).foldl
            (fun sys ptnr => self.calc_force_pair i sys ptnr) sys) s) := by
  induction l generalizing E s with
  | nil => rfl
  | cons i t ih =>
    simp only [List.foldl_cons]
    rw [omp_combined_inner self s0 i _ E s hp ha]
    have hg := omp_force_inner_geometry self i (self.partners i) s
    exact ih _ _ (hg.1.trans hp) (hg.2.trans ha)

/-- C9: in a single-threaded execution `calc_force_and_energy(sys)` returns the same
energy as `calc_energy(sys)` and leaves the force and virial accumulators exactly as
`calc_force(sys)` leaves them. -/
theorem omp_lj_force_and_energy_eq (self : OmpLennardJonesInteraction α)
    (sys : OmpSystem α) :
    (self.calc_force_and_energy sys).1 = self.calc_energy sys
    ∧ (self.calc_force_and_energy sys).2 = self.calc_force sys
    ∧ (self.calc_force_and_energy sys).2.force_thread = (self.calc_force sys).force_thread
    ∧ (self.calc_force_and_energy sys).2.virial_thread
        = (self.calc_force sys).virial_thread := by
  have h := omp_combined_outer self sys self.leading_participants 0 sys rfl rfl
  unfold OmpLennardJonesInteraction.calc_force_and_energy
    OmpLennardJonesInteraction.calc_energy OmpLennardJonesInteraction.calc_force
  rw [h]
  exact ⟨rfl, rfl, rfl, rfl⟩

end omp_lj

/-! ## 3SPN2 base-base interaction -/

section spn2

variable {α : Type} [LinearOrderedField α]

theorem net_force_nil : net_force ([] : List (ForceTerm × Nat × Vec3 α)) = 0 := rfl

theorem net_force_cons (e : ForceTerm × Nat × Vec3 α) (l : List (ForceTerm × Nat × Vec3 α)) :
    net_force (e :: l) = e.2.2 + net_force l := rfl

theorem vec3_zero_add (v : Vec3 α) : 0 + v = v := by
  ext <;> simp

theorem vec3_add_zero (v : Vec3 α) : v + 0 = v := by
  ext <;> simp

theorem vec3_add_assoc (u v w : Vec3 α) : u + v + w = u + (v + w) := by
  ext <;> simp [add_assoc]

theorem vec3_add_comm (u v : Vec3 α) : u + v = v + u := by
  ext <;> simp [add_comm]

theorem net_force_append (a b : List (ForceTerm × Nat × Vec3 α)) :
    net_force (a ++ b) = net_force a + net_force b := by
  induction a with
  | nil => rw [List.nil_append, net_force_nil, vec3_zero_add]
  | cons e t ih => rw [List.cons_append, net_force_cons, net_force_cons, ih, vec3_add_assoc]

theorem term_force_nil (t : ForceTerm) :
    term_force t ([] : List (ForceTerm × Nat × Vec3 α)) = 0 := rfl

theorem term_force_append (t : ForceTerm) (a b : List (ForceTerm × Nat × Vec3 α)) :
    term_force t (a ++ b) = term_force t a + term_force t b := by
  unfold term_force
  rw [List.filter_append, net_force_append]

theorem term_force_cons (t : ForceTerm) (e : ForceTerm × Nat × Vec3 α)
    (l : List (ForceTerm × Nat × Vec3 α)) :
    term_force t (e :: l) = (if e.1 = t then e.2.2 else 0) + term_force t l := by
  unfold term_force
  by_cases h : e.1 = t
  · simp [h, List.filter_cons, net_force_cons]
  · simp [h, List.filter_cons, vec3_zero_add]

theorem term_force_ite (t : ForceTerm) (c : Prop) [Decidable c]
    (a b : List (ForceTerm × Nat × Vec3 α)) :
    term_force t (if c then a else b) = if c then term_force t a else term_force t b := by
  split_ifs
  · rfl
  · rfl

theorem term_force_three (t term : ForceTerm) (S B Badj : Nat) (fS fB : Vec3 α) :
    term_force t [(term, S, fS), (term, B, -(fS + fB)), (term, Badj, fB)] = 0 := by
  simp only [term_force_cons, term_force_nil]
  split_ifs <;> ext <;> simp

theorem term_force_four (t term : ForceTerm) (Si Sj Bi Bj : Nat) (c : α) (u w : Vec3 α) :
    term_force t [(term, Si, c * u), (term, Sj, c * w), (term, Bi, c * ((-1 : α) * u)),
      (term, Bj, c * ((-1 : α) * w))] = 0 := by
  simp only [term_force_cons, term_force_nil]
  split_ifs <;> ext <;> simp

theorem term_force_two (t term : ForceTerm) (B Badj : Nat) (u : Vec3 α) :
    term_force t [(term, B, -u), (term, Badj, u)] = 0 := by
  simp only [term_force_cons, term_force_nil]
  split_ifs <;> ext <;> simp

theorem cross_stacking_half_balance (M : MathFns α) (cs : ThreeSPN2CrossStackingPotential α)
    (tolerance : α) (term : ForceTerm) (cs_kind : Nat) (Badj_B SB BS_reg : Vec3 α)
    (rlSB r0 lBij f3 df3 : α) (fSi_theta3 fSj_theta3 : Vec3 α)
    (Si Sj Bi Bj S B Badj : Nat) (t : ForceTerm) :
    term_force t (ThreeSPN2BaseBaseInteraction.cross_stacking_half M cs tolerance term cs_kind
      Badj_B SB BS_reg rlSB r0 lBij f3 df3 fSi_theta3 fSj_theta3
      ((-1 : α) * fSi_theta3) ((-1 : α) * fSj_theta3) Si Sj Bi Bj S B Badj) = 0 := by
  unfold ThreeSPN2BaseBaseInteraction.cross_stacking_half
  simp only [term_force_ite, term_force_append, term_force_three, term_force_four,
    term_force_two, term_force_nil, ite_self, vec3_add_zero]

theorem cross_stacking_force_balance (M : MathFns α) (cs : ThreeSPN2CrossStackingPotential α)
    (sys : System α) (tolerance : α) (bp_kind : Nat)
    (rBi rBj SBi SBj BSi_reg BSj_reg : Vec3 α)
    (rlSBi rlSBj r0 lBij : α) (Si Sj Bi Bj : Nat) (t : ForceTerm) :
    term_force t (ThreeSPN2BaseBaseInteraction.cross_stacking_force M cs sys tolerance bp_kind
      rBi rBj SBi SBj BSi_reg BSj_reg rlSBi rlSBj r0 lBij Si Sj Bi Bj) = 0 := by
  unfold ThreeSPN2BaseBaseInteraction.cross_stacking_force
  simp only [term_force_ite, term_force_append, cross_stacking_half_balance, ite_self,
    vec3_add_zero, term_force_nil]

theorem repulsive_force_balance (M : MathFns α) (a_BP e_BP r0 lBij rlBij : α) (Bij : Vec3 α)
    (Bi Bj : Nat) (t : ForceTerm) :
    term_force t (ThreeSPN2BaseBaseInteraction.repulsive_force M a_BP e_BP r0 lBij
      (rlBij * Bij) (-rlBij * Bij) Bi Bj) = 0 := by
  unfold ThreeSPN2BaseBaseInteraction.repulsive_force
  split_ifs
  · simp only [term_force_cons, term_force_nil]
    split_ifs <;> ext <;> simp
  · rfl

theorem dihedral_force_balance (sin_dphi f1 f2 Um_attr lBij dot_SBiBj dot_SBjBi rlBij_sq : α)
    (m n : Vec3 α) (Si Bi Bj Sj : Nat) (t : ForceTerm) :
    term_force t (ThreeSPN2BaseBaseInteraction.dihedral_force sin_dphi f1 f2 Um_attr lBij
      dot_SBiBj dot_SBjBi rlBij_sq m n Si Bi Bj Sj) = 0 := by
  unfold ThreeSPN2BaseBaseInteraction.dihedral_force
  split_ifs
  · simp only [term_force_cons, term_force_nil]
    split_ifs <;> ext <;> simp <;> ring
  · rfl

theorem theta1_force_balance (M : MathFns α) (tolerance dihd_term df1 f2 Um_attr theta1
    cos_theta1 rlSBi rlBij : α) (BSi_reg Bij_reg : Vec3 α) (Si Bi Bj : Nat) (t : ForceTerm) :
    term_force t (ThreeSPN2BaseBaseInteraction.theta1_force M tolerance dihd_term df1 f2
      Um_attr theta1 cos_theta1 rlSBi rlBij BSi_reg Bij_reg Si Bi Bj) = 0 := by
  unfold ThreeSPN2BaseBaseInteraction.theta1_force
  split_ifs
  · simp only [term_force_cons, term_force_nil]
    split_ifs <;> ext <;> simp
  · rfl

theorem radial_force_balance (dihd_term f1 f2 dUm_attr rlBij : α) (Bij : Vec3 α)
    (Bi Bj : Nat) (t : ForceTerm) :
    term_force t (ThreeSPN2BaseBaseInteraction.radial_force dihd_term f1 f2 dUm_attr
      (rlBij * Bij) (-rlBij * Bij) Bi Bj) = 0 := by
  unfold ThreeSPN2BaseBaseInteraction.radial_force
  split_ifs
  · simp only [term_force_cons, term_force_nil]
    split_ifs <;> ext <;> simp
  · rfl

theorem theta2_force_sum (M : MathFns α) (tolerance dihd_term f1 df2 Um_attr theta2
    cos_theta2 rlBij rlSBj : α) (BSj_reg Bji_reg fSi : Vec3 α) (Bi Bj Sj : Nat)
    (t : ForceTerm) :
    term_force t (ThreeSPN2BaseBaseInteraction.theta2_force M tolerance dihd_term f1 df2
      Um_attr theta2 cos_theta2 rlBij rlSBj BSj_reg Bji_reg fSi Bi Bj Sj)
      = if t = ForceTerm.theta2 ∧ df2 ≠ 0
        then ThreeSPN2BaseBaseInteraction.theta2_fSj M tolerance dihd_term f1 df2 Um_attr
              theta2 cos_theta2 rlSBj BSj_reg Bji_reg - fSi
        else 0 := by
  unfold ThreeSPN2BaseBaseInteraction.theta2_force
  by_cases hdf : df2 ≠ 0
  · rw [if_pos hdf]
    simp only [term_force_cons, term_force_nil]
    by_cases ht : t = ForceTerm.theta2
    · subst ht
      simp only [if_true, hdf, ne_eq, not_false_eq_true, and_self]
      ext <;> simp <;> ring
    · have ht2 : ¬ (ForceTerm.theta2 = t) := fun h => ht h.symm
      simp only [ht2, if_false, ht, false_and]
      ext <;> simp
  · rw [if_neg hdf]
    simp only [hdf, and_false, if_false]
    rfl


theorem attractive_force_balance (t : ForceTerm) (ht : t ≠ ForceTerm.theta2)
    (M : MathFns α) (bp : ThreeSPN2BasePairingPotential α)
    (tolerance : α) (bp_kind : Nat) (Bij SBi SBj BSi_reg BSj_reg : Vec3 α)
    (lBij rlBij rlSBi rlSBj dot_SBiBj dot_SBjBi cos_theta1 cos_theta2 theta1 theta2
      r0 e_BP a_BP : α)
    (fSi_outer : Vec3 α) (Si Bi Bj Sj : Nat) :
    term_force t (ThreeSPN2BaseBaseInteraction.attractive_force M bp tolerance bp_kind Bij
      SBi SBj (rlBij * Bij) (-rlBij * Bij) BSi_reg BSj_reg lBij rlBij rlSBi rlSBj dot_SBiBj
      dot_SBjBi cos_theta1 cos_theta2 theta1 theta2 r0 e_BP a_BP fSi_outer Si Bi Bj Sj)
      = 0 := by
  unfold ThreeSPN2BaseBaseInteraction.attractive_force
  simp only [term_force_ite, term_force_append, term_force_nil, dihedral_force_balance,
    theta1_force_balance, radial_force_balance, theta2_force_sum, ht, false_and, if_false,
    ite_self, vec3_add_zero]

/-- Every term of the pair other than the `theta2` term balances: its increments sum to
the zero vector, whatever `fSi` stands for at line 299. -/
theorem pair_force_balance (M : MathFns α) (self : ThreeSPN2BaseBaseInteraction α)
    (sys : System α) (i : Nat) (ptnr : Nat × BasePairParameter) (fSi_outer : Vec3 α)
    (t : ForceTerm) (ht : t ≠ ForceTerm.theta2) :
    term_force t (ThreeSPN2BaseBaseInteraction.pair_force M self sys i ptnr fSi_outer) = 0 := by
  unfold ThreeSPN2BaseBaseInteraction.pair_force
  simp only [term_force_ite, term_force_append, term_force_nil, repulsive_force_balance,
    attractive_force_balance t ht,
    cross_stacking_force_balance, ite_self, vec3_add_zero]

/-- With the block's own `fSj` in place of `fSi` at line 299 the `theta2` term balances
as well. -/
theorem theta2_force_balance_intended (M : MathFns α) (tolerance dihd_term f1 df2 Um_attr
    theta2 cos_theta2 rlBij rlSBj : α) (BSj_reg Bji_reg : Vec3 α) (Bi Bj Sj : Nat)
    (t : ForceTerm) :
    term_force t (ThreeSPN2BaseBaseInteraction.theta2_force M tolerance dihd_term f1 df2
      Um_attr theta2 cos_theta2 rlBij rlSBj BSj_reg Bji_reg
      (ThreeSPN2BaseBaseInteraction.theta2_fSj M tolerance dihd_term f1 df2 Um_attr theta2
        cos_theta2 rlSBj BSj_reg Bji_reg) Bi Bj Sj) = 0 := by
  rw [theta2_force_sum]
  split_ifs
  · ext <;> simp
  · rfl

theorem total_force_update_ge (F : Nat → Vec3 α) (k : Nat) (v : Vec3 α) (n : Nat)
    (hk : n ≤ k) :
    total_force (fun j => if j = k then F j + v else F j) n = total_force F n := by
  induction n with
  | zero => rfl
  | succ n ih =>
    have hne : ¬ (n = k) := by omega
    simp only [total_force, hne, if_false]
    rw [ih (by omega)]

theorem total_force_update (F : Nat → Vec3 α) (k : Nat) (v : Vec3 α) (n : Nat)
    (hk : k < n) :
    total_force (fun j => if j = k then F j + v else F j) n = total_force F n + v := by
  induction n with
  | zero => omega
  | succ n ih =>
    by_cases hkn : n = k
    · simp only [total_force, hkn, if_true]
      rw [← hkn, total_force_update_ge F n v n le_rfl, vec3_add_assoc]
    · simp only [total_force, hkn, if_false]
      rw [ih (by omega), vec3_add_assoc, vec3_add_comm v (F n), ← vec3_add_assoc]

/-- Applying increments whose particle indices are all below `n` changes the total force
over the particles `0 .. n-1` by the sum of the increments. -/
theorem total_force_apply_increments (n : Nat) (incs : List (ForceTerm × Nat × Vec3 α))
    (F : Nat → Vec3 α) (h : ∀ e ∈ incs, e.2.1 < n) :
    total_force (apply_increments F incs) n = total_force F n + net_force incs := by
  induction incs generalizing F with
  | nil => simp [apply_increments, net_force_nil, vec3_add_zero]
  | cons e t ih =>
    have h1 : e.2.1 < n := h e (by simp)
    have h2 : ∀ e' ∈ t, e'.2.1 < n := fun e' he' => h e' (by simp [he'])
    have hstep : apply_increments F (e :: t)
        = apply_increments (fun k => if k = e.2.1 then F k + e.2.2 else F k) t := rfl
    rw [hstep, ih _ h2, total_force_update F e.2.1 e.2.2 n h1, net_force_cons, vec3_add_assoc]

end spn2

theorem vec3_smul_mk {α : Type} [Mul α] (s a b c : α) :
    s * (⟨a, b, c⟩ : Vec3 α) = ⟨s * a, s * b, s * c⟩ := rfl
theorem vec3_neg_mk {α : Type} [Neg α] (a b c : α) :
    -(⟨a, b, c⟩ : Vec3 α) = ⟨-a, -b, -c⟩ := rfl
theorem vec3_mk_add_mk {α : Type} [Add α] (a b c d e f : α) :
    (⟨a, b, c⟩ : Vec3 α) + ⟨d, e, f⟩ = ⟨a + d, b + e, c + f⟩ := rfl
theorem vec3_mk_sub_mk {α : Type} [Sub α] (a b c d e f : α) :
    (⟨a, b, c⟩ : Vec3 α) - ⟨d, e, f⟩ = ⟨a - d, b - e, c - f⟩ := rfl

theorem cos_three_pi_div_four : Real.cos (3 * Real.pi / 4) = -(Real.sqrt 2 / 2) := by
  have h : 3 * Real.pi / 4 = Real.pi - Real.pi / 4 := by ring
  rw [h, Real.cos_pi_sub, Real.cos_pi_div_four]

theorem sin_three_pi_div_two : Real.sin (3 * Real.pi / 2) = -1 := by
  have h : 3 * Real.pi / 2 = Real.pi / 2 + Real.pi := by ring
  rw [h, Real.sin_add_pi, Real.sin_pi_div_two]

theorem sample_window_f :
    window_f (⟨Real.pi, fun x => 1 / Real.sqrt x, Real.exp, Real.arccos, Real.sin,
      Real.cos⟩ : MathFns ℝ) 12 (Real.pi / 2) (7 * Real.pi / 16) = 1 / 2 := by
  have hpi := Real.pi_pos
  have hd : Real.pi / 2 - 7 * Real.pi / 16 = Real.pi / 16 := by ring
  have habs : |Real.pi / 16| = Real.pi / 16 := abs_of_pos (by positivity)
  unfold window_f
  simp only [hd, habs]
  have h1 : ¬ (Real.pi / 16 < Real.pi / 12 * 0.5) := by
    norm_num
    linarith
  have h2 : Real.pi / 16 < Real.pi / 12 := by linarith
  rw [if_neg h1, if_pos h2]
  have harg : (12 : ℝ) * (Real.pi / 16) = 3 * Real.pi / 4 := by ring
  rw [harg, cos_three_pi_div_four]
  have hs : Real.sqrt 2 * Real.sqrt 2 = 2 := Real.mul_self_sqrt (by norm_num)
  norm_num
  nlinarith

theorem sample_window_df :
    window_df (⟨Real.pi, fun x => 1 / Real.sqrt x, Real.exp, Real.arccos, Real.sin,
      Real.cos⟩ : MathFns ℝ) 12 (Real.pi / 2) (7 * Real.pi / 16) = -12 := by
  have hpi := Real.pi_pos
  have hd : Real.pi / 2 - 7 * Real.pi / 16 = Real.pi / 16 := by ring
  have habs : |Real.pi / 16| = Real.pi / 16 := abs_of_pos (by positivity)
  unfold window_df
  simp only [hd, habs]
  have h1 : ¬ (Real.pi / 16 < Real.pi / 12 * 0.5) := by
    norm_num
    linarith
  have h2 : Real.pi / 16 < Real.pi / 12 := by linarith
  rw [if_neg h1, if_pos h2]
  have harg : (2 : ℝ) * 12 * (Real.pi / 16) = 3 * Real.pi / 2 := by ring
  rw [harg, sin_three_pi_div_two]
  norm_num

theorem sample_pair_force (v : Vec3 ℝ) :
    ThreeSPN2BaseBaseInteraction.pair_force
      (⟨Real.pi, fun x => 1 / Real.sqrt x, Real.exp, Real.arccos, Real.sin, Real.cos⟩ : MathFns ℝ)
      (sample_base_base ⟨Real.pi, fun x => 1 / Real.sqrt x, Real.exp, Real.arccos, Real.sin,
        Real.cos⟩) four_particles 0 (1, { Si := 2, Sj := 3, bp_kind := 0 }) v
      = [(ForceTerm.theta1, 2, ⟨-6, 0, 0⟩),
         (ForceTerm.theta1, 0, -((⟨-6, 0, 0⟩ : Vec3 ℝ) + ⟨0, -6, 0⟩)),
         (ForceTerm.theta1, 1, ⟨0, -6, 0⟩),
         (ForceTerm.theta2, 0, ⟨0, -6, 0⟩),
         (ForceTerm.theta2, 1, -(⟨0, -6, 0⟩ + v)),
         (ForceTerm.theta2, 3, ⟨6, 0, 0⟩)] := by
  have hp0 : (four_particles : System ℝ).position 0 = ⟨0, 0, 0⟩ := rfl
  have hp1 : (four_particles : System ℝ).position 1 = ⟨1, 0, 0⟩ := rfl
  have hp2 : (four_particles : System ℝ).position 2 = ⟨0, 1, 0⟩ := rfl
  have hp3 : (four_particles : System ℝ).position 3 = ⟨1, 1, 0⟩ := rfl
  have hBij : (⟨1, 0, 0⟩ : Vec3 ℝ) - ⟨0, 0, 0⟩ = ⟨1, 0, 0⟩ := by ext <;> simp
  have hSBi : (⟨0, 0, 0⟩ : Vec3 ℝ) - ⟨0, 1, 0⟩ = ⟨0, -1, 0⟩ := by ext <;> simp
  have hSBj : (⟨1, 0, 0⟩ : Vec3 ℝ) - ⟨1, 1, 0⟩ = ⟨0, -1, 0⟩ := by ext <;> simp
  have hadj : ∀ w : Vec3 ℝ, (four_particles : System ℝ).adjust_direction w = w := fun _ => rfl
  unfold ThreeSPN2BaseBaseInteraction.pair_force
  simp only [hp0, hp1, hp2, hp3, hadj, hBij, hSBi, hSBj]
  have hl1 : length_sq (⟨1, 0, 0⟩ : Vec3 ℝ) = 1 := by simp [length_sq]
  have hl2 : length_sq (⟨0, -1, 0⟩ : Vec3 ℝ) = 1 := by simp [length_sq]
  have hd1 : dot_product (⟨0, -1, 0⟩ : Vec3 ℝ) ⟨1, 0, 0⟩ = 0 := by simp [dot_product]
  simp only [hl1, hl2, hd1, Real.sqrt_one, div_one, mul_one, one_mul, neg_zero, zero_mul]
  have hclamp : clamp (0 : ℝ) (-1) 1 = 0 := by norm_num [clamp]
  have hcs : ∀ (rBi rBj SBi SBj BSi BSj : Vec3 ℝ) (a b c d : ℝ),
      ThreeSPN2BaseBaseInteraction.cross_stacking_force
        (⟨Real.pi, fun x => 1 / Real.sqrt x, Real.exp, Real.arccos, Real.sin, Real.cos⟩ : MathFns ℝ)
        (sample_cross_stacking ⟨Real.pi, fun x => 1 / Real.sqrt x, Real.exp, Real.arccos,
          Real.sin, Real.cos⟩) four_particles (1 / 1000) 0 rBi rBj SBi SBj BSi BSj a b c d
          2 3 0 1 = [] := by
    intro rBi rBj SBi SBj BSi BSj a b c d
    unfold ThreeSPN2BaseBaseInteraction.cross_stacking_force
    simp [sample_cross_stacking]
  have hrep : ∀ (u w : Vec3 ℝ),
      ThreeSPN2BaseBaseInteraction.repulsive_force
        (⟨Real.pi, fun x => 1 / Real.sqrt x, Real.exp, Real.arccos, Real.sin, Real.cos⟩ : MathFns ℝ)
        1 1 1 1 u w 0 1 = [] := by
    intro u w
    unfold ThreeSPN2BaseBaseInteraction.repulsive_force
    simp
  simp only [sample_base_base, sample_base_pairing, hclamp, Real.arccos_zero, hcs, hrep,
    List.append_nil, List.nil_append]
  have hcut : ¬ ((1 : ℝ) > 4) := by norm_num
  rw [if_neg hcut]
  unfold ThreeSPN2BaseBaseInteraction.attractive_force
  simp only [sample_window_f, sample_window_df]
  have hpi := Real.pi_pos
  have hlt : ¬ ((0 : ℝ) < -Real.pi) := by linarith
  have hle : ¬ (Real.pi ≤ (0 : ℝ)) := by linarith
  have hcopy : copysign (0 : ℝ) 0 = 0 := by simp [copysign]
  norm_num [vec3_smul_mk, vec3_neg_mk, vec3_mk_add_mk, vec3_mk_sub_mk, length_sq, dot_product, cross_product,
    clamp, hcopy, hlt, hle]
  unfold ThreeSPN2BaseBaseInteraction.dihedral_force ThreeSPN2BaseBaseInteraction.theta1_force
    ThreeSPN2BaseBaseInteraction.theta2_force ThreeSPN2BaseBaseInteraction.radial_force
    ThreeSPN2BaseBaseInteraction.theta2_fSj
  norm_num [vec3_smul_mk, vec3_neg_mk, vec3_mk_add_mk, vec3_mk_sub_mk, Real.sin_pi_div_two]


/-- C10, the code at the failing input: bases `0`, `1` at `(0,0,0)`, `(1,0,0)`, sugars
`2`, `3` at `(0,1,0)`, `(1,1,0)`, both angles `pi/2` inside the transition of the window.
Whatever vector `v` the name `fSi` stands for at line 299, the increments of the pair sum
to `(6,0,0) - v`, and `calc_force` moves the total force from zero to that vector: they
balance only for `v = (6,0,0)`, the `fSj` of the `theta2` block. The `theta1` block
computes `fSi = (-6,0,0)`, for which the pair adds the net force `(12,0,0)`. -/
theorem spn2_theta2_force_unbalanced :
    (∀ v : Vec3 ℝ, net_force (ThreeSPN2BaseBaseInteraction.pair_force
        (⟨Real.pi, fun x => 1 / Real.sqrt x, Real.exp, Real.arccos, Real.sin, Real.cos⟩ :
          MathFns ℝ)
        (sample_base_base ⟨Real.pi, fun x => 1 / Real.sqrt x, Real.exp, Real.arccos, Real.sin,
          Real.cos⟩) four_particles 0 (1, { Si := 2, Sj := 3, bp_kind := 0 }) v)
        = ⟨6, 0, 0⟩ - v)
    ∧ (∀ v : Vec3 ℝ, total_force (ThreeSPN2BaseBaseInteraction.calc_force
        (⟨Real.pi, fun x => 1 / Real.sqrt x, Real.exp, Real.arccos, Real.sin, Real.cos⟩ :
          MathFns ℝ)
        (sample_base_base ⟨Real.pi, fun x => 1 / Real.sqrt x, Real.exp, Real.arccos, Real.sin,
          Real.cos⟩) four_particles (fun _ _ => v) (fun _ => 0)) 4
        = ⟨6, 0, 0⟩ - v)
    ∧ (∀ v : Vec3 ℝ, (ForceTerm.theta1, 2, (⟨-6, 0, 0⟩ : Vec3 ℝ)) ∈
        ThreeSPN2BaseBaseInteraction.pair_force
          (⟨Real.pi, fun x => 1 / Real.sqrt x, Real.exp, Real.arccos, Real.sin, Real.cos⟩ :
            MathFns ℝ)
          (sample_base_base ⟨Real.pi, fun x => 1 / Real.sqrt x, Real.exp, Real.arccos,
            Real.sin, Real.cos⟩) four_particles 0 (1, { Si := 2, Sj := 3, bp_kind := 0 }) v)
    ∧ net_force (ThreeSPN2BaseBaseInteraction.pair_force
        (⟨Real.pi, fun x => 1 / Real.sqrt x, Real.exp, Real.arccos, Real.sin, Real.cos⟩ :
          MathFns ℝ)
        (sample_base_base ⟨Real.pi, fun x => 1 / Real.sqrt x, Real.exp, Real.arccos, Real.sin,
          Real.cos⟩) four_particles 0 (1, { Si := 2, Sj := 3, bp_kind := 0 }) ⟨-6, 0, 0⟩)
        = ⟨12, 0, 0⟩
    ∧ (⟨12, 0, 0⟩ : Vec3 ℝ) ≠ 0 := by
  have hnet : ∀ v : Vec3 ℝ, net_force (ThreeSPN2BaseBaseInteraction.pair_force
      (⟨Real.pi, fun x => 1 / Real.sqrt x, Real.exp, Real.arccos, Real.sin, Real.cos⟩ :
        MathFns ℝ)
      (sample_base_base ⟨Real.pi, fun x => 1 / Real.sqrt x, Real.exp, Real.arccos, Real.sin,
        Real.cos⟩) four_particles 0 (1, { Si := 2, Sj := 3, bp_kind := 0 }) v)
      = ⟨6, 0, 0⟩ - v := by
    intro v
    rw [sample_pair_force]
    simp only [net_force_cons, net_force_nil]
    ext <;> simp
    ring
  refine ⟨hnet, ?_, ?_, ?_, ?_⟩
  · intro v
    have hcalc : ThreeSPN2BaseBaseInteraction.calc_force
        (⟨Real.pi, fun x => 1 / Real.sqrt x, Real.exp, Real.arccos, Real.sin, Real.cos⟩ :
          MathFns ℝ)
        (sample_base_base ⟨Real.pi, fun x => 1 / Real.sqrt x, Real.exp, Real.arccos, Real.sin,
          Real.cos⟩) four_particles (fun _ _ => v) (fun _ => 0)
        = apply_increments (fun _ => 0) (ThreeSPN2BaseBaseInteraction.pair_force
            (⟨Real.pi, fun x => 1 / Real.sqrt x, Real.exp, Real.arccos, Real.sin, Real.cos⟩ :
              MathFns ℝ)
            (sample_base_base ⟨Real.pi, fun x => 1 / Real.sqrt x, Real.exp, Real.arccos,
              Real.sin, Real.cos⟩) four_particles 0 (1, { Si := 2, Sj := 3, bp_kind := 0 })
            v) := rfl
    rw [hcalc, total_force_apply_increments 4, hnet]
    · have hz : total_force (fun _ => (0 : Vec3 ℝ)) 4 = 0 := by
        simp only [total_force]
        ext <;> simp
      rw [hz, vec3_zero_add]
    · intro e he
      rw [sample_pair_force] at he
      simp only [List.mem_cons, List.mem_singleton, List.not_mem_nil, or_false] at he
      rcases he with rfl | rfl | rfl | rfl | rfl | rfl <;> simp
  · intro v
    rw [sample_pair_force]
    simp
  · rw [hnet]
    ext <;> norm_num
  · intro h
    have hx := congrArg Vec3.x h
    norm_num at hx

section spn2_energy

variable {α : Type} [LinearOrderedField α]

open ThreeSPN2BaseBaseInteraction

theorem pair_force_blocks (M : MathFns α) (self : ThreeSPN2BaseBaseInteraction α)
    (sys : System α) (i : Nat) (ptnr : Nat × BasePairParameter) (fSi_outer : Vec3 α) :
    pair_force M self sys i ptnr fSi_outer
      = if (pair_geometry M sys i ptnr).lBij_sq
            > self.base_pairing_potential_.cutoff_sq ptnr.2.bp_kind then []
        else
          repulsive_force M self.base_pairing_potential_.alpha
              (self.base_pairing_potential_.epsilon ptnr.2.bp_kind)
              (self.base_pairing_potential_.r0 ptnr.2.bp_kind)
              (pair_geometry M sys i ptnr).lBij
              ((pair_geometry M sys i ptnr).rlBij * (pair_geometry M sys i ptnr).Bij)
              (-(pair_geometry M sys i ptnr).rlBij * (pair_geometry M sys i ptnr).Bij)
              i ptnr.1
            ++ attractive_force M self.base_pairing_potential_
              self.tolerance ptnr.2.bp_kind
              (pair_geometry M sys i ptnr).Bij
              (pair_geometry M sys i ptnr).SBi
              (pair_geometry M sys i ptnr).SBj
              ((pair_geometry M sys i ptnr).rlBij * (pair_geometry M sys i ptnr).Bij)
              (-(pair_geometry M sys i ptnr).rlBij * (pair_geometry M sys i ptnr).Bij)
              (-(pair_geometry M sys i ptnr).rlSBi * (pair_geometry M sys i ptnr).SBi)
              (-(pair_geometry M sys i ptnr).rlSBj * (pair_geometry M sys i ptnr).SBj)
              (pair_geometry M sys i ptnr).lBij
              (pair_geometry M sys i ptnr).rlBij
              (pair_geometry M sys i ptnr).rlSBi
              (pair_geometry M sys i ptnr).rlSBj
              (pair_geometry M sys i ptnr).dot_SBiBj
              (pair_geometry M sys i ptnr).dot_SBjBi
              (pair_geometry M sys i ptnr).cos_theta1
              (pair_geometry M sys i ptnr).cos_theta2
              (pair_geometry M sys i ptnr).theta1
              (pair_geometry M sys i ptnr).theta2
              (self.base_pairing_potential_.r0 ptnr.2.bp_kind)
              (self.base_pairing_potential_.epsilon ptnr.2.bp_kind)
              self.base_pairing_potential_.alpha fSi_outer ptnr.2.Si i ptnr.1 ptnr.2.Sj
            ++ cross_stacking_force M
              self.cross_stacking_potential_ sys self.tolerance ptnr.2.bp_kind
              (sys.position i) (sys.position ptnr.1)
              (pair_geometry M sys i ptnr).SBi
              (pair_geometry M sys i ptnr).SBj
              (-(pair_geometry M sys i ptnr).rlSBi * (pair_geometry M sys i ptnr).SBi)
              (-(pair_geometry M sys i ptnr).rlSBj * (pair_geometry M sys i ptnr).SBj)
              (pair_geometry M sys i ptnr).rlSBi
              (pair_geometry M sys i ptnr).rlSBj
              (self.base_pairing_potential_.r0 ptnr.2.bp_kind)
              (pair_geometry M sys i ptnr).lBij
              ptnr.2.Si ptnr.2.Sj i ptnr.1 := rfl

theorem mem_of_mem_ite_nil {β : Type} {c : Prop} [Decidable c] {l : List β} {e : β}
    (h : e ∈ (if c then l else [])) : e ∈ l := by
  split_ifs at h
  · exact h
  · cases h

theorem repulsive_force_tags {M : MathFns α} {a_BP e_BP r0 lBij : α}
    {Bij_reg Bji_reg : Vec3 α} {Bi Bj : Nat} :
    ∀ e ∈ repulsive_force M a_BP e_BP r0 lBij Bij_reg Bji_reg Bi Bj,
      e.1 = ForceTerm.repulsive := by
  unfold repulsive_force
  split_ifs
  · intro e he
    simp only [List.mem_cons, List.mem_singleton, List.not_mem_nil, or_false] at he
    rcases he with rfl | rfl <;> rfl
  · intro e he
    cases he

theorem dihedral_force_tags {sin_dphi f1 f2 Um_attr lBij dot_SBiBj dot_SBjBi rlBij_sq : α}
    {m n : Vec3 α} {Si Bi Bj Sj : Nat} :
    ∀ e ∈ dihedral_force sin_dphi f1 f2 Um_attr lBij dot_SBiBj dot_SBjBi rlBij_sq m n
        Si Bi Bj Sj, e.1 = ForceTerm.dihedral := by
  unfold dihedral_force
  split_ifs
  · intro e he
    simp only [List.mem_cons, List.mem_singleton, List.not_mem_nil, or_false] at he
    rcases he with rfl | rfl | rfl | rfl <;> rfl
  · intro e he
    cases he

theorem theta1_force_tags {M : MathFns α} {tolerance dihd_term df1 f2 Um_attr theta1
    cos_theta1 rlSBi rlBij : α} {BSi_reg Bij_reg : Vec3 α} {Si Bi Bj : Nat} :
    ∀ e ∈ theta1_force M tolerance dihd_term df1 f2 Um_attr theta1 cos_theta1 rlSBi rlBij
        BSi_reg Bij_reg Si Bi Bj, e.1 = ForceTerm.theta1 := by
  unfold theta1_force
  split_ifs
  · intro e he
    simp only [List.mem_cons, List.mem_singleton, List.not_mem_nil, or_false] at he
    rcases he with rfl | rfl | rfl <;> rfl
  · intro e he
    cases he

theorem theta2_force_tags {M : MathFns α} {tolerance dihd_term f1 df2 Um_attr theta2
    cos_theta2 rlBij rlSBj : α} {BSj_reg Bji_reg fSi : Vec3 α} {Bi Bj Sj : Nat} :
    ∀ e ∈ theta2_force M tolerance dihd_term f1 df2 Um_attr theta2 cos_theta2 rlBij rlSBj
        BSj_reg Bji_reg fSi Bi Bj Sj, e.1 = ForceTerm.theta2 := by
  unfold theta2_force
  split_ifs
  · intro e he
    simp only [List.mem_cons, List.mem_singleton, List.not_mem_nil, or_false] at he
    rcases he with rfl | rfl | rfl <;> rfl
  · intro e he
    cases he

theorem radial_force_tags {dihd_term f1 f2 dUm_attr : α} {Bij_reg Bji_reg : Vec3 α}
    {Bi Bj : Nat} :
    ∀ e ∈ radial_force dihd_term f1 f2 dUm_attr Bij_reg Bji_reg Bi Bj,
      e.1 = ForceTerm.radial := by
  unfold radial_force
  split_ifs
  · intro e he
    simp only [List.mem_cons, List.mem_singleton, List.not_mem_nil, or_false] at he
    rcases he with rfl | rfl <;> rfl
  · intro e he
    cases he

theorem attractive_force_tags {M : MathFns α} {bp : ThreeSPN2BasePairingPotential α}
    {tolerance : α} {bp_kind : Nat} {Bij SBi SBj Bij_reg Bji_reg BSi_reg BSj_reg : Vec3 α}
    {lBij rlBij rlSBi rlSBj dot_SBiBj dot_SBjBi cos_theta1 cos_theta2 theta1 theta2
      r0 e_BP a_BP : α} {fSi_outer : Vec3 α} {Si Bi Bj Sj : Nat} :
    ∀ e ∈ attractive_force M bp tolerance bp_kind Bij SBi SBj Bij_reg Bji_reg BSi_reg
        BSj_reg lBij rlBij rlSBi rlSBj dot_SBiBj dot_SBjBi cos_theta1 cos_theta2 theta1
        theta2 r0 e_BP a_BP fSi_outer Si Bi Bj Sj,
      e.1 = ForceTerm.dihedral ∨ e.1 = ForceTerm.theta1 ∨ e.1 = ForceTerm.theta2
        ∨ e.1 = ForceTerm.radial := by
  intro e he
  unfold attractive_force at he
  simp only at he
  have he1 := mem_of_mem_ite_nil he
  have he2 := mem_of_mem_ite_nil he1
  rcases List.mem_append.mp he2 with he | he
  · rcases List.mem_append.mp he with he | he
    · rcases List.mem_append.mp he with he | he
      · exact Or.inl (dihedral_force_tags e he)
      · exact Or.inr (Or.inl (theta1_force_tags e he))
    · exact Or.inr (Or.inr (Or.inl
        (theta2_force_tags e he)))
  · exact Or.inr (Or.inr (Or.inr (radial_force_tags e he)))

theorem attractive_force_gated {M : MathFns α} {bp : ThreeSPN2BasePairingPotential α}
    {tolerance : α} {bp_kind : Nat} {Bij SBi SBj Bij_reg Bji_reg BSi_reg BSj_reg : Vec3 α}
    {lBij rlBij rlSBi rlSBj dot_SBiBj dot_SBjBi cos_theta1 cos_theta2 theta1 theta2
      r0 e_BP a_BP : α} {fSi_outer : Vec3 α} {Si Bi Bj Sj : Nat}
    (h : bp.f bp_kind theta1 = 0 ∨ bp.f bp_kind theta2 = 0) :
    attractive_force M bp tolerance bp_kind Bij SBi SBj Bij_reg Bji_reg BSi_reg
        BSj_reg lBij rlBij rlSBi rlSBj dot_SBiBj dot_SBjBi cos_theta1 cos_theta2 theta1
        theta2 r0 e_BP a_BP fSi_outer Si Bi Bj Sj = [] := by
  unfold attractive_force
  have hn : ¬ (bp.f bp_kind theta1 ≠ 0 ∧ bp.f bp_kind theta2 ≠ 0) := by
    rintro ⟨h1, h2⟩
    rcases h with h | h
    · exact h1 h
    · exact h2 h
  simp only
  rw [if_neg hn]

theorem cross_stacking_half_tags {M : MathFns α} {cs : ThreeSPN2CrossStackingPotential α}
    {tolerance : α} {term : ForceTerm} {cs_kind : Nat} {Badj_B SB BS_reg : Vec3 α}
    {rlSB r0 lBij f3 df3 : α} {fSi_theta3 fSj_theta3 fBi_theta3 fBj_theta3 : Vec3 α}
    {Si Sj Bi Bj S B Badj : Nat} :
    ∀ e ∈ cross_stacking_half M cs tolerance term cs_kind Badj_B SB BS_reg rlSB r0 lBij f3
        df3 fSi_theta3 fSj_theta3 fBi_theta3 fBj_theta3 Si Sj Bi Bj S B Badj,
      e.1 = term := by
  intro e he
  unfold cross_stacking_half at he
  simp only at he
  have he1 := mem_of_mem_ite_nil he
  rcases List.mem_append.mp he1 with he | he
  · rcases List.mem_append.mp he with he | he
    · have he2 := mem_of_mem_ite_nil he
      simp only [List.mem_cons, List.mem_singleton, List.not_mem_nil, or_false] at he2
      rcases he2 with h | h | h | h <;> rw [h]
    · have he2 := mem_of_mem_ite_nil he
      simp only [List.mem_cons, List.mem_singleton, List.not_mem_nil, or_false] at he2
      rcases he2 with h | h | h <;> rw [h]
  · simp only [List.mem_cons, List.mem_singleton, List.not_mem_nil, or_false] at he
    rcases he with h | h <;> rw [h]

theorem cross_stacking_half_gated {M : MathFns α} {cs : ThreeSPN2CrossStackingPotential α}
    {tolerance : α} {term : ForceTerm} {cs_kind : Nat} {Badj_B SB BS_reg : Vec3 α}
    {rlSB r0 lBij f3 df3 : α} {fSi_theta3 fSj_theta3 fBi_theta3 fBj_theta3 : Vec3 α}
    {Si Sj Bi Bj S B Badj : Nat}
    (h : cs.f cs_kind (cross_stacking_theta M Badj_B SB rlSB) = 0) :
    cross_stacking_half M cs tolerance term cs_kind Badj_B SB BS_reg rlSB r0 lBij f3
        df3 fSi_theta3 fSj_theta3 fBi_theta3 fBj_theta3 Si Sj Bi Bj S B Badj = [] := by
  unfold cross_stacking_half
  unfold cross_stacking_theta at h
  simp only at h ⊢
  rw [if_neg (not_not.mpr h)]

theorem mem_of_mem_nil_ite {β : Type} {c : Prop} [Decidable c] {l : List β} {e : β}
    (h : e ∈ (if c then [] else l)) : e ∈ l := by
  split_ifs at h
  · cases h
  · exact h

theorem cross_stacking_force_mem {M : MathFns α} {cs : ThreeSPN2CrossStackingPotential α}
    {sys : System α} {tolerance : α} {bp_kind : Nat}
    {rBi rBj SBi SBj BSi_reg BSj_reg : Vec3 α} {rlSBi rlSBj r0 lBij : α}
    {Si Sj Bi Bj : Nat} {e : ForceTerm × Nat × Vec3 α}
    (he : e ∈ cross_stacking_force M cs sys tolerance bp_kind rBi rBj SBi SBj BSi_reg
      BSj_reg rlSBi rlSBj r0 lBij Si Sj Bi Bj) :
    cs.f_bp bp_kind (M.acos (clamp (dot_product SBi SBj * rlSBi * rlSBj) (-1) 1)) ≠ 0
    ∧ ((e.1 = ForceTerm.cross_stacking_5 ∧ cs.B5 Bj ≠ cs.invalid
          ∧ cs.f (cs.cs5_kind Bi (cs.B5 Bj))
              (cross_stacking_theta M (sys.adjust_direction (rBi - sys.position (cs.B5 Bj)))
                SBi rlSBi) ≠ 0)
      ∨ (e.1 = ForceTerm.cross_stacking_3 ∧ cs.B3 Bi ≠ cs.invalid
          ∧ cs.f (cs.cs3_kind Bj (cs.B3 Bi))
              (cross_stacking_theta M (sys.adjust_direction (rBj - sys.position (cs.B3 Bi)))
                SBj rlSBj) ≠ 0)) := by
  unfold cross_stacking_force at he
  simp only at he
  have he1 := mem_of_mem_nil_ite he
  by_cases hf3 : cs.f_bp bp_kind
      (M.acos (clamp (dot_product SBi SBj * rlSBi * rlSBj) (-1) 1)) = 0
  · rw [if_pos hf3] at he1
    cases he1
  · rw [if_neg hf3] at he1
    refine ⟨hf3, ?_⟩
    rcases List.mem_append.mp he1 with h5 | h3
    · left
      by_cases hB : cs.B5 Bj ≠ cs.invalid
      · have hd : decide (cs.B5 Bj ≠ cs.invalid) = true := decide_eq_true hB
        rw [if_pos hd] at h5
        refine ⟨cross_stacking_half_tags e h5,
          hB, ?_⟩
        intro hz
        rw [cross_stacking_half_gated hz] at h5
        cases h5
      · have hd : ¬ (decide (cs.B5 Bj ≠ cs.invalid) = true) := by
          rw [decide_eq_true_eq]
          exact hB
        rw [if_neg hd] at h5
        cases h5
    · right
      by_cases hB : cs.B3 Bi ≠ cs.invalid
      · have hd : decide (cs.B3 Bi ≠ cs.invalid) = true := decide_eq_true hB
        rw [if_pos hd] at h3
        refine ⟨cross_stacking_half_tags e h3,
          hB, ?_⟩
        intro hz
        rw [cross_stacking_half_gated hz] at h3
        cases h3
      · have hd : ¬ (decide (cs.B3 Bi ≠ cs.invalid) = true) := by
          rw [decide_eq_true_eq]
          exact hB
        rw [if_neg hd] at h3
        cases h3

/-- What a force increment of the pair tells about the gates it passed. -/
theorem pair_force_mem (M : MathFns α) (self : ThreeSPN2BaseBaseInteraction α)
    (sys : System α) (i : Nat) (ptnr : Nat × BasePairParameter) (fSi_outer : Vec3 α)
    (e : ForceTerm × Nat × Vec3 α) (he : e ∈ pair_force M self sys i ptnr fSi_outer) :
    e.1 = ForceTerm.repulsive
    ∨ ((e.1 = ForceTerm.dihedral ∨ e.1 = ForceTerm.theta1 ∨ e.1 = ForceTerm.theta2
          ∨ e.1 = ForceTerm.radial)
        ∧ self.base_pairing_potential_.f ptnr.2.bp_kind (pair_geometry M sys i ptnr).theta1 ≠ 0
        ∧ self.base_pairing_potential_.f ptnr.2.bp_kind (pair_geometry M sys i ptnr).theta2 ≠ 0)
    ∨ (self.cross_stacking_potential_.f_bp ptnr.2.bp_kind (pair_geometry M sys i ptnr).theta3
          ≠ 0
        ∧ ((e.1 = ForceTerm.cross_stacking_5
              ∧ self.cross_stacking_potential_.B5 ptnr.1
                  ≠ self.cross_stacking_potential_.invalid
              ∧ self.cross_stacking_potential_.f
                  (self.cross_stacking_potential_.cs5_kind i
                    (self.cross_stacking_potential_.B5 ptnr.1))
                  (cross_stacking_theta M (pair_Bj5i self.cross_stacking_potential_ sys i ptnr)
                    (pair_geometry M sys i ptnr).SBi (pair_geometry M sys i ptnr).rlSBi) ≠ 0)
          ∨ (e.1 = ForceTerm.cross_stacking_3
              ∧ self.cross_stacking_potential_.B3 i ≠ self.cross_stacking_potential_.invalid
              ∧ self.cross_stacking_potential_.f
                  (self.cross_stacking_potential_.cs3_kind ptnr.1
                    (self.cross_stacking_potential_.B3 i))
                  (cross_stacking_theta M (pair_Bi3j self.cross_stacking_potential_ sys i ptnr)
                    (pair_geometry M sys i ptnr).SBj (pair_geometry M sys i ptnr).rlSBj)
                  ≠ 0))) := by
  rw [pair_force_blocks] at he
  have he1 := mem_of_mem_nil_ite he
  rcases List.mem_append.mp he1 with h | h
  · rcases List.mem_append.mp h with h | h
    · exact Or.inl (repulsive_force_tags e h)
    · right
      left
      refine ⟨attractive_force_tags e h,
        ?_, ?_⟩
      · intro hz
        rw [attractive_force_gated (Or.inl hz)] at h
        cases h
      · intro hz
        rw [attractive_force_gated (Or.inr hz)] at h
        cases h
  · right
    right
    exact cross_stacking_force_mem h

theorem repulsive_energy_tags {M : MathFns α} {a_BP e_BP r0 lBij : α}
    (e : EnergyTerm × α) (he : e ∈ repulsive_energy M a_BP e_BP r0 lBij) :
    e.1 = EnergyTerm.repulsive := by
  unfold repulsive_energy at he
  have h := mem_of_mem_ite_nil he
  simp only [List.mem_singleton] at h
  rw [h]

theorem attractive_energy_tags {M : MathFns α} {bp : ThreeSPN2BasePairingPotential α}
    {bp_kind : Nat} {Bij SBi SBj : Vec3 α} {lBij rlBij theta1 theta2 r0 e_BP a_BP : α}
    (e : EnergyTerm × α)
    (he : e ∈ attractive_energy M bp bp_kind Bij SBi SBj lBij rlBij theta1 theta2 r0 e_BP
      a_BP) :
    e.1 = EnergyTerm.attractive ∧ bp.f bp_kind theta1 ≠ 0 ∧ bp.f bp_kind theta2 ≠ 0 := by
  unfold attractive_energy at he
  simp only at he
  by_cases h12 : bp.f bp_kind theta1 ≠ 0 ∧ bp.f bp_kind theta2 ≠ 0
  · rw [if_pos h12] at he
    simp only [List.mem_singleton] at he
    rw [he]
    exact ⟨rfl, h12⟩
  · rw [if_neg h12] at he
    cases he

theorem cross_stacking_half_energy_tags {M : MathFns α}
    {cs : ThreeSPN2CrossStackingPotential α} {term : EnergyTerm} {cs_kind : Nat}
    {Badj_B SB : Vec3 α} {rlSB r0 lBij f3 : α} (e : EnergyTerm × α)
    (he : e ∈ cross_stacking_half_energy M cs term cs_kind Badj_B SB rlSB r0 lBij f3) :
    e.1 = term ∧ cs.f cs_kind (cross_stacking_theta M Badj_B SB rlSB) ≠ 0 := by
  unfold cross_stacking_half_energy at he
  simp only at he
  by_cases hf : cs.f cs_kind (cross_stacking_theta M Badj_B SB rlSB) ≠ 0
  · rw [if_pos hf] at he
    simp only [List.mem_singleton] at he
    rw [he]
    exact ⟨rfl, hf⟩
  · rw [if_neg hf] at he
    cases he

theorem cross_stacking_energy_mem {M : MathFns α} {cs : ThreeSPN2CrossStackingPotential α}
    {sys : System α} {bp_kind : Nat} {rBi rBj SBi SBj : Vec3 α} {rlSBi rlSBj r0 lBij : α}
    {Bi Bj : Nat} {e : EnergyTerm × α}
    (he : e ∈ cross_stacking_energy M cs sys bp_kind rBi rBj SBi SBj rlSBi rlSBj r0 lBij
      Bi Bj) :
    cs.f_bp bp_kind (M.acos (clamp (dot_product SBi SBj * rlSBi * rlSBj) (-1) 1)) ≠ 0
    ∧ ((e.1 = EnergyTerm.cross_stacking_5 ∧ cs.B5 Bj ≠ cs.invalid
          ∧ cs.f (cs.cs5_kind Bi (cs.B5 Bj))
              (cross_stacking_theta M (sys.adjust_direction (rBi - sys.position (cs.B5 Bj)))
                SBi rlSBi) ≠ 0)
      ∨ (e.1 = EnergyTerm.cross_stacking_3 ∧ cs.B3 Bi ≠ cs.invalid
          ∧ cs.f (cs.cs3_kind Bj (cs.B3 Bi))
              (cross_stacking_theta M (sys.adjust_direction (rBj - sys.position (cs.B3 Bi)))
                SBj rlSBj) ≠ 0)) := by
  unfold cross_stacking_energy at he
  simp only at he
  have he1 := mem_of_mem_nil_ite he
  by_cases hf3 : cs.f_bp bp_kind
      (M.acos (clamp (dot_product SBi SBj * rlSBi * rlSBj) (-1) 1)) = 0
  · rw [if_pos hf3] at he1
    cases he1
  · rw [if_neg hf3] at he1
    refine ⟨hf3, ?_⟩
    rcases List.mem_append.mp he1 with h5 | h3
    · left
      by_cases hB : cs.B5 Bj ≠ cs.invalid
      · have hd : decide (cs.B5 Bj ≠ cs.invalid) = true := decide_eq_true hB
        rw [if_pos hd] at h5
        have := cross_stacking_half_energy_tags e h5
        exact ⟨this.1, hB, this.2⟩
      · have hd : ¬ (decide (cs.B5 Bj ≠ cs.invalid) = true) := by
          rw [decide_eq_true_eq]
          exact hB
        rw [if_neg hd] at h5
        cases h5
    · right
      by_cases hB : cs.B3 Bi ≠ cs.invalid
      · have hd : decide (cs.B3 Bi ≠ cs.invalid) = true := decide_eq_true hB
        rw [if_pos hd] at h3
        have := cross_stacking_half_energy_tags e h3
        exact ⟨this.1, hB, this.2⟩
      · have hd : ¬ (decide (cs.B3 Bi ≠ cs.invalid) = true) := by
          rw [decide_eq_true_eq]
          exact hB
        rw [if_neg hd] at h3
        cases h3

/-- What an amount added to the energy of the pair tells about the gates it passed. -/
theorem pair_energy_mem (M : MathFns α) (self : ThreeSPN2BaseBaseInteraction α)
    (sys : System α) (i : Nat) (ptnr : Nat × BasePairParameter)
    (e : EnergyTerm × α) (he : e ∈ pair_energy M self sys i ptnr) :
    e.1 = EnergyTerm.repulsive
    ∨ (e.1 = EnergyTerm.attractive
        ∧ self.base_pairing_potential_.f ptnr.2.bp_kind (pair_geometry M sys i ptnr).theta1 ≠ 0
        ∧ self.base_pairing_potential_.f ptnr.2.bp_kind (pair_geometry M sys i ptnr).theta2 ≠ 0)
    ∨ (self.cross_stacking_potential_.f_bp ptnr.2.bp_kind (pair_geometry M sys i ptnr).theta3
          ≠ 0
        ∧ ((e.1 = EnergyTerm.cross_stacking_5
              ∧ self.cross_stacking_potential_.B5 ptnr.1
                  ≠ self.cross_stacking_potential_.invalid
              ∧ self.cross_stacking_potential_.f
                  (self.cross_stacking_potential_.cs5_kind i
                    (self.cross_stacking_potential_.B5 ptnr.1))
                  (cross_stacking_theta M (pair_Bj5i self.cross_stacking_potential_ sys i ptnr)
                    (pair_geometry M sys i ptnr).SBi (pair_geometry M sys i ptnr).rlSBi) ≠ 0)
          ∨ (e.1 = EnergyTerm.cross_stacking_3
              ∧ self.cross_stacking_potential_.B3 i ≠ self.cross_stacking_potential_.invalid
              ∧ self.cross_stacking_potential_.f
                  (self.cross_stacking_potential_.cs3_kind ptnr.1
                    (self.cross_stacking_potential_.B3 i))
                  (cross_stacking_theta M (pair_Bi3j self.cross_stacking_potential_ sys i ptnr)
                    (pair_geometry M sys i ptnr).SBj (pair_geometry M sys i ptnr).rlSBj)
                  ≠ 0))) := by
  unfold pair_energy at he
  simp only at he
  have he1 := mem_of_mem_nil_ite he
  rcases List.mem_append.mp he1 with h | h
  · rcases List.mem_append.mp h with h | h
    · exact Or.inl (repulsive_energy_tags e h)
    · exact Or.inr (Or.inl (attractive_energy_tags e h))
  · exact Or.inr (Or.inr (cross_stacking_energy_mem h))

/-- C12: whenever a window value is zero the gated term contributes nothing to
`calc_energy` and to `calc_force`: for the pair `(i, ptnr)`, if `f(theta1) = 0` or
`f(theta2) = 0` no force increment of the attractive base-pairing term (dihedral,
`theta1`, `theta2`, radial) is applied and no attractive energy is added; if
`f(theta3) = 0` neither cross-stacking half applies a force increment or adds energy; if
`f(theta_CS) = 0` for a half, that half applies no increment and adds no energy. -/
theorem spn2_zero_window_contributes_nothing (M : MathFns α)
    (self : ThreeSPN2BaseBaseInteraction α) (sys : System α) (i : Nat)
    (ptnr : Nat × BasePairParameter) (fSi_outer : Vec3 α) :
    ((self.base_pairing_potential_.f ptnr.2.bp_kind (pair_geometry M sys i ptnr).theta1 = 0
        ∨ self.base_pairing_potential_.f ptnr.2.bp_kind (pair_geometry M sys i ptnr).theta2 = 0)
      → (∀ e ∈ pair_force M self sys i ptnr fSi_outer,
            e.1 ≠ ForceTerm.dihedral ∧ e.1 ≠ ForceTerm.theta1 ∧ e.1 ≠ ForceTerm.theta2
              ∧ e.1 ≠ ForceTerm.radial)
        ∧ (∀ e ∈ pair_energy M self sys i ptnr, e.1 ≠ EnergyTerm.attractive))
    ∧ (self.cross_stacking_potential_.f_bp ptnr.2.bp_kind (pair_geometry M sys i ptnr).theta3
          = 0
      → (∀ e ∈ pair_force M self sys i ptnr fSi_outer,
            e.1 ≠ ForceTerm.cross_stacking_5 ∧ e.1 ≠ ForceTerm.cross_stacking_3)
        ∧ (∀ e ∈ pair_energy M self sys i ptnr,
            e.1 ≠ EnergyTerm.cross_stacking_5 ∧ e.1 ≠ EnergyTerm.cross_stacking_3))
    ∧ (self.cross_stacking_potential_.f
          (self.cross_stacking_potential_.cs5_kind i (self.cross_stacking_potential_.B5 ptnr.1))
          (cross_stacking_theta M (pair_Bj5i self.cross_stacking_potential_ sys i ptnr)
            (pair_geometry M sys i ptnr).SBi (pair_geometry M sys i ptnr).rlSBi) = 0
      → (∀ e ∈ pair_force M self sys i ptnr fSi_outer, e.1 ≠ ForceTerm.cross_stacking_5)
        ∧ (∀ e ∈ pair_energy M self sys i ptnr, e.1 ≠ EnergyTerm.cross_stacking_5))
    ∧ (self.cross_stacking_potential_.f
          (self.cross_stacking_potential_.cs3_kind ptnr.1 (self.cross_stacking_potential_.B3 i))
          (cross_stacking_theta M (pair_Bi3j self.cross_stacking_potential_ sys i ptnr)
            (pair_geometry M sys i ptnr).SBj (pair_geometry M sys i ptnr).rlSBj) = 0
      → (∀ e ∈ pair_force M self sys i ptnr fSi_outer, e.1 ≠ ForceTerm.cross_stacking_3)
        ∧ (∀ e ∈ pair_energy M self sys i ptnr, e.1 ≠ EnergyTerm.cross_stacking_3)) := by
  refine ⟨?_, ?_, ?_, ?_⟩
  · intro h
    have hn : ¬ (self.base_pairing_potential_.f ptnr.2.bp_kind
          (pair_geometry M sys i ptnr).theta1 ≠ 0
        ∧ self.base_pairing_potential_.f ptnr.2.bp_kind
          (pair_geometry M sys i ptnr).theta2 ≠ 0) := by
      rintro ⟨h1, h2⟩
      rcases h with h | h
      · exact h1 h
      · exact h2 h
    constructor
    · intro e he
      rcases pair_force_mem M self sys i ptnr fSi_outer e he with h1 | h1 | h1
      · rw [h1]
        exact ⟨by decide, by decide, by decide, by decide⟩
      · exact absurd h1.2 hn
      · rcases h1.2 with h2 | h2
        · rw [h2.1]
          exact ⟨by decide, by decide, by decide, by decide⟩
        · rw [h2.1]
          exact ⟨by decide, by decide, by decide, by decide⟩
    · intro e he
      rcases pair_energy_mem M self sys i ptnr e he with h1 | h1 | h1
      · rw [h1]
        decide
      · exact absurd h1.2 hn
      · rcases h1.2 with h2 | h2
        · rw [h2.1]
          decide
        · rw [h2.1]
          decide
  · intro h
    constructor
    · intro e he
      rcases pair_force_mem M self sys i ptnr fSi_outer e he with h1 | h1 | h1
      · rw [h1]
        exact ⟨by decide, by decide⟩
      · rcases h1.1 with h2 | h2 | h2 | h2 <;> rw [h2] <;> exact ⟨by decide, by decide⟩
      · exact absurd h h1.1
    · intro e he
      rcases pair_energy_mem M self sys i ptnr e he with h1 | h1 | h1
      · rw [h1]
        exact ⟨by decide, by decide⟩
      · rw [h1.1]
        exact ⟨by decide, by decide⟩
      · exact absurd h h1.1
  · intro h
    constructor
    · intro e he
      rcases pair_force_mem M self sys i ptnr fSi_outer e he with h1 | h1 | h1
      · rw [h1]
        decide
      · rcases h1.1 with h2 | h2 | h2 | h2 <;> rw [h2] <;> decide
      · rcases h1.2 with h2 | h2
        · exact absurd h h2.2.2
        · rw [h2.1]
          decide
    · intro e he
      rcases pair_energy_mem M self sys i ptnr e he with h1 | h1 | h1
      · rw [h1]
        decide
      · rw [h1.1]
        decide
      · rcases h1.2 with h2 | h2
        · exact absurd h h2.2.2
        · rw [h2.1]
          decide
  · intro h
    constructor
    · intro e he
      rcases pair_force_mem M self sys i ptnr fSi_outer e he with h1 | h1 | h1
      · rw [h1]
        decide
      · rcases h1.1 with h2 | h2 | h2 | h2 <;> rw [h2] <;> decide
      · rcases h1.2 with h2 | h2
        · rw [h2.1]
          decide
        · exact absurd h h2.2.2
    · intro e he
      rcases pair_energy_mem M self sys i ptnr e he with h1 | h1 | h1
      · rw [h1]
        decide
      · rw [h1.1]
        decide
      · rcases h1.2 with h2 | h2
        · rw [h2.1]
          decide
        · exact absurd h h2.2.2

theorem cross_stacking_energy_only3 (M : MathFns α) (cs : ThreeSPN2CrossStackingPotential α)
    (sys : System α) (bp_kind : Nat) (rBi rBj SBi SBj : Vec3 α) (rlSBi rlSBj r0 lBij : α)
    (Bi Bj : Nat) (h5 : cs.B5 Bj = cs.invalid) (h3 : cs.B3 Bi ≠ cs.invalid) :
    cross_stacking_energy M cs sys bp_kind rBi rBj SBi SBj rlSBi rlSBj r0 lBij Bi Bj
      = if cs.f_bp bp_kind (cross_stacking_theta3 M SBi SBj rlSBi rlSBj) = 0 then []
        else cross_stacking_half_energy M cs EnergyTerm.cross_stacking_3
          (cs.cs3_kind Bj (cs.B3 Bi)) (sys.adjust_direction (rBj - sys.position (cs.B3 Bi)))
          SBj rlSBj r0 lBij
          (cs.f_bp bp_kind (cross_stacking_theta3 M SBi SBj rlSBi rlSBj)) := by
  unfold cross_stacking_energy cross_stacking_theta3
  simp [h5, h3]

theorem cross_stacking_energy_only5 (M : MathFns α) (cs : ThreeSPN2CrossStackingPotential α)
    (sys : System α) (bp_kind : Nat) (rBi rBj SBi SBj : Vec3 α) (rlSBi rlSBj r0 lBij : α)
    (Bi Bj : Nat) (h3 : cs.B3 Bi = cs.invalid) (h5 : cs.B5 Bj ≠ cs.invalid) :
    cross_stacking_energy M cs sys bp_kind rBi rBj SBi SBj rlSBi rlSBj r0 lBij Bi Bj
      = if cs.f_bp bp_kind (cross_stacking_theta3 M SBi SBj rlSBi rlSBj) = 0 then []
        else cross_stacking_half_energy M cs EnergyTerm.cross_stacking_5
          (cs.cs5_kind Bi (cs.B5 Bj)) (sys.adjust_direction (rBi - sys.position (cs.B5 Bj)))
          SBi rlSBi r0 lBij
          (cs.f_bp bp_kind (cross_stacking_theta3 M SBi SBj rlSBi rlSBj)) := by
  unfold cross_stacking_energy cross_stacking_theta3
  simp [h5, h3]

theorem cross_stacking_energy_none (M : MathFns α) (cs : ThreeSPN2CrossStackingPotential α)
    (sys : System α) (bp_kind : Nat) (rBi rBj SBi SBj : Vec3 α) (rlSBi rlSBj r0 lBij : α)
    (Bi Bj : Nat) (h3 : cs.B3 Bi = cs.invalid) (h5 : cs.B5 Bj = cs.invalid) :
    cross_stacking_energy M cs sys bp_kind rBi rBj SBi SBj rlSBi rlSBj r0 lBij Bi Bj
      = [] := by
  unfold cross_stacking_energy
  simp [h5, h3]

theorem cross_stacking_force_none (M : MathFns α) (cs : ThreeSPN2CrossStackingPotential α)
    (sys : System α) (tolerance : α) (bp_kind : Nat)
    (rBi rBj SBi SBj BSi_reg BSj_reg : Vec3 α) (rlSBi rlSBj r0 lBij : α)
    (Si Sj Bi Bj : Nat) (h3 : cs.B3 Bi = cs.invalid) (h5 : cs.B5 Bj = cs.invalid) :
    cross_stacking_force M cs sys tolerance bp_kind rBi rBj SBi SBj BSi_reg BSj_reg rlSBi
      rlSBj r0 lBij Si Sj Bi Bj = [] := by
  unfold cross_stacking_force
  simp [h5, h3]

theorem cross_stacking_force_only3 (M : MathFns α) (cs : ThreeSPN2CrossStackingPotential α)
    (sys : System α) (tolerance : α) (bp_kind : Nat)
    (rBi rBj SBi SBj BSi_reg BSj_reg : Vec3 α) (rlSBi rlSBj r0 lBij : α)
    (Si Sj Bi Bj : Nat) (h5 : cs.B5 Bj = cs.invalid) (h3 : cs.B3 Bi ≠ cs.invalid) :
    cross_stacking_force M cs sys tolerance bp_kind rBi rBj SBi SBj BSi_reg BSj_reg rlSBi
      rlSBj r0 lBij Si Sj Bi Bj
      = if cs.f_bp bp_kind (cross_stacking_theta3 M SBi SBj rlSBi rlSBj) = 0 then []
        else cross_stacking_half M cs tolerance ForceTerm.cross_stacking_3
          (cs.cs3_kind Bj (cs.B3 Bi)) (sys.adjust_direction (rBj - sys.position (cs.B3 Bi)))
          SBj BSj_reg rlSBj r0 lBij
          (cs.f_bp bp_kind (cross_stacking_theta3 M SBi SBj rlSBi rlSBj))
          (cs.df_bp bp_kind (cross_stacking_theta3 M SBi SBj rlSBi rlSBj))
          (theta3_fSi M tolerance SBi SBj BSi_reg BSj_reg rlSBi rlSBj)
          (theta3_fSj M tolerance SBi SBj BSi_reg BSj_reg rlSBi rlSBj)
          ((-1 : α) * theta3_fSi M tolerance SBi SBj BSi_reg BSj_reg rlSBi rlSBj)
          ((-1 : α) * theta3_fSj M tolerance SBi SBj BSi_reg BSj_reg rlSBi rlSBj)
          Si Sj Bi Bj Sj Bj (cs.B3 Bi) := by
  unfold cross_stacking_force cross_stacking_theta3 theta3_fSi theta3_fSj
  simp only [h5, h3, ne_eq, not_true_eq_false, decide_False, not_false_eq_true, decide_True,
    Bool.not_true, Bool.not_false, Bool.false_and, Bool.and_false, Bool.false_eq_true,
    if_false, if_true, List.nil_append, List.append_nil]

theorem cross_stacking_force_only5 (M : MathFns α) (cs : ThreeSPN2CrossStackingPotential α)
    (sys : System α) (tolerance : α) (bp_kind : Nat)
    (rBi rBj SBi SBj BSi_reg BSj_reg : Vec3 α) (rlSBi rlSBj r0 lBij : α)
    (Si Sj Bi Bj : Nat) (h3 : cs.B3 Bi = cs.invalid) (h5 : cs.B5 Bj ≠ cs.invalid) :
    cross_stacking_force M cs sys tolerance bp_kind rBi rBj SBi SBj BSi_reg BSj_reg rlSBi
      rlSBj r0 lBij Si Sj Bi Bj
      = if cs.f_bp bp_kind (cross_stacking_theta3 M SBi SBj rlSBi rlSBj) = 0 then []
        else cross_stacking_half M cs tolerance ForceTerm.cross_stacking_5
          (cs.cs5_kind Bi (cs.B5 Bj)) (sys.adjust_direction (rBi - sys.position (cs.B5 Bj)))
          SBi BSi_reg rlSBi r0 lBij
          (cs.f_bp bp_kind (cross_stacking_theta3 M SBi SBj rlSBi rlSBj))
          (cs.df_bp bp_kind (cross_stacking_theta3 M SBi SBj rlSBi rlSBj))
          (theta3_fSi M tolerance SBi SBj BSi_reg BSj_reg rlSBi rlSBj)
          (theta3_fSj M tolerance SBi SBj BSi_reg BSj_reg rlSBi rlSBj)
          ((-1 : α) * theta3_fSi M tolerance SBi SBj BSi_reg BSj_reg rlSBi rlSBj)
          ((-1 : α) * theta3_fSj M tolerance SBi SBj BSi_reg BSj_reg rlSBi rlSBj)
          Si Sj Bi Bj Si Bi (cs.B5 Bj) := by
  unfold cross_stacking_force cross_stacking_theta3 theta3_fSi theta3_fSj
  simp only [h5, h3, ne_eq, not_true_eq_false, decide_False, not_false_eq_true, decide_True,
    Bool.not_true, Bool.not_false, Bool.false_and, Bool.and_false, Bool.false_eq_true,
    if_false, if_true, List.nil_append, List.append_nil]

/-- C13: a missing neighbour skips its half of the cross stacking. For the pair
`(i, ptnr)` with `j = ptnr.1`: when the `B5` index of base `j` is the invalid index, no
force increment and no energy of the 5' half is produced; when the `B3` index of base `i`
is invalid, none of the 3' half; when both are invalid the cross-stacking block is empty in
`calc_force` and in `calc_energy`. With only the 5' neighbour missing the block is the 3'
half, still evaluated behind the `f(theta3)` gate, and symmetrically. -/
theorem spn2_missing_neighbour_skips_half (M : MathFns α)
    (self : ThreeSPN2BaseBaseInteraction α) (sys : System α) (i : Nat)
    (ptnr : Nat × BasePairParameter) (fSi_outer : Vec3 α)
    (cs : ThreeSPN2CrossStackingPotential α) (tolerance : α) (bp_kind : Nat)
    (rBi rBj SBi SBj BSi_reg BSj_reg : Vec3 α) (rlSBi rlSBj r0 lBij : α)
    (Si Sj Bi Bj : Nat) :
    (self.cross_stacking_potential_.B5 ptnr.1 = self.cross_stacking_potential_.invalid
      → (∀ e ∈ pair_force M self sys i ptnr fSi_outer, e.1 ≠ ForceTerm.cross_stacking_5)
        ∧ (∀ e ∈ pair_energy M self sys i ptnr, e.1 ≠ EnergyTerm.cross_stacking_5))
    ∧ (self.cross_stacking_potential_.B3 i = self.cross_stacking_potential_.invalid
      → (∀ e ∈ pair_force M self sys i ptnr fSi_outer, e.1 ≠ ForceTerm.cross_stacking_3)
        ∧ (∀ e ∈ pair_energy M self sys i ptnr, e.1 ≠ EnergyTerm.cross_stacking_3))
    ∧ (cs.B5 Bj = cs.invalid → cs.B3 Bi = cs.invalid
      → cross_stacking_force M cs sys tolerance bp_kind rBi rBj SBi SBj BSi_reg BSj_reg
            rlSBi rlSBj r0 lBij Si Sj Bi Bj = []
        ∧ cross_stacking_energy M cs sys bp_kind rBi rBj SBi SBj rlSBi rlSBj r0 lBij Bi Bj
            = [])
    ∧ (cs.B5 Bj = cs.invalid → cs.B3 Bi ≠ cs.invalid
      → cross_stacking_force M cs sys tolerance bp_kind rBi rBj SBi SBj BSi_reg BSj_reg
            rlSBi rlSBj r0 lBij Si Sj Bi Bj
          = (if cs.f_bp bp_kind (cross_stacking_theta3 M SBi SBj rlSBi rlSBj) = 0 then []
            else cross_stacking_half M cs tolerance ForceTerm.cross_stacking_3
              (cs.cs3_kind Bj (cs.B3 Bi)) (sys.adjust_direction (rBj - sys.position (cs.B3 Bi)))
              SBj BSj_reg rlSBj r0 lBij
              (cs.f_bp bp_kind (cross_stacking_theta3 M SBi SBj rlSBi rlSBj))
              (cs.df_bp bp_kind (cross_stacking_theta3 M SBi SBj rlSBi rlSBj))
              (theta3_fSi M tolerance SBi SBj BSi_reg BSj_reg rlSBi rlSBj)
              (theta3_fSj M tolerance SBi SBj BSi_reg BSj_reg rlSBi rlSBj)
              ((-1 : α) * theta3_fSi M tolerance SBi SBj BSi_reg BSj_reg rlSBi rlSBj)
              ((-1 : α) * theta3_fSj M tolerance SBi SBj BSi_reg BSj_reg rlSBi rlSBj)
              Si Sj Bi Bj Sj Bj (cs.B3 Bi))
        ∧ cross_stacking_energy M cs sys bp_kind rBi rBj SBi SBj rlSBi rlSBj r0 lBij Bi Bj
          = (if cs.f_bp bp_kind (cross_stacking_theta3 M SBi SBj rlSBi rlSBj) = 0 then []
            else cross_stacking_half_energy M cs EnergyTerm.cross_stacking_3
              (cs.cs3_kind Bj (cs.B3 Bi)) (sys.adjust_direction (rBj - sys.position (cs.B3 Bi)))
              SBj rlSBj r0 lBij
              (cs.f_bp bp_kind (cross_stacking_theta3 M SBi SBj rlSBi rlSBj))))
    ∧ (cs.B3 Bi = cs.invalid → cs.B5 Bj ≠ cs.invalid
      → cross_stacking_force M cs sys tolerance bp_kind rBi rBj SBi SBj BSi_reg BSj_reg
            rlSBi rlSBj r0 lBij Si Sj Bi Bj
          = (if cs.f_bp bp_kind (cross_stacking_theta3 M SBi SBj rlSBi rlSBj) = 0 then []
            else cross_stacking_half M cs tolerance ForceTerm.cross_stacking_5
              (cs.cs5_kind Bi (cs.B5 Bj)) (sys.adjust_direction (rBi - sys.position (cs.B5 Bj)))
              SBi BSi_reg rlSBi r0 lBij
              (cs.f_bp bp_kind (cross_stacking_theta3 M SBi SBj rlSBi rlSBj))
              (cs.df_bp bp_kind (cross_stacking_theta3 M SBi SBj rlSBi rlSBj))
              (theta3_fSi M tolerance SBi SBj BSi_reg BSj_reg rlSBi rlSBj)
              (theta3_fSj M tolerance SBi SBj BSi_reg BSj_reg rlSBi rlSBj)
              ((-1 : α) * theta3_fSi M tolerance SBi SBj BSi_reg BSj_reg rlSBi rlSBj)
              ((-1 : α) * theta3_fSj M tolerance SBi SBj BSi_reg BSj_reg rlSBi rlSBj)
              Si Sj Bi Bj Si Bi (cs.B5 Bj))
        ∧ cross_stacking_energy M cs sys bp_kind rBi rBj SBi SBj rlSBi rlSBj r0 lBij Bi Bj
          = (if cs.f_bp bp_kind (cross_stacking_theta3 M SBi SBj rlSBi rlSBj) = 0 then []
            else cross_stacking_half_energy M cs EnergyTerm.cross_stacking_5
              (cs.cs5_kind Bi (cs.B5 Bj)) (sys.adjust_direction (rBi - sys.position (cs.B5 Bj)))
              SBi rlSBi r0 lBij
              (cs.f_bp bp_kind (cross_stacking_theta3 M SBi SBj rlSBi rlSBj)))) := by
  refine ⟨?_, ?_, ?_, ?_, ?_⟩
  · intro h
    constructor
    · intro e he
      rcases pair_force_mem M self sys i ptnr fSi_outer e he with h1 | h1 | h1
      · rw [h1]
        decide
      · rcases h1.1 with h2 | h2 | h2 | h2 <;> rw [h2] <;> decide
      · rcases h1.2 with h2 | h2
        · exact absurd h h2.2.1
        · rw [h2.1]
          decide
    · intro e he
      rcases pair_energy_mem M self sys i ptnr e he with h1 | h1 | h1
      · rw [h1]
        decide
      · rw [h1.1]
        decide
      · rcases h1.2 with h2 | h2
        · exact absurd h h2.2.1
        · rw [h2.1]
          decide
  · intro h
    constructor
    · intro e he
      rcases pair_force_mem M self sys i ptnr fSi_outer e he with h1 | h1 | h1
      · rw [h1]
        decide
      · rcases h1.1 with h2 | h2 | h2 | h2 <;> rw [h2] <;> decide
      · rcases h1.2 with h2 | h2
        · rw [h2.1]
          decide
        · exact absurd h h2.2.1
    · intro e he
      rcases pair_energy_mem M self sys i ptnr e he with h1 | h1 | h1
      · rw [h1]
        decide
      · rw [h1.1]
        decide
      · rcases h1.2 with h2 | h2
        · rw [h2.1]
          decide
        · exact absurd h h2.2.1
  · intro h5 h3
    exact ⟨cross_stacking_force_none M cs sys tolerance bp_kind rBi rBj SBi SBj BSi_reg
        BSj_reg rlSBi rlSBj r0 lBij Si Sj Bi Bj h3 h5,
      cross_stacking_energy_none M cs sys bp_kind rBi rBj SBi SBj rlSBi rlSBj r0 lBij
        Bi Bj h3 h5⟩
  · intro h5 h3
    exact ⟨cross_stacking_force_only3 M cs sys tolerance bp_kind rBi rBj SBi SBj BSi_reg
        BSj_reg rlSBi rlSBj r0 lBij Si Sj Bi Bj h5 h3,
      cross_stacking_energy_only3 M cs sys bp_kind rBi rBj SBi SBj rlSBi rlSBj r0 lBij
        Bi Bj h5 h3⟩
  · intro h3 h5
    exact ⟨cross_stacking_force_only5 M cs sys tolerance bp_kind rBi rBj SBi SBj BSi_reg
        BSj_reg rlSBi rlSBj r0 lBij Si Sj Bi Bj h3 h5,
      cross_stacking_energy_only5 M cs sys bp_kind rBi rBj SBi SBj rlSBi rlSBj r0 lBij
        Bi Bj h3 h5⟩

end spn2_energy

section spn2_repulsion

open ThreeSPN2BaseBaseInteraction

/-- The repulsive increments of a pair are the repulsive block, past the cutoff test. -/
theorem pair_force_repulsive_part {α : Type} [LinearOrderedField α] (M : MathFns α)
    (self : ThreeSPN2BaseBaseInteraction α) (sys : System α) (i : Nat)
    (ptnr : Nat × BasePairParameter) (fSi_outer : Vec3 α) :
    (pair_force M self sys i ptnr fSi_outer).filter
        (fun e => decide (e.1 = ForceTerm.repulsive))
      = if (pair_geometry M sys i ptnr).lBij_sq
            > self.base_pairing_potential_.cutoff_sq ptnr.2.bp_kind then []
        else repulsive_force M self.base_pairing_potential_.alpha
              (self.base_pairing_potential_.epsilon ptnr.2.bp_kind)
              (self.base_pairing_potential_.r0 ptnr.2.bp_kind)
              (pair_geometry M sys i ptnr).lBij
              ((pair_geometry M sys i ptnr).rlBij * (pair_geometry M sys i ptnr).Bij)
              (-(pair_geometry M sys i ptnr).rlBij * (pair_geometry M sys i ptnr).Bij)
              i ptnr.1 := by
  rw [pair_force_blocks]
  split_ifs with hc
  · rfl
  · rw [List.filter_append, List.filter_append]
    have h1 : ∀ (l : List (ForceTerm × Nat × Vec3 α)),
        (∀ e ∈ l, e.1 = ForceTerm.repulsive) →
        l.filter (fun e => decide (e.1 = ForceTerm.repulsive)) = l := by
      intro l hl
      rw [List.filter_eq_self]
      intro e he
      simp [hl e he]
    have h2 : ∀ (l : List (ForceTerm × Nat × Vec3 α)),
        (∀ e ∈ l, e.1 ≠ ForceTerm.repulsive) →
        l.filter (fun e => decide (e.1 = ForceTerm.repulsive)) = [] := by
      intro l hl
      rw [List.filter_eq_nil_iff]
      intro e he
      simp [hl e he]
    rw [h1 _ repulsive_force_tags, h2, h2, List.append_nil, List.append_nil]
    · intro e he
      rcases (cross_stacking_force_mem he).2 with h | h <;> rw [h.1] <;> decide
    · intro e he
      rcases attractive_force_tags e he with h | h | h | h <;> rw [h] <;> decide

/-- The repulsive energy of a pair is the repulsive block, past the cutoff test. -/
theorem pair_energy_repulsive_part {α : Type} [LinearOrderedField α] (M : MathFns α)
    (self : ThreeSPN2BaseBaseInteraction α) (sys : System α) (i : Nat)
    (ptnr : Nat × BasePairParameter) :
    (pair_energy M self sys i ptnr).filter (fun e => decide (e.1 = EnergyTerm.repulsive))
      = if (pair_geometry M sys i ptnr).lBij_sq
            > self.base_pairing_potential_.cutoff_sq ptnr.2.bp_kind then []
        else repulsive_energy M self.base_pairing_potential_.alpha
              (self.base_pairing_potential_.epsilon ptnr.2.bp_kind)
              (self.base_pairing_potential_.r0 ptnr.2.bp_kind)
              (pair_geometry M sys i ptnr).lBij := by
  unfold pair_energy
  simp only
  split_ifs with hc
  · rfl
  · rw [List.filter_append, List.filter_append]
    have h1 : ∀ (l : List (EnergyTerm × α)),
        (∀ e ∈ l, e.1 = EnergyTerm.repulsive) →
        l.filter (fun e => decide (e.1 = EnergyTerm.repulsive)) = l := by
      intro l hl
      rw [List.filter_eq_self]
      intro e he
      simp [hl e he]
    have h2 : ∀ (l : List (EnergyTerm × α)),
        (∀ e ∈ l, e.1 ≠ EnergyTerm.repulsive) →
        l.filter (fun e => decide (e.1 = EnergyTerm.repulsive)) = [] := by
      intro l hl
      rw [List.filter_eq_nil_iff]
      intro e he
      simp [hl e he]
    rw [h1 _ (fun e he => repulsive_energy_tags e he), h2, h2, List.append_nil,
      List.append_nil]
    · intro e he
      rcases (cross_stacking_energy_mem he).2 with h | h <;> rw [h.1] <;> decide
    · intro e he
      rw [(attractive_energy_tags e he).1]
      decide

/-- The coefficient `coef` of the repulsive block is the derivative of the energy term
`e (1 - exp(-a (r - r0)))^2` of `calc_energy` with respect to the distance. -/
theorem repulsive_coef_hasDerivAt (a e r0 r : ℝ) :
    HasDerivAt
      (fun x : ℝ => e * (1 - Real.exp (-a * (x - r0))) * (1 - Real.exp (-a * (x - r0))))
      (2 * a * e * Real.exp (-a * (r - r0)) * (1 - Real.exp (-a * (r - r0)))) r := by
  have h1 : HasDerivAt (fun x : ℝ => -a * (x - r0)) (-a) r := by
    have := ((hasDerivAt_id r).sub_const r0).const_mul (-a)
    simpa using this
  have h2 : HasDerivAt (fun x : ℝ => 1 - Real.exp (-a * (x - r0)))
      (-(Real.exp (-a * (r - r0)) * (-a))) r := (h1.exp).const_sub 1
  have h3 := ((h2.const_mul e).mul h2)
  convert h3 using 1
  ring

/-- The geometry of the sample pair: the bases are at distance `1` along the x axis. -/
theorem four_particles_geometry :
    (pair_geometry
      (⟨Real.pi, fun x => 1 / Real.sqrt x, Real.exp, Real.arccos, Real.sin, Real.cos⟩ : MathFns ℝ)
      four_particles 0 (1, { Si := 2, Sj := 3, bp_kind := 0 })).Bij = ⟨1, 0, 0⟩
    ∧ (pair_geometry
      (⟨Real.pi, fun x => 1 / Real.sqrt x, Real.exp, Real.arccos, Real.sin, Real.cos⟩ : MathFns ℝ)
      four_particles 0 (1, { Si := 2, Sj := 3, bp_kind := 0 })).lBij_sq = 1
    ∧ (pair_geometry
      (⟨Real.pi, fun x => 1 / Real.sqrt x, Real.exp, Real.arccos, Real.sin, Real.cos⟩ : MathFns ℝ)
      four_particles 0 (1, { Si := 2, Sj := 3, bp_kind := 0 })).rlBij = 1
    ∧ (pair_geometry
      (⟨Real.pi, fun x => 1 / Real.sqrt x, Real.exp, Real.arccos, Real.sin, Real.cos⟩ : MathFns ℝ)
      four_particles 0 (1, { Si := 2, Sj := 3, bp_kind := 0 })).lBij = 1 := by
  have hp0 : (four_particles : System ℝ).position 0 = ⟨0, 0, 0⟩ := rfl
  have hp1 : (four_particles : System ℝ).position 1 = ⟨1, 0, 0⟩ := rfl
  have hadj : ∀ w : Vec3 ℝ, (four_particles : System ℝ).adjust_direction w = w := fun _ => rfl
  have hBij : (⟨1, 0, 0⟩ : Vec3 ℝ) - ⟨0, 0, 0⟩ = ⟨1, 0, 0⟩ := by ext <;> simp
  have hl1 : length_sq (⟨1, 0, 0⟩ : Vec3 ℝ) = 1 := by simp [length_sq]
  unfold pair_geometry
  simp only [hp0, hp1, hadj, hBij, hl1, Real.sqrt_one, div_one, mul_one, and_self]

/-- C11, the code at the failing input: bases `0`, `1` at `(0,0,0)`, `(1,0,0)` with
`r0 = 2`, `epsilon = 1`, `alpha = 1`, so `r = 1 < r0`. `calc_energy` adds
`U_rep(1) = (1 - exp 1)^2`, and `dU_rep/dr` at `r = 1` is `c = 2 exp 1 (1 - exp 1) < 0`.
`calc_force` adds `(-c, 0, 0)` to base `0` and `(c, 0, 0)` to base `1`: the force on `Bj`
is `+(dU_rep/dr) (r_Bj - r_Bi)/r`, the gradient and not its negative, and it points from
`Bj` towards `Bi`, so inside the repulsive core the two bases are pulled together. -/
theorem spn2_repulsive_force_is_gradient :
    (pair_force
        (⟨Real.pi, fun x => 1 / Real.sqrt x, Real.exp, Real.arccos, Real.sin, Real.cos⟩ : MathFns ℝ)
        (close_base_base ⟨Real.pi, fun x => 1 / Real.sqrt x, Real.exp, Real.arccos, Real.sin,
          Real.cos⟩) four_particles 0 (1, { Si := 2, Sj := 3, bp_kind := 0 })
        ⟨0, 0, 0⟩).filter (fun e => decide (e.1 = ForceTerm.repulsive))
      = [(ForceTerm.repulsive, 0, ⟨-(2 * Real.exp 1 * (1 - Real.exp 1)), 0, 0⟩),
         (ForceTerm.repulsive, 1, ⟨2 * Real.exp 1 * (1 - Real.exp 1), 0, 0⟩)]
    ∧ (pair_energy
        (⟨Real.pi, fun x => 1 / Real.sqrt x, Real.exp, Real.arccos, Real.sin, Real.cos⟩ : MathFns ℝ)
        (close_base_base ⟨Real.pi, fun x => 1 / Real.sqrt x, Real.exp, Real.arccos, Real.sin,
          Real.cos⟩) four_particles 0 (1, { Si := 2, Sj := 3, bp_kind := 0 })).filter
          (fun e => decide (e.1 = EnergyTerm.repulsive))
      = [(EnergyTerm.repulsive, (1 - Real.exp 1) * (1 - Real.exp 1))]
    ∧ HasDerivAt
        (fun r : ℝ => 1 * (1 - Real.exp (-1 * (r - 2))) * (1 - Real.exp (-1 * (r - 2))))
        (2 * Real.exp 1 * (1 - Real.exp 1)) 1
    ∧ 2 * Real.exp 1 * (1 - Real.exp 1) < 0
    ∧ (⟨2 * Real.exp 1 * (1 - Real.exp 1), 0, 0⟩ : Vec3 ℝ)
        ≠ (-(2 * Real.exp 1 * (1 - Real.exp 1))) * (((⟨1, 0, 0⟩ : Vec3 ℝ) - ⟨0, 0, 0⟩)) := by
  have hexp : (1 : ℝ) < Real.exp 1 := by
    have := Real.add_one_lt_exp (one_ne_zero : (1 : ℝ) ≠ 0)
    linarith
  have hc : 2 * Real.exp 1 * (1 - Real.exp 1) < 0 := by
    have h1 : 0 < 2 * Real.exp 1 := by positivity
    have h2 : 1 - Real.exp 1 < 0 := by linarith
    exact mul_neg_of_pos_of_neg h1 h2
  obtain ⟨hB, hsq, hrl, hl⟩ := four_particles_geometry
  have hcut : ¬ ((1 : ℝ) > 4) := by norm_num
  have hlt : (1 : ℝ) < 2 := by norm_num
  have harg : (-1 : ℝ) * (1 - 2) = 1 := by norm_num
  refine ⟨?_, ?_, ?_, hc, ?_⟩
  · rw [pair_force_repulsive_part, hB, hsq, hrl, hl]
    simp only [close_base_base, close_base_pairing, sample_base_base, sample_base_pairing]
    rw [if_neg hcut]
    unfold repulsive_force
    rw [if_pos hlt]
    simp only [harg, mul_one, one_mul, vec3_smul_mk, mul_zero, neg_zero, mul_neg]
  · rw [pair_energy_repulsive_part, hsq, hl]
    simp only [close_base_base, close_base_pairing, sample_base_base, sample_base_pairing]
    rw [if_neg hcut]
    unfold repulsive_energy
    rw [if_pos hlt]
    norm_num
  · have h := repulsive_coef_hasDerivAt 1 1 2 1
    simp only [harg, mul_one] at h
    exact h
  · intro h
    have hx := congrArg Vec3.x h
    simp at hx
    linarith

end spn2_repulsion

section spn2_rotation

variable {α : Type} [LinearOrderedField α]

open ThreeSPN2BaseBaseInteraction

theorem rotate_zero (Q : Vec3 (Vec3 α)) : rotate Q (0 : Vec3 α) = 0 := by
  ext <;> simp [rotate, dot_product]

theorem rotate_sub (Q : Vec3 (Vec3 α)) (a b : Vec3 α) :
    rotate Q a - rotate Q b = rotate Q (a - b) := by
  ext <;> simp [rotate, dot_product] <;> ring

theorem rotate_smul (Q : Vec3 (Vec3 α)) (s : α) (a : Vec3 α) :
    s * rotate Q a = rotate Q (s * a) := by
  ext <;> simp [rotate, dot_product] <;> ring

theorem rotate_muls (Q : Vec3 (Vec3 α)) (s : α) (a : Vec3 α) :
    rotate Q a * s = rotate Q (a * s) := by
  ext <;> simp [rotate, dot_product] <;> ring

theorem dot_rotate {Q : Vec3 (Vec3 α)} (hQ : is_proper_rotation Q) (a b : Vec3 α) :
    dot_product (rotate Q a) (rotate Q b) = dot_product a b := by
  obtain ⟨h1, h2, h3, h4, h5, h6, _⟩ := hQ
  simp only [rotate, dot_product]
  linear_combination (a.x * b.x) * h1 + (a.y * b.y) * h2 + (a.z * b.z) * h3
    + (a.x * b.y + a.y * b.x) * h4 + (a.x * b.z + a.z * b.x) * h5
    + (a.y * b.z + a.z * b.y) * h6

theorem length_sq_rotate {Q : Vec3 (Vec3 α)} (hQ : is_proper_rotation Q) (a : Vec3 α) :
    length_sq (rotate Q a) = length_sq a := dot_rotate hQ a a

theorem triple_rotate {Q : Vec3 (Vec3 α)} (hQ : is_proper_rotation Q) (a b c : Vec3 α) :
    dot_product (rotate Q a) (cross_product (rotate Q b) (rotate Q c))
      = dot_product a (cross_product b c) := by
  have hd := hQ.2.2.2.2.2.2
  simp only [rotate, dot_product, cross_product] at hd ⊢
  linear_combination (a.x * (b.y * c.z - b.z * c.y) + a.y * (b.z * c.x - b.x * c.z)
    + a.z * (b.x * c.y - b.y * c.x)) * hd

theorem position_rotate (Q : Vec3 (Vec3 α)) (sys : System α) (i : Nat) :
    (rotate_system Q sys).position i = rotate Q (sys.position i) := by
  unfold System.position rotate_system
  simp only
  conv_lhs => rw [← rotate_zero Q]
  exact List.getD_map _ _ _

theorem pair_geometry_rotate (M : MathFns α) {Q : Vec3 (Vec3 α)} (hQ : is_proper_rotation Q)
    (sys : System α) (hb : ∀ v, sys.adjust_direction v = v) (i : Nat)
    (ptnr : Nat × BasePairParameter) :
    pair_geometry M (rotate_system Q sys) i ptnr
      = { pair_geometry M sys i ptnr with
          Bij := rotate Q (pair_geometry M sys i ptnr).Bij,
          SBi := rotate Q (pair_geometry M sys i ptnr).SBi,
          SBj := rotate Q (pair_geometry M sys i ptnr).SBj } := by
  have hb2 : ∀ v, (rotate_system Q sys).adjust_direction v = v := hb
  unfold pair_geometry
  simp only [position_rotate, hb, hb2, rotate_sub, dot_rotate hQ, length_sq_rotate hQ]

theorem attractive_energy_rotate (M : MathFns α) {Q : Vec3 (Vec3 α)}
    (hQ : is_proper_rotation Q) (bp : ThreeSPN2BasePairingPotential α) (bp_kind : Nat)
    (Bij SBi SBj : Vec3 α) (lBij rlBij theta1 theta2 r0 e_BP a_BP : α) :
    attractive_energy M bp bp_kind (rotate Q Bij) (rotate Q SBi) (rotate Q SBj) lBij rlBij
        theta1 theta2 r0 e_BP a_BP
      = attractive_energy M bp bp_kind Bij SBi SBj lBij rlBij theta1 theta2 r0 e_BP a_BP := by
  unfold attractive_energy
  simp only [rotate_muls, rotate_smul, rotate_sub, dot_rotate hQ, length_sq_rotate hQ,
    triple_rotate hQ]

theorem cross_stacking_theta_rotate (M : MathFns α) {Q : Vec3 (Vec3 α)}
    (hQ : is_proper_rotation Q) (Badj_B SB : Vec3 α) (rlSB : α) :
    cross_stacking_theta M (rotate Q Badj_B) (rotate Q SB) rlSB
      = cross_stacking_theta M Badj_B SB rlSB := by
  unfold cross_stacking_theta
  simp only [dot_rotate hQ, length_sq_rotate hQ]

theorem cross_stacking_half_energy_rotate (M : MathFns α) {Q : Vec3 (Vec3 α)}
    (hQ : is_proper_rotation Q) (cs : ThreeSPN2CrossStackingPotential α) (term : EnergyTerm)
    (cs_kind : Nat) (Badj_B SB : Vec3 α) (rlSB r0 lBij f3 : α) :
    cross_stacking_half_energy M cs term cs_kind (rotate Q Badj_B) (rotate Q SB) rlSB r0
        lBij f3
      = cross_stacking_half_energy M cs term cs_kind Badj_B SB rlSB r0 lBij f3 := by
  unfold cross_stacking_half_energy
  simp only [cross_stacking_theta_rotate M hQ, length_sq_rotate hQ]

theorem cross_stacking_energy_rotate (M : MathFns α) {Q : Vec3 (Vec3 α)}
    (hQ : is_proper_rotation Q) (cs : ThreeSPN2CrossStackingPotential α) (sys : System α)
    (hb : ∀ v, sys.adjust_direction v = v) (bp_kind : Nat) (rBi rBj SBi SBj : Vec3 α)
    (rlSBi rlSBj r0 lBij : α) (Bi Bj : Nat) :
    cross_stacking_energy M cs (rotate_system Q sys) bp_kind (rotate Q rBi) (rotate Q rBj)
        (rotate Q SBi) (rotate Q SBj) rlSBi rlSBj r0 lBij Bi Bj
      = cross_stacking_energy M cs sys bp_kind rBi rBj SBi SBj rlSBi rlSBj r0 lBij Bi Bj := by
  have hb2 : ∀ v, (rotate_system Q sys).adjust_direction v = v := hb
  unfold cross_stacking_energy
  simp only [position_rotate, hb, hb2, rotate_sub, dot_rotate hQ,
    cross_stacking_half_energy_rotate M hQ]

theorem pair_energy_rotate (M : MathFns α) {Q : Vec3 (Vec3 α)} (hQ : is_proper_rotation Q)
    (self : ThreeSPN2BaseBaseInteraction α) (sys : System α)
    (hb : ∀ v, sys.adjust_direction v = v) (i : Nat) (ptnr : Nat × BasePairParameter) :
    pair_energy M self (rotate_system Q sys) i ptnr = pair_energy M self sys i ptnr := by
  unfold pair_energy
  simp only [pair_geometry_rotate M hQ sys hb, position_rotate,
    attractive_energy_rotate M hQ, cross_stacking_energy_rotate M hQ _ sys hb]

/-- C14: under the unlimited boundary (`adjust_direction` is the identity) and for a
fixed neighbor list, `calc_energy` returns the same value for a system and for the system
in which every position is rotated by one proper rotation `Q`. -/
theorem spn2_energy_rotation_invariant (M : MathFns α) (Q : Vec3 (Vec3 α))
    (hQ : is_proper_rotation Q) (self : ThreeSPN2BaseBaseInteraction α) (sys : System α)
    (hb : ∀ v, sys.adjust_direction v = v) :
    calc_energy M self (rotate_system Q sys) = calc_energy M self sys := by
  unfold calc_energy
  simp only [pair_energy_rotate M hQ self sys hb]

/-- Witness of C14: the sample base pair, turned by a quarter turn about the z axis. -/
theorem spn2_energy_rotation_invariant_witness :
    is_proper_rotation (⟨⟨0, -1, 0⟩, ⟨1, 0, 0⟩, ⟨0, 0, 1⟩⟩ : Vec3 (Vec3 ℝ))
    ∧ (∀ v, (four_particles : System ℝ).adjust_direction v = v)
    ∧ (rotate_system (⟨⟨0, -1, 0⟩, ⟨1, 0, 0⟩, ⟨0, 0, 1⟩⟩ : Vec3 (Vec3 ℝ))
          four_particles).positions = [⟨0, 0, 0⟩, ⟨0, 1, 0⟩, ⟨-1, 0, 0⟩, ⟨-1, 1, 0⟩]
    ∧ calc_energy
        (⟨Real.pi, fun x => 1 / Real.sqrt x, Real.exp, Real.arccos, Real.sin, Real.cos⟩ : MathFns ℝ)
        (sample_base_base ⟨Real.pi, fun x => 1 / Real.sqrt x, Real.exp, Real.arccos, Real.sin,
          Real.cos⟩)
        (rotate_system (⟨⟨0, -1, 0⟩, ⟨1, 0, 0⟩, ⟨0, 0, 1⟩⟩ : Vec3 (Vec3 ℝ)) four_particles)
      = calc_energy
        (⟨Real.pi, fun x => 1 / Real.sqrt x, Real.exp, Real.arccos, Real.sin, Real.cos⟩ : MathFns ℝ)
        (sample_base_base ⟨Real.pi, fun x => 1 / Real.sqrt x, Real.exp, Real.arccos, Real.sin,
          Real.cos⟩) four_particles :=
  have hQ : is_proper_rotation (⟨⟨0, -1, 0⟩, ⟨1, 0, 0⟩, ⟨0, 0, 1⟩⟩ : Vec3 (Vec3 ℝ)) := by
    simp [is_proper_rotation, dot_product, cross_product]
  ⟨hQ, fun _ => rfl, by simp [rotate_system, four_particles, rotate, dot_product],
    spn2_energy_rotation_invariant _ _ hQ _ _ (fun _ => rfl)⟩

end spn2_rotation

section base_stacking_window

open ThreeSPN2BaseStackingPotential

/-- Gluing of two differentiable pieces that share the derivative at the join. -/
theorem hasDerivAt_glue {g A B : ℝ → ℝ} {l c u d : ℝ} (hl : l < c) (hu : c < u)
    (hA : ∀ y, l ≤ y → y ≤ c → g y = A y) (hB : ∀ y, c ≤ y → y ≤ u → g y = B y)
    (dA : HasDerivAt A d c) (dB : HasDerivAt B d c) : HasDerivAt g d c := by
  have h1 : HasDerivWithinAt g d (Set.Icc l c) c :=
    (dA.hasDerivWithinAt).congr (fun y hy => hA y hy.1 hy.2) (hA c hl.le le_rfl)
  have h2 : HasDerivWithinAt g d (Set.Icc c u) c :=
    (dB.hasDerivWithinAt).congr (fun y hy => hB y hy.1 hy.2) (hB c le_rfl hu.le)
  have h3 := h1.union h2
  rw [Set.Icc_union_Icc_eq_Icc hl.le hu.le] at h3
  exact h3.hasDerivAt (Icc_mem_nhds hl hu)

/-- At `|d| = pi/K` the cosine of `K d` squares to one and `sin (2 K d)` vanishes. -/
theorem window_join_outer {K d : ℝ} (hK : 0 < K) (hd : |d| = Real.pi / K) :
    Real.cos (K * d) * Real.cos (K * d) = 1 ∧ Real.sin (2 * K * d) = 0 := by
  have hKd : K * d = Real.pi ∨ K * d = -Real.pi := by
    rcases abs_eq (div_pos Real.pi_pos hK).le |>.mp hd with h | h
    · left
      rw [h]
      field_simp
    · right
      rw [h]
      field_simp
      ring
  rcases hKd with h | h
  · rw [mul_assoc, h]
    simp
  · rw [mul_assoc, h]
    simp

/-- At `|d| = pi/(2K)` the cosine of `K d` and `sin (2 K d)` vanish. -/
theorem window_join_inner {K d : ℝ} (hK : 0 < K) (hd : |d| = Real.pi / K * (1 / 2)) :
    Real.cos (K * d) = 0 ∧ Real.sin (2 * K * d) = 0 := by
  have hKd : K * d = Real.pi / 2 ∨ K * d = -(Real.pi / 2) := by
    have hpos : 0 ≤ Real.pi / K * (1 / 2) := by positivity
    rcases (abs_eq hpos).mp hd with h | h
    · left
      rw [h]
      field_simp
      ring
    · right
      rw [h]
      field_simp
      ring
  rcases hKd with h | h
  · rw [mul_assoc, h]
    constructor
    · simp
    · have : 2 * (Real.pi / 2) = Real.pi := by ring
      rw [this]
      simp
  · rw [mul_assoc, h]
    constructor
    · simp
    · have : 2 * -(Real.pi / 2) = -Real.pi := by ring
      rw [this]
      simp

variable (M : MathFns ℝ) (self : ThreeSPN2BaseStackingPotential ℝ)

theorem window_f_outside (theta theta0 : ℝ) (h : self.pi_over_K_BS_ ≤ |theta - theta0|)
    (hpos : 0 < self.pi_over_K_BS_) : f M self theta theta0 = 0 := by
  unfold f
  have h1 : ¬ (|theta - theta0| < self.pi_over_K_BS_ * 0.5) := by
    norm_num
    linarith
  have h2 : ¬ (|theta - theta0| < self.pi_over_K_BS_) := not_lt.mpr h
  simp only [h1, h2, if_false]
  norm_num

theorem window_df_outside (theta theta0 : ℝ) (h : self.pi_over_K_BS_ ≤ |theta - theta0|)
    (hpos : 0 < self.pi_over_K_BS_) : df M self theta theta0 = 0 := by
  unfold df
  have h1 : ¬ (|theta - theta0| < self.pi_over_K_BS_ * 0.5) := by
    norm_num
    linarith
  have h2 : ¬ (|theta - theta0| < self.pi_over_K_BS_) := not_lt.mpr h
  simp only [h1, h2, if_false]
  norm_num

theorem window_f_transition (hcos : M.cos = Real.cos) (hK : 0 < self.K_BS_)
    (hp : self.pi_over_K_BS_ = Real.pi / self.K_BS_) (theta theta0 : ℝ)
    (h1 : self.pi_over_K_BS_ * (1 / 2) ≤ |theta - theta0|)
    (h2 : |theta - theta0| ≤ self.pi_over_K_BS_) :
    f M self theta theta0
      = 1 - Real.cos (self.K_BS_ * (theta - theta0))
          * Real.cos (self.K_BS_ * (theta - theta0)) := by
  have hpos : 0 < self.pi_over_K_BS_ := by
    rw [hp]
    exact div_pos Real.pi_pos hK
  rcases h2.lt_or_eq with h3 | h3
  · unfold f
    have hn : ¬ (|theta - theta0| < self.pi_over_K_BS_ * 0.5) := by
      norm_num
      linarith
    simp only [hn, h3, if_false, if_true, hcos]
    norm_num
  · rw [window_f_outside M self theta theta0 h3.ge hpos,
      (window_join_outer hK (h3.trans hp)).1]
    norm_num

theorem window_df_transition (hsin : M.sin = Real.sin) (hK : 0 < self.K_BS_)
    (hp : self.pi_over_K_BS_ = Real.pi / self.K_BS_) (theta theta0 : ℝ)
    (h1 : self.pi_over_K_BS_ * (1 / 2) ≤ |theta - theta0|)
    (h2 : |theta - theta0| ≤ self.pi_over_K_BS_) :
    df M self theta theta0
      = self.K_BS_ * Real.sin (2 * self.K_BS_ * (theta - theta0)) := by
  have hpos : 0 < self.pi_over_K_BS_ := by
    rw [hp]
    exact div_pos Real.pi_pos hK
  rcases h2.lt_or_eq with h3 | h3
  · unfold df
    have hn : ¬ (|theta - theta0| < self.pi_over_K_BS_ * 0.5) := by
      norm_num
      linarith
    simp only [hn, h3, if_false, if_true, hsin]
  · rw [window_df_outside M self theta theta0 h3.ge hpos,
      (window_join_outer hK (h3.trans hp)).2]
    norm_num

theorem window_f_inside (hcos : M.cos = Real.cos) (hK : 0 < self.K_BS_)
    (hp : self.pi_over_K_BS_ = Real.pi / self.K_BS_) (theta theta0 : ℝ)
    (h : |theta - theta0| ≤ self.pi_over_K_BS_ * (1 / 2)) :
    f M self theta theta0 = 1 := by
  have hpos : 0 < self.pi_over_K_BS_ := by
    rw [hp]
    exact div_pos Real.pi_pos hK
  rcases h.lt_or_eq with h3 | h3
  · unfold f
    have hn : |theta - theta0| < self.pi_over_K_BS_ * 0.5 := by
      norm_num
      linarith
    simp only [hn, if_true]
    norm_num
  · rw [window_f_transition M self hcos hK hp theta theta0 h3.ge (by linarith),
      (window_join_inner hK (by rw [h3, hp])).1]
    norm_num

theorem window_df_inside (hsin : M.sin = Real.sin) (hK : 0 < self.K_BS_)
    (hp : self.pi_over_K_BS_ = Real.pi / self.K_BS_) (theta theta0 : ℝ)
    (h : |theta - theta0| ≤ self.pi_over_K_BS_ * (1 / 2)) :
    df M self theta theta0 = 0 := by
  have hpos : 0 < self.pi_over_K_BS_ := by
    rw [hp]
    exact div_pos Real.pi_pos hK
  rcases h.lt_or_eq with h3 | h3
  · unfold df
    have hn : |theta - theta0| < self.pi_over_K_BS_ * 0.5 := by
      norm_num
      linarith
    simp only [hn, if_true]
    norm_num
  · rw [window_df_transition M self hsin hK hp theta theta0 h3.ge (by linarith),
      (window_join_inner hK (by rw [h3, hp])).2]
    norm_num

/-- The transition formula `1 - cos^2(K (theta - theta0))` has the derivative
`K sin(2 K (theta - theta0))`. -/
theorem window_transition_hasDerivAt (K theta0 theta : ℝ) :
    HasDerivAt (fun t : ℝ => 1 - Real.cos (K * (t - theta0)) * Real.cos (K * (t - theta0)))
      (K * Real.sin (2 * K * (theta - theta0))) theta := by
  have h1 : HasDerivAt (fun t : ℝ => K * (t - theta0)) K theta := by
    have := ((hasDerivAt_id theta).sub_const theta0).const_mul K
    simpa using this
  have h2 := h1.cos
  have h3 := (h2.mul h2).const_sub 1
  convert h3 using 1
  rw [mul_assoc, Real.sin_two_mul]
  ring

/-- The window is differentiable at every angle, with derivative `df`. -/
theorem window_hasDerivAt (hcos : M.cos = Real.cos) (hsin : M.sin = Real.sin)
    (hK : 0 < self.K_BS_) (hp : self.pi_over_K_BS_ = Real.pi / self.K_BS_)
    (theta0 theta : ℝ) :
    HasDerivAt (fun t : ℝ => f M self t theta0) (df M self theta theta0) theta := by
  have hpos : 0 < self.pi_over_K_BS_ := by
    rw [hp]
    exact div_pos Real.pi_pos hK
  have hZ : ∀ y : ℝ, self.pi_over_K_BS_ ≤ |y - theta0|
      → f M self y theta0 = (fun _ : ℝ => (0 : ℝ)) y :=
    fun y h => window_f_outside M self y theta0 h hpos
  have hS : ∀ y : ℝ, self.pi_over_K_BS_ * (1 / 2) ≤ |y - theta0|
      → |y - theta0| ≤ self.pi_over_K_BS_
      → f M self y theta0 = (fun t : ℝ => 1 - Real.cos (self.K_BS_ * (t - theta0))
          * Real.cos (self.K_BS_ * (t - theta0))) y :=
    fun y h1 h2 => window_f_transition M self hcos hK hp y theta0 h1 h2
  have hO : ∀ y : ℝ, |y - theta0| ≤ self.pi_over_K_BS_ * (1 / 2)
      → f M self y theta0 = (fun _ : ℝ => (1 : ℝ)) y :=
    fun y h => window_f_inside M self hcos hK hp y theta0 h
  have dZ : HasDerivAt (fun _ : ℝ => (0 : ℝ)) 0 theta := hasDerivAt_const theta 0
  have dO : HasDerivAt (fun _ : ℝ => (1 : ℝ)) 0 theta := hasDerivAt_const theta 1
  have dS := window_transition_hasDerivAt self.K_BS_ theta0 theta
  rcases lt_trichotomy (theta - theta0) (-self.pi_over_K_BS_) with c1 | c1 | c1
  · -- beyond the window, below
    have hd : self.pi_over_K_BS_ ≤ |theta - theta0| := le_abs.mpr (Or.inr (by linarith))
    rw [window_df_outside M self theta theta0 hd hpos]
    refine hasDerivAt_glue (sub_one_lt theta)
      (show theta < theta + (-self.pi_over_K_BS_ - (theta - theta0)) / 2 by linarith)
      (fun y _ h2 => hZ y (le_abs.mpr (Or.inr (by linarith))))
      (fun y _ h2 => hZ y (le_abs.mpr (Or.inr (by linarith)))) dZ dZ
  · -- the lower outer join
    have hd : self.pi_over_K_BS_ ≤ |theta - theta0| := le_abs.mpr (Or.inr (by linarith))
    have hj := (window_join_outer hK (show |theta - theta0| = Real.pi / self.K_BS_ by
      rw [c1, abs_neg, abs_of_pos hpos, hp])).2
    rw [hj, mul_zero] at dS
    rw [window_df_outside M self theta theta0 hd hpos]
    refine hasDerivAt_glue (sub_one_lt theta)
      (show theta < theta + self.pi_over_K_BS_ * (1 / 2) by linarith)
      (fun y _ h2 => hZ y (le_abs.mpr (Or.inr (by linarith))))
      (fun y h1 h2 => hS y (le_abs.mpr (Or.inr (by linarith)))
        (abs_le.mpr ⟨by linarith, by linarith⟩)) dZ dS
  · rcases lt_trichotomy (theta - theta0) (-(self.pi_over_K_BS_ * (1 / 2))) with c2 | c2 | c2
    · -- the lower transition
      rw [window_df_transition M self hsin hK hp theta theta0
        (le_abs.mpr (Or.inr (by linarith))) (abs_le.mpr ⟨by linarith, by linarith⟩)]
      refine hasDerivAt_glue
        (show theta - (theta - theta0 + self.pi_over_K_BS_) / 2 < theta by linarith)
        (show theta < theta + (-(self.pi_over_K_BS_ * (1 / 2)) - (theta - theta0)) / 2 by
          linarith)
        (fun y h1 h2 => hS y (le_abs.mpr (Or.inr (by linarith)))
          (abs_le.mpr ⟨by linarith, by linarith⟩))
        (fun y h1 h2 => hS y (le_abs.mpr (Or.inr (by linarith)))
          (abs_le.mpr ⟨by linarith, by linarith⟩)) dS dS
    · -- the lower inner join
      have hj := (window_join_inner hK (show |theta - theta0|
          = Real.pi / self.K_BS_ * (1 / 2) by
        rw [c2, abs_neg, abs_of_pos (by linarith), hp])).2
      rw [hj, mul_zero] at dS
      rw [window_df_inside M self hsin hK hp theta theta0
        (abs_le.mpr ⟨by linarith, by linarith⟩)]
      refine hasDerivAt_glue
        (show theta - self.pi_over_K_BS_ * (1 / 2) < theta by linarith)
        (show theta < theta + self.pi_over_K_BS_ * (1 / 2) by linarith)
        (fun y h1 h2 => hS y (le_abs.mpr (Or.inr (by linarith)))
          (abs_le.mpr ⟨by linarith, by linarith⟩))
        (fun y h1 h2 => hO y (abs_le.mpr ⟨by linarith, by linarith⟩)) dS dO
    · rcases lt_trichotomy (theta - theta0) (self.pi_over_K_BS_ * (1 / 2)) with c3 | c3 | c3
      · -- the plateau
        rw [window_df_inside M self hsin hK hp theta theta0
          (abs_le.mpr ⟨by linarith, by linarith⟩)]
        refine hasDerivAt_glue
          (show theta - (theta - theta0 + self.pi_over_K_BS_ * (1 / 2)) / 2 < theta by
            linarith)
          (show theta < theta + (self.pi_over_K_BS_ * (1 / 2) - (theta - theta0)) / 2 by
            linarith)
          (fun y h1 h2 => hO y (abs_le.mpr ⟨by linarith, by linarith⟩))
          (fun y h1 h2 => hO y (abs_le.mpr ⟨by linarith, by linarith⟩)) dO dO
      · -- the upper inner join
        have hj := (window_join_inner hK (show |theta - theta0|
            = Real.pi / self.K_BS_ * (1 / 2) by
          rw [c3, abs_of_pos (by linarith), hp])).2
        rw [hj, mul_zero] at dS
        rw [window_df_inside M self hsin hK hp theta theta0
          (abs_le.mpr ⟨by linarith, by linarith⟩)]
        refine hasDerivAt_glue
          (show theta - self.pi_over_K_BS_ * (1 / 2) < theta by linarith)
          (show theta < theta + self.pi_over_K_BS_ * (1 / 2) by linarith)
          (fun y h1 h2 => hO y (abs_le.mpr ⟨by linarith, by linarith⟩))
          (fun y h1 h2 => hS y (le_abs.mpr (Or.inl (by linarith)))
            (abs_le.mpr ⟨by linarith, by linarith⟩)) dO dS
      · rcases lt_trichotomy (theta - theta0) self.pi_over_K_BS_ with c4 | c4 | c4
        · -- the upper transition
          rw [window_df_transition M self hsin hK hp theta theta0
            (le_abs.mpr (Or.inl (by linarith))) (abs_le.mpr ⟨by linarith, by linarith⟩)]
          refine hasDerivAt_glue
            (show theta - (theta - theta0 - self.pi_over_K_BS_ * (1 / 2)) / 2 < theta by
              linarith)
            (show theta < theta + (self.pi_over_K_BS_ - (theta - theta0)) / 2 by linarith)
            (fun y h1 h2 => hS y (le_abs.mpr (Or.inl (by linarith)))
              (abs_le.mpr ⟨by linarith, by linarith⟩))
            (fun y h1 h2 => hS y (le_abs.mpr (Or.inl (by linarith)))
              (abs_le.mpr ⟨by linarith, by linarith⟩)) dS dS
        · -- the upper outer join
          have hd : self.pi_over_K_BS_ ≤ |theta - theta0| :=
            le_abs.mpr (Or.inl (by linarith))
          have hj := (window_join_outer hK (show |theta - theta0| = Real.pi / self.K_BS_ by
            rw [c4, abs_of_pos hpos, hp])).2
          rw [hj, mul_zero] at dS
          rw [window_df_outside M self theta theta0 hd hpos]
          refine hasDerivAt_glue
            (show theta - self.pi_over_K_BS_ * (1 / 2) < theta by linarith)
            (lt_add_one theta)
            (fun y h1 h2 => hS y (le_abs.mpr (Or.inl (by linarith)))
              (abs_le.mpr ⟨by linarith, by linarith⟩))
            (fun y h1 _ => hZ y (le_abs.mpr (Or.inl (by linarith)))) dS dZ
        · -- beyond the window, above
          have hd : self.pi_over_K_BS_ ≤ |theta - theta0| :=
            le_abs.mpr (Or.inl (by linarith))
          rw [window_df_outside M self theta theta0 hd hpos]
          refine hasDerivAt_glue
            (show theta - (theta - theta0 - self.pi_over_K_BS_) / 2 < theta by linarith)
            (lt_add_one theta)
            (fun y h1 _ => hZ y (le_abs.mpr (Or.inl (by linarith))))
            (fun y h1 _ => hZ y (le_abs.mpr (Or.inl (by linarith)))) dZ dZ

/-- The function `df` is continuous in the angle. -/
theorem window_df_continuous (hsin : M.sin = Real.sin)
    (hK : 0 < self.K_BS_) (hp : self.pi_over_K_BS_ = Real.pi / self.K_BS_) (theta0 : ℝ) :
    Continuous (fun t : ℝ => df M self t theta0) := by
  have hpos : 0 < self.pi_over_K_BS_ := by
    rw [hp]
    exact div_pos Real.pi_pos hK
  have heq : (fun t : ℝ => df M self t theta0)
      = fun t : ℝ => if self.pi_over_K_BS_ ≤ |t - theta0| then (0 : ℝ)
          else if self.pi_over_K_BS_ * (1 / 2) ≤ |t - theta0|
            then self.K_BS_ * Real.sin (2 * self.K_BS_ * (t - theta0)) else 0 := by
    funext t
    by_cases h1 : self.pi_over_K_BS_ ≤ |t - theta0|
    · rw [if_pos h1, window_df_outside M self t theta0 h1 hpos]
    · rw [if_neg h1]
      by_cases h2 : self.pi_over_K_BS_ * (1 / 2) ≤ |t - theta0|
      · rw [if_pos h2, window_df_transition M self hsin hK hp t theta0 h2 (not_le.mp h1).le]
      · rw [if_neg h2, window_df_inside M self hsin hK hp t theta0 (not_le.mp h2).le]
  rw [heq]
  have hc : Continuous (fun t : ℝ => |t - theta0|) := by fun_prop
  have hs : Continuous (fun t : ℝ => self.K_BS_ * Real.sin (2 * self.K_BS_ * (t - theta0))) := by
    fun_prop
  refine Continuous.if_le continuous_const ?_ continuous_const hc ?_
  · refine Continuous.if_le hs continuous_const continuous_const hc ?_
    intro t ht
    rw [(window_join_inner hK (show |t - theta0| = Real.pi / self.K_BS_ * (1 / 2) by
      rw [← ht, hp])).2, mul_zero]
  · intro t ht
    have h2 : self.pi_over_K_BS_ * (1 / 2) ≤ |t - theta0| := by linarith
    rw [if_pos h2, (window_join_outer hK (show |t - theta0| = Real.pi / self.K_BS_ by
      rw [← ht, hp])).2, mul_zero]

/-- The constructed potential has `K = 6` and `pi_over_K = pi / K`. -/
theorem constructed_window_parameters :
    (0 : ℝ) < (constructed (⟨Real.pi, fun x => 1 / Real.sqrt x, Real.exp, Real.arccos, Real.sin, Real.cos⟩ : MathFns ℝ)).K_BS_
    ∧ (constructed (⟨Real.pi, fun x => 1 / Real.sqrt x, Real.exp, Real.arccos, Real.sin, Real.cos⟩ : MathFns ℝ)).K_BS_ = 6
    ∧ (constructed (⟨Real.pi, fun x => 1 / Real.sqrt x, Real.exp, Real.arccos, Real.sin, Real.cos⟩ : MathFns ℝ)).pi_over_K_BS_
      = Real.pi / (constructed (⟨Real.pi, fun x => 1 / Real.sqrt x, Real.exp, Real.arccos, Real.sin, Real.cos⟩ : MathFns ℝ)).K_BS_ := by
  refine ⟨?_, ?_, rfl⟩
  · norm_num [constructed]
  · norm_num [constructed]

/-- C15: the window `f(theta, theta0)` of the base-stacking potential (`K = 6`) is C1 in
`theta`. It is `1` for `|theta - theta0| <= pi/(2K)`, `1 - cos^2(K (theta - theta0))` for
`pi/(2K) <= |theta - theta0| <= pi/K` and `0` for `|theta - theta0| >= pi/K`; it is
continuous; `df(theta, theta0)` is its derivative at every `theta`; `df` is continuous and
is zero at both joins. -/
theorem base_stacking_window_is_C1 :
    (∀ theta theta0 : ℝ, |theta - theta0| ≤ Real.pi / (2 * 6)
      → f (⟨Real.pi, fun x => 1 / Real.sqrt x, Real.exp, Real.arccos, Real.sin, Real.cos⟩ : MathFns ℝ)
          (constructed ⟨Real.pi, fun x => 1 / Real.sqrt x, Real.exp, Real.arccos, Real.sin,
            Real.cos⟩) theta theta0 = 1)
    ∧ (∀ theta theta0 : ℝ, Real.pi / (2 * 6) ≤ |theta - theta0|
      → |theta - theta0| ≤ Real.pi / 6
      → f (⟨Real.pi, fun x => 1 / Real.sqrt x, Real.exp, Real.arccos, Real.sin, Real.cos⟩ : MathFns ℝ)
          (constructed ⟨Real.pi, fun x => 1 / Real.sqrt x, Real.exp, Real.arccos, Real.sin,
            Real.cos⟩) theta theta0 = 1 - Real.cos (6 * (theta - theta0)) ^ 2)
    ∧ (∀ theta theta0 : ℝ, Real.pi / 6 ≤ |theta - theta0|
      → f (⟨Real.pi, fun x => 1 / Real.sqrt x, Real.exp, Real.arccos, Real.sin, Real.cos⟩ : MathFns ℝ)
          (constructed ⟨Real.pi, fun x => 1 / Real.sqrt x, Real.exp, Real.arccos, Real.sin,
            Real.cos⟩) theta theta0 = 0)
    ∧ (∀ theta0 : ℝ, Continuous (fun theta : ℝ =>
        f (⟨Real.pi, fun x => 1 / Real.sqrt x, Real.exp, Real.arccos, Real.sin, Real.cos⟩ : MathFns ℝ)
          (constructed ⟨Real.pi, fun x => 1 / Real.sqrt x, Real.exp, Real.arccos, Real.sin,
            Real.cos⟩) theta theta0))
    ∧ (∀ theta theta0 : ℝ, HasDerivAt
        (fun t : ℝ => f (⟨Real.pi, fun x => 1 / Real.sqrt x, Real.exp, Real.arccos, Real.sin, Real.cos⟩ : MathFns ℝ)
          (constructed ⟨Real.pi, fun x => 1 / Real.sqrt x, Real.exp, Real.arccos, Real.sin,
            Real.cos⟩) t theta0)
        (df (⟨Real.pi, fun x => 1 / Real.sqrt x, Real.exp, Real.arccos, Real.sin, Real.cos⟩ : MathFns ℝ)
          (constructed ⟨Real.pi, fun x => 1 / Real.sqrt x, Real.exp, Real.arccos, Real.sin,
            Real.cos⟩) theta theta0) theta)
    ∧ (∀ theta0 : ℝ, Continuous (fun theta : ℝ =>
        df (⟨Real.pi, fun x => 1 / Real.sqrt x, Real.exp, Real.arccos, Real.sin, Real.cos⟩ : MathFns ℝ)
          (constructed ⟨Real.pi, fun x => 1 / Real.sqrt x, Real.exp, Real.arccos, Real.sin,
            Real.cos⟩) theta theta0))
    ∧ (∀ theta theta0 : ℝ,
        |theta - theta0| = Real.pi / (2 * 6) ∨ |theta - theta0| = Real.pi / 6
      → df (⟨Real.pi, fun x => 1 / Real.sqrt x, Real.exp, Real.arccos, Real.sin, Real.cos⟩ : MathFns ℝ)
          (constructed ⟨Real.pi, fun x => 1 / Real.sqrt x, Real.exp, Real.arccos, Real.sin,
            Real.cos⟩) theta theta0 = 0) := by
  obtain ⟨hK, hK6, hp⟩ := constructed_window_parameters
  have hp6 : (constructed (⟨Real.pi, fun x => 1 / Real.sqrt x, Real.exp, Real.arccos, Real.sin, Real.cos⟩ : MathFns ℝ)).pi_over_K_BS_ = Real.pi / 6 := by
    rw [hp, hK6]
  have hpos : 0 < (constructed (⟨Real.pi, fun x => 1 / Real.sqrt x, Real.exp, Real.arccos, Real.sin, Real.cos⟩ : MathFns ℝ)).pi_over_K_BS_ := by
    rw [hp6]
    exact div_pos Real.pi_pos (by norm_num)
  have hhalf : Real.pi / (2 * 6) = (constructed (⟨Real.pi, fun x => 1 / Real.sqrt x, Real.exp, Real.arccos, Real.sin, Real.cos⟩ : MathFns ℝ)).pi_over_K_BS_ * (1 / 2) := by
    rw [hp6]
    ring
  refine ⟨?_, ?_, ?_, ?_, ?_, ?_, ?_⟩
  · intro theta theta0 h
    rw [hhalf] at h
    exact window_f_inside _ _ rfl hK hp theta theta0 h
  · intro theta theta0 h1 h2
    rw [hhalf] at h1
    rw [← hp6] at h2
    rw [window_f_transition _ _ rfl hK hp theta theta0 h1 h2, hK6, sq]
  · intro theta theta0 h
    rw [← hp6] at h
    exact window_f_outside _ _ theta theta0 h hpos
  · intro theta0
    rw [continuous_iff_continuousAt]
    intro theta
    exact (window_hasDerivAt _ _ rfl rfl hK hp theta0 theta).continuousAt
  · intro theta theta0
    exact window_hasDerivAt _ _ rfl rfl hK hp theta0 theta
  · intro theta0
    exact window_df_continuous _ _ rfl hK hp theta0
  · intro theta theta0 h
    rcases h with h | h
    · rw [hhalf] at h
      exact window_df_inside _ _ rfl hK hp theta theta0 h.le
    · rw [← hp6] at h
      exact window_df_outside _ _ theta theta0 h.ge hpos

end base_stacking_window

section global_force_field

variable {α : Type} [LinearOrderedField α]

theorem force_field_energy_foldl (l : List (GlobalInteractionBase α)) (sys : ParticleSystem α)
    (e : α) :
    l.foldl (fun energy item => energy + item.calc_energy sys) e
      = e + (l.map (fun item => item.calc_energy sys)).sum := by
  induction l generalizing e with
  | nil => simp
  | cons a l ih =>
    rw [List.foldl_cons, ih, List.map_cons, List.sum_cons, add_assoc]

/-- C16: `GlobalForceField::calc_energy(sys)` is the sum, over the interactions in the
order of emplacement, of the energies of the interactions. It is `0` for the force field
without interaction; each `emplace` puts the new interaction last, and the energy of the
new interaction is added last. -/
theorem global_force_field_energy_sum (self : GlobalForceField α)
    (inter : GlobalInteractionBase α) (l : List (GlobalInteractionBase α))
    (sys : ParticleSystem α) :
    self.calc_energy sys = (self.interactions_.map (fun item => item.calc_energy sys)).sum
    ∧ (GlobalForceField.default_constructed : GlobalForceField α).calc_energy sys = 0
    ∧ (self.emplace inter).interactions_ = self.interactions_ ++ [inter]
    ∧ (self.emplace inter).calc_energy sys = self.calc_energy sys + inter.calc_energy sys
    ∧ (l.foldl GlobalForceField.emplace GlobalForceField.default_constructed).interactions_
        = l := by
  refine ⟨?_, rfl, rfl, ?_, ?_⟩
  · unfold GlobalForceField.calc_energy
    rw [force_field_energy_foldl, zero_add]
  · unfold GlobalForceField.calc_energy GlobalForceField.emplace
    rw [List.foldl_append]
    rfl
  · have h : ∀ (l : List (GlobalInteractionBase α)) (ff : GlobalForceField α),
        (l.foldl GlobalForceField.emplace ff).interactions_ = ff.interactions_ ++ l := by
      intro l
      induction l with
      | nil => intro ff; simp
      | cons a l ih =>
        intro ff
        rw [List.foldl_cons, ih]
        simp [GlobalForceField.emplace]
    rw [h]
    rfl

theorem vec3_sum_perm {β : Type} (g : β → Vec3 α) {l1 l2 : List β} (h : l1.Perm l2) :
    (l1.map g).sum = (l2.map g).sum := by
  induction h with
  | nil => rfl
  | cons x _ ih => rw [List.map_cons, List.map_cons, List.sum_cons, List.sum_cons, ih]
  | swap x y l =>
    simp only [List.map_cons, List.sum_cons]
    rw [← vec3_add_assoc, ← vec3_add_assoc, vec3_add_comm (g y) (g x)]
  | trans _ _ ih1 ih2 => rw [ih1, ih2]

/-- When every interaction of the list adds a contribution that does not depend on the
force buffer, the list adds the sum of the contributions. -/
theorem force_field_force_foldl
    (c : GlobalInteractionBase α → List (Vec3 α) → (Vec3 α → Vec3 α) → Nat → Vec3 α)
    (l : List (GlobalInteractionBase α))
    (h : ∀ item ∈ l, ∀ sys : ParticleSystem α, item.calc_force sys
      = { sys with force := fun i =>
            sys.force i + c item sys.positions sys.adjust_direction i })
    (sys : ParticleSystem α) :
    l.foldl (fun sys item => item.calc_force sys) sys
      = { sys with force := fun i => sys.force i
            + (l.map (fun item => c item sys.positions sys.adjust_direction i)).sum } := by
  induction l generalizing sys with
  | nil =>
    simp only [List.foldl_nil, List.map_nil, List.sum_nil, vec3_add_zero]
  | cons a l ih =>
    rw [List.foldl_cons, h a (List.mem_cons_self a l),
      ih (fun item hi => h item (List.mem_cons_of_mem a hi))]
    simp only [List.map_cons, List.sum_cons, vec3_add_assoc]

/-- C17: `GlobalForceField::calc_force` is order-independent. When every interaction
adds to the force buffer a contribution `c item` that depends on the positions (and the
boundary) but not on the content of the buffer, the buffer after `calc_force` is the
initial buffer plus the sum of the contributions, positions and boundary are unchanged,
and every permutation of the interaction list gives the same system. -/
theorem global_force_field_order_independent (self : GlobalForceField α)
    (c : GlobalInteractionBase α → List (Vec3 α) → (Vec3 α → Vec3 α) → Nat → Vec3 α)
    (h : ∀ item ∈ self.interactions_, ∀ sys : ParticleSystem α, item.calc_force sys
      = { sys with force := fun i =>
            sys.force i + c item sys.positions sys.adjust_direction i })
    (sys : ParticleSystem α) :
    self.calc_force sys
      = { sys with force := fun i => sys.force i
            + (self.interactions_.map
                (fun item => c item sys.positions sys.adjust_direction i)).sum }
    ∧ ∀ l : List (GlobalInteractionBase α), l.Perm self.interactions_
        → GlobalForceField.calc_force { interactions_ := l } sys = self.calc_force sys := by
  constructor
  · exact force_field_force_foldl c self.interactions_ h sys
  · intro l hl
    unfold GlobalForceField.calc_force
    rw [force_field_force_foldl c self.interactions_ h sys,
      force_field_force_foldl c l (fun item hi => h item (hl.mem_iff.mp hi)) sys]
    congr 1
    funext i
    rw [vec3_sum_perm _ hl]

/-- Witness of C17: the tether and the drift, in either order, add `(1,0,0) - r_i` to
the force of particle `i`. -/
theorem global_force_field_order_independent_witness :
    (∀ item ∈ ({ interactions_ := [sample_tether, sample_drift] }
          : GlobalForceField ℚ).interactions_,
        ∀ sys : ParticleSystem ℚ, item.calc_force sys
          = { sys with force := fun i => sys.force i
                + (item.calc_force ⟨sys.positions, sys.adjust_direction, fun _ => 0⟩).force i })
    ∧ (GlobalForceField.calc_force { interactions_ := [sample_tether, sample_drift] }
          two_particle_system).force 1 = ⟨0, 0, 0⟩
    ∧ GlobalForceField.calc_force { interactions_ := [sample_drift, sample_tether] }
          two_particle_system
        = GlobalForceField.calc_force { interactions_ := [sample_tether, sample_drift] }
          two_particle_system := by
  have h : ∀ item ∈ ({ interactions_ := [sample_tether, sample_drift] }
        : GlobalForceField ℚ).interactions_,
      ∀ sys : ParticleSystem ℚ, item.calc_force sys
        = { sys with force := fun i => sys.force i
              + (item.calc_force ⟨sys.positions, sys.adjust_direction, fun _ => 0⟩).force i } := by
    intro item hi sys
    simp only [List.mem_cons, List.mem_singleton, List.not_mem_nil, or_false] at hi
    rcases hi with rfl | rfl
    · simp only [sample_tether, vec3_zero_add]
    · simp only [sample_drift, vec3_zero_add]
  refine ⟨h, ?_, ?_⟩
  · simp only [GlobalForceField.calc_force, List.foldl_cons, List.foldl_nil, sample_tether,
      sample_drift, two_particle_system]
    ext <;> simp
  · exact (global_force_field_order_independent
      { interactions_ := [sample_tether, sample_drift] }
      (fun item positions adjust i => (item.calc_force ⟨positions, adjust, fun _ => 0⟩).force i)
      h two_particle_system).2 [sample_drift, sample_tether] (List.Perm.swap _ _ _)

end global_force_field

section lj_frame

variable {α : Type} [LinearOrderedField α]

/-- A property kept by every step of a loop is kept by the loop. -/
theorem foldl_keeps {σ β : Type} (R : σ → Prop) (f : σ → β → σ)
    (h : ∀ s x, R s → R (f s x)) (l : List β) (s : σ) (hs : R s) : R (l.foldl f s) := by
  induction l generalizing s with
  | nil => exact hs
  | cons a l ih => exact ih (f s a) (h s a hs)

end lj_frame

section readers

theorem except_bind_ok {ε β γ : Type} (a : β) (k : β → Except ε γ) :
    (Except.ok a >>= k) = k a := rfl

theorem except_bind_error {ε β γ : Type} (e : ε) (k : β → Except ε γ) :
    ((Except.error e : Except ε β) >>= k) = Except.error e := rfl

theorem except_bind_eq_ok {ε β γ : Type} {x : Except ε β} {k : β → Except ε γ} {c : γ}
    (h : (x >>= k) = Except.ok c) : ∃ a, x = Except.ok a ∧ k a = Except.ok c := by
  cases x with
  | error e => cases h
  | ok a => exact ⟨a, rfl, h⟩

/-- Whatever the table, the stored `B5_idx` comes from the key `"B3"` and the stored
`B3_idx` from the key `"B5"`. -/
theorem base_base_reader_sources (invalid : Nat) (env param : toml.value) (B : Nat)
    (p : parameter_type)
    (h : read_base_base_parameter invalid env param = Except.ok (B, p)) :
    ∃ v5 v3, toml.find param "B3" = Except.ok v5 ∧ toml.find param "B5" = Except.ok v3
      ∧ (v5 = toml.value.string "none" → p.B5_idx = invalid)
      ∧ (∀ n, v5 = toml.value.integer n → p.B5_idx = (n % 18446744073709551616).toNat)
      ∧ (v3 = toml.value.string "none" → p.B3_idx = invalid)
      ∧ (∀ n, v3 = toml.value.integer n → p.B3_idx = (n % 18446744073709551616).toNat) := by
  unfold read_base_base_parameter at h
  obtain ⟨B1, _, h⟩ := except_bind_eq_ok h
  obtain ⟨base, _, h⟩ := except_bind_eq_ok h
  by_cases hb : base ≠ "A" ∧ base ≠ "T" ∧ base ≠ "G" ∧ base ≠ "C"
  · rw [if_pos hb] at h
    obtain ⟨_, _, h⟩ := except_bind_eq_ok h
    exact Except.noConfusion h
  · rw [if_neg hb] at h
    obtain ⟨S, _, h⟩ := except_bind_eq_ok h
    obtain ⟨st, _, h⟩ := except_bind_eq_ok h
    obtain ⟨v5, h5, h⟩ := except_bind_eq_ok h
    obtain ⟨v3, h3, h⟩ := except_bind_eq_ok h
    obtain ⟨i5, hi5, h⟩ := except_bind_eq_ok h
    obtain ⟨i3, hi3, h⟩ := except_bind_eq_ok h
    have hp : p.B5_idx = i5 ∧ p.B3_idx = i3 := by
      injection h with h
      injection h with _ h
      subst h
      exact ⟨rfl, rfl⟩
    refine ⟨v5, v3, h5, h3, ?_, ?_, ?_, ?_⟩
    · intro hv
      subst hv
      simp only [toml.value.is_string, toml.value.as_string, and_self, if_true,
        Except.ok.injEq] at hi5
      rw [hp.1]
      exact hi5.symm
    · intro n hv
      subst hv
      simp only [toml.value.is_string, toml.get_size_t, Bool.false_eq_true, false_and,
        if_false, Except.ok.injEq] at hi5
      rw [hp.1]
      exact hi5.symm
    · intro hv
      subst hv
      simp only [toml.value.is_string, toml.value.as_string, and_self, if_true,
        Except.ok.injEq] at hi3
      rw [hp.2]
      exact hi3.symm
    · intro n hv
      subst hv
      simp only [toml.value.is_string, toml.get_size_t, Bool.false_eq_true, false_and,
        if_false, Except.ok.injEq] at hi3
      rw [hp.2]
      exact hi3.symm

/-- C19: an unknown name is never defaulted. `read_global_interaction` throws when the
field `interaction` cannot be read as a string, and throws `std::runtime_error` when it is
neither `"Pair"` nor `"3SPN2BaseBase"`; for `"Pair"` it is `read_global_pair_interaction`,
for `"3SPN2BaseBase"` it is `read_global_3spn2_base_base_interaction`. Likewise
`read_global_pair_interaction` throws unless the field `potential` is one of the five
names, and for each name it reads the potential with the reader of that name and hands it
to `read_spatial_partition`. -/
theorem read_global_interaction_dispatch {Ign Pot PotB R : Type} (rd : PairReaders Pot R)
    (bb : BaseBaseBuilders Ign PotB R) (invalid : Nat) (global : toml.value) :
    (∀ e, toml.find_as toml.get_string global "interaction" = Except.error e
      → read_global_interaction rd bb invalid global = Except.error e)
    ∧ (∀ name, toml.find_as toml.get_string global "interaction" = Except.ok name
      → name ≠ "Pair" → name ≠ "3SPN2BaseBase"
      → read_global_interaction rd bb invalid global
          = Except.error (Exception.runtime_error
              "mjolnir::read_global_interaction: invalid interaction"))
    ∧ (toml.find_as toml.get_string global "interaction" = Except.ok "Pair"
      → read_global_interaction rd bb invalid global
          = read_global_pair_interaction rd global)
    ∧ (toml.find_as toml.get_string global "interaction" = Except.ok "3SPN2BaseBase"
      → read_global_interaction rd bb invalid global
          = read_global_3spn2_base_base_interaction bb invalid global)
    ∧ (∀ e, toml.find_as toml.get_string global "potential" = Except.error e
      → read_global_pair_interaction rd global = Except.error e)
    ∧ (∀ name, toml.find_as toml.get_string global "potential" = Except.ok name
      → name ≠ "ExcludedVolume" → name ≠ "DebyeHuckel" → name ≠ "LennardJones"
      → name ≠ "UniformLennardJones" → name ≠ "3SPN2ExcludedVolume"
      → read_global_pair_interaction rd global
          = Except.error (Exception.runtime_error
              "mjolnir::read_global_pair_interaction: invalid potential"))
    ∧ (toml.find_as toml.get_string global "potential" = Except.ok "ExcludedVolume"
      → read_global_pair_interaction rd global
          = (rd.read_excluded_volume_potential global
              >>= fun pot => rd.read_spatial_partition global pot))
    ∧ (toml.find_as toml.get_string global "potential" = Except.ok "DebyeHuckel"
      → read_global_pair_interaction rd global
          = (rd.read_debye_huckel_potential global
              >>= fun pot => rd.read_spatial_partition global pot))
    ∧ (toml.find_as toml.get_string global "potential" = Except.ok "LennardJones"
      → read_global_pair_interaction rd global
          = (rd.read_lennard_jones_potential global
              >>= fun pot => rd.read_spatial_partition global pot))
    ∧ (toml.find_as toml.get_string global "potential" = Except.ok "UniformLennardJones"
      → read_global_pair_interaction rd global
          = (rd.read_uniform_lennard_jones_potential global
              >>= fun pot => rd.read_spatial_partition global pot))
    ∧ (toml.find_as toml.get_string global "potential" = Except.ok "3SPN2ExcludedVolume"
      → read_global_pair_interaction rd global
          = (rd.read_3spn2_excluded_volume_potential global
              >>= fun pot => rd.read_spatial_partition global pot)) := by
  refine ⟨?_, ?_, ?_, ?_, ?_, ?_, ?_, ?_, ?_, ?_, ?_⟩
  · intro e h
    unfold read_global_interaction
    rw [h, except_bind_error]
  · intro name h h1 h2
    unfold read_global_interaction
    rw [h, except_bind_ok, if_neg h1, if_neg h2]
  · intro h
    unfold read_global_interaction
    rw [h, except_bind_ok, if_pos rfl]
  · intro h
    unfold read_global_interaction
    rw [h, except_bind_ok, if_neg (by decide), if_pos rfl]
  · intro e h
    unfold read_global_pair_interaction
    rw [h, except_bind_error]
  · intro name h h1 h2 h3 h4 h5
    unfold read_global_pair_interaction
    rw [h, except_bind_ok, if_neg h1, if_neg h2, if_neg h3, if_neg h4, if_neg h5]
  · intro h
    unfold read_global_pair_interaction
    rw [h, except_bind_ok, if_pos rfl]
  · intro h
    unfold read_global_pair_interaction
    rw [h, except_bind_ok, if_neg (by decide), if_pos rfl]
  · intro h
    unfold read_global_pair_interaction
    rw [h, except_bind_ok, if_neg (by decide), if_neg (by decide), if_pos rfl]
  · intro h
    unfold read_global_pair_interaction
    rw [h, except_bind_ok, if_neg (by decide), if_neg (by decide), if_neg (by decide),
      if_pos rfl]
  · intro h
    unfold read_global_pair_interaction
    rw [h, except_bind_ok, if_neg (by decide), if_neg (by decide), if_neg (by decide),
      if_neg (by decide), if_pos rfl]

/-- C20, the code at the documented table `{B5 = "none", B3 = 4}` (with `S = 0`,
`B = 1`, `base = "A"`, `nucleotide_index = 0`): the reader stores `B5_idx = 4` and
`B3_idx = invalid`, the two indices exchanged. Line 144 reads the variable `B5` from the
key `"B3"` and line 145 the variable `B3` from the key `"B5"`, so for every table that is
read, `B5_idx` is the value under `"B3"` and `B3_idx` the value under `"B5"`. -/
theorem base_base_reader_exchanges_B5_B3 :
    read_base_base_parameter 18446744073709551615 toml.value.empty documented_parameter
      = Except.ok (1, { S_idx := 0, strand_index := 0, base := base_kind.A,
                        B5_idx := 4, B3_idx := 18446744073709551615 })
    ∧ toml.find documented_parameter "B5" = Except.ok (toml.value.string "none")
    ∧ toml.find documented_parameter "B3" = Except.ok (toml.value.integer 4)
    ∧ ∀ (invalid : Nat) (env param : toml.value) (B : Nat) (p : parameter_type),
        read_base_base_parameter invalid env param = Except.ok (B, p)
        → ∃ v5 v3, toml.find param "B3" = Except.ok v5
            ∧ toml.find param "B5" = Except.ok v3
            ∧ (v5 = toml.value.string "none" → p.B5_idx = invalid)
            ∧ (∀ n, v5 = toml.value.integer n
                → p.B5_idx = (n % 18446744073709551616).toNat)
            ∧ (v3 = toml.value.string "none" → p.B3_idx = invalid)
            ∧ (∀ n, v3 = toml.value.integer n
                → p.B3_idx = (n % 18446744073709551616).toNat) :=
  ⟨rfl, rfl, rfl, base_base_reader_sources⟩

end readers

section lj_symmetry

variable {α : Type} [LinearOrderedField α]

/-- C29: `LennardJonesPotential` is symmetric in the pair: `potential(i, j, r)` is
`potential(j, i, r)` and `derivative(i, j, r)` is `derivative(j, i, r)`, for every `r`
and whatever function stands for `std::sqrt`. -/
theorem lj_pair_symmetric (sqrt : α → α) (pot : LennardJonesPotential α) (i j : Nat)
    (r : α) :
    LennardJonesPotential.potential sqrt pot i j r
      = LennardJonesPotential.potential sqrt pot j i r
    ∧ LennardJonesPotential.derivative sqrt pot i j r
      = LennardJonesPotential.derivative sqrt pot j i r := by
  have he : (if (pot.radii i).2 = (pot.radii j).2 then (pot.radii i).2
        else sqrt ((pot.radii i).2 * (pot.radii j).2))
      = (if (pot.radii j).2 = (pot.radii i).2 then (pot.radii j).2
        else sqrt ((pot.radii j).2 * (pot.radii i).2)) := by
    by_cases h : (pot.radii i).2 = (pot.radii j).2
    · rw [if_pos h, if_pos h.symm, h]
    · rw [if_neg h, if_neg (fun h2 => h h2.symm), mul_comm]
  constructor
  · rw [lj_potential_eq, lj_potential_eq, he, add_comm (pot.radii i).1 (pot.radii j).1]
  · rw [lj_derivative_eq, lj_derivative_eq, he, add_comm (pot.radii i).1 (pot.radii j).1]

end lj_symmetry

section find_parameter_contract

theorem find_parameter_missing {T : Type} (get : toml.value → Except Exception T)
    (t : List (String × toml.value)) (env : toml.value) (name : String)
    (hl : t.lookup name = none) :
    find_parameter get (toml.value.table t) env name
      = Except.error (Exception.out_of_range ("value " ++ name ++ " does not exists")) := by
  have hc : toml.count t name ≠ 1 := by
    simp [toml.count, hl]
  unfold find_parameter
  simp only [if_pos hc]

theorem find_parameter_found {T : Type} (get : toml.value → Except Exception T)
    (t : List (String × toml.value)) (env : toml.value) (name : String) (p : toml.value)
    (hl : t.lookup name = some p) :
    find_parameter get (toml.value.table t) env name
      = (match p with
        | toml.value.string var =>
          if env.is_uninitialized then
            Except.error (Exception.out_of_range
              ("named variable " ++ var ++ " used but no env is defined"))
          else
            match env with
            | toml.value.table e =>
              if toml.count e var ≠ 1 then
                Except.error (Exception.out_of_range
                  ("named variable " ++ var ++ " does not exists"))
              else toml.at_key e var >>= get
            | _ =>
              Except.error (Exception.out_of_range
                ("named variable " ++ var ++ " does not exists"))
        | _ => get p) := by
  have hc : ¬ (toml.count t name ≠ 1) := by
    simp [toml.count, hl]
  unfold find_parameter
  simp only [if_neg hc, toml.at_key, hl, except_bind_ok]
  cases p <;> rfl

theorem find_parameter_string_missing (t : List (String × toml.value)) (env : toml.value)
    (name : String) (hl : t.lookup name = none) :
    find_parameter_string (toml.value.table t) env name
      = Except.error (Exception.out_of_range ("value " ++ name ++ " does not exists")) := by
  have hc : toml.count t name ≠ 1 := by
    simp [toml.count, hl]
  unfold find_parameter_string
  simp only [if_pos hc]

theorem find_parameter_string_found (t : List (String × toml.value)) (env : toml.value)
    (name : String) (p : toml.value) (hl : t.lookup name = some p) :
    find_parameter_string (toml.value.table t) env name = toml.get_string p := by
  have hc : ¬ (toml.count t name ≠ 1) := by
    simp [toml.count, hl]
  unfold find_parameter_string
  simp only [if_neg hc, toml.at_key, hl, except_bind_ok]

/-- C21: `find_parameter<T>` for a non-string `T`, with `get` for `toml::get<T>`. It
throws `std::out_of_range` when `params` is no table or has no entry `name`. When the
entry is a string `s`, it throws `std::out_of_range` for an uninitialised `env` and for
an `env` that is no table or has no entry `s`, and otherwise returns the conversion of
the entry `s` of `env`. When the entry is no string it returns the conversion of the
entry. The overload for `std::string` returns the entry converted to a string and gives
the same result for every `env`. -/
theorem find_parameter_contract {T : Type} (get : toml.value → Except Exception T)
    (params env : toml.value) (name : String) :
    (params.is_table = false
      → ∃ what, find_parameter get params env name
          = Except.error (Exception.out_of_range what))
    ∧ (∀ t, params = toml.value.table t → t.lookup name = none
      → ∃ what, find_parameter get params env name
          = Except.error (Exception.out_of_range what))
    ∧ (∀ t s, params = toml.value.table t → t.lookup name = some (toml.value.string s)
      → (env.is_uninitialized = true
          → ∃ what, find_parameter get params env name
              = Except.error (Exception.out_of_range what))
        ∧ (env.is_uninitialized = false → env.is_table = false
          → ∃ what, find_parameter get params env name
              = Except.error (Exception.out_of_range what))
        ∧ (∀ e, env = toml.value.table e → e.lookup s = none
          → ∃ what, find_parameter get params env name
              = Except.error (Exception.out_of_range what))
        ∧ (∀ e q, env = toml.value.table e → e.lookup s = some q
          → find_parameter get params env name = get q))
    ∧ (∀ t p, params = toml.value.table t → t.lookup name = some p → p.is_string = false
      → find_parameter get params env name = get p)
    ∧ (params.is_table = false
      → ∃ what, find_parameter_string params env name
          = Except.error (Exception.out_of_range what))
    ∧ (∀ t, params = toml.value.table t → t.lookup name = none
      → ∃ what, find_parameter_string params env name
          = Except.error (Exception.out_of_range what))
    ∧ (∀ t p, params = toml.value.table t → t.lookup name = some p
      → find_parameter_string params env name = toml.get_string p)
    ∧ (∀ t s, params = toml.value.table t → t.lookup name = some (toml.value.string s)
      → find_parameter_string params env name = Except.ok s)
    ∧ (∀ env2 : toml.value,
        find_parameter_string params env2 name = find_parameter_string params env name) := by
  refine ⟨?_, ?_, ?_, ?_, ?_, ?_, ?_, ?_, ?_⟩
  · intro h
    cases params <;> first | exact ⟨_, rfl⟩ | cases h
  · intro t ht hl
    subst ht
    exact ⟨_, find_parameter_missing get t env name hl⟩
  · intro t s ht hl
    subst ht
    rw [find_parameter_found get t env name _ hl]
    refine ⟨?_, ?_, ?_, ?_⟩
    · intro he
      simp only [he, if_true]
      exact ⟨_, rfl⟩
    · intro he ht2
      simp only [he, Bool.false_eq_true, if_false]
      cases env <;> first | exact ⟨_, rfl⟩ | cases ht2
    · intro e he hl2
      subst he
      have hc2 : toml.count e s ≠ 1 := by
        simp [toml.count, hl2]
      simp only [toml.value.is_uninitialized, Bool.false_eq_true, if_false, if_pos hc2]
      exact ⟨_, rfl⟩
    · intro e q he hl2
      subst he
      have hc2 : ¬ (toml.count e s ≠ 1) := by
        simp [toml.count, hl2]
      simp only [toml.value.is_uninitialized, Bool.false_eq_true, if_false, if_neg hc2,
        toml.at_key, hl2, except_bind_ok]
  · intro t p ht hl hp
    subst ht
    rw [find_parameter_found get t env name _ hl]
    cases p <;> first | rfl | cases hp
  · intro h
    cases params <;> first | exact ⟨_, rfl⟩ | cases h
  · intro t ht hl
    subst ht
    exact ⟨_, find_parameter_string_missing t env name hl⟩
  · intro t p ht hl
    subst ht
    exact find_parameter_string_found t env name p hl
  · intro t s ht hl
    subst ht
    rw [find_parameter_string_found t env name _ hl]
    rfl
  · intro env2
    rfl

end find_parameter_contract

section gaussian

/-- The exponent of the constructed potential is `-(r - r0)^2 / W^2`. -/
theorem gaussian_potential_eq (e w r0 r : ℝ) :
    GaussianPotential.potential
        (⟨Real.pi, fun x => 1 / Real.sqrt x, Real.exp, Real.arccos, Real.sin, Real.cos⟩ : MathFns ℝ)
        (GaussianPotential.construct e w r0) r
      = e * Real.exp (-(r - r0) ^ 2 / w ^ 2) := by
  unfold GaussianPotential.potential GaussianPotential.construct
  simp only
  congr 2
  norm_num
  ring

theorem gaussian_derivative_eq (e w r0 r : ℝ) :
    GaussianPotential.derivative
        (⟨Real.pi, fun x => 1 / Real.sqrt x, Real.exp, Real.arccos, Real.sin, Real.cos⟩ : MathFns ℝ)
        (GaussianPotential.construct e w r0) r
      = e * (-(r - r0) / w ^ 2) * Real.exp (-(r - r0) ^ 2 / w ^ 2) := by
  unfold GaussianPotential.derivative GaussianPotential.construct
  simp only
  have h1 : (-1.0 : ℝ) / (w * w) * (r - r0) * (r - r0) = -(r - r0) ^ 2 / w ^ 2 := by
    norm_num
    ring
  have h2 : (-1.0 : ℝ) / (w * w) * (r - r0) * e = e * (-(r - r0) / w ^ 2) := by
    norm_num
    ring
  rw [h1, h2]

/-- The potential of the code is differentiable, with derivative
`e (-2 (r - r0) / W^2) exp(-(r - r0)^2 / W^2)`. -/
theorem gaussian_potential_hasDerivAt (e w r0 r : ℝ) :
    HasDerivAt
      (fun x : ℝ => GaussianPotential.potential
        (⟨Real.pi, fun x => 1 / Real.sqrt x, Real.exp, Real.arccos, Real.sin, Real.cos⟩ : MathFns ℝ)
        (GaussianPotential.construct e w r0) x)
      (e * (-2 * (r - r0) / w ^ 2) * Real.exp (-(r - r0) ^ 2 / w ^ 2)) r := by
  have hf : (fun x : ℝ => GaussianPotential.potential
        (⟨Real.pi, fun x => 1 / Real.sqrt x, Real.exp, Real.arccos, Real.sin, Real.cos⟩ : MathFns ℝ)
        (GaussianPotential.construct e w r0) x)
      = fun x : ℝ => e * Real.exp (-(x - r0) ^ 2 / w ^ 2) := by
    funext x
    exact gaussian_potential_eq e w r0 x
  rw [hf]
  have h1 : HasDerivAt (fun x : ℝ => -(x - r0) ^ 2 / w ^ 2) (-2 * (r - r0) / w ^ 2) r := by
    have h := ((((hasDerivAt_id r).sub_const r0).pow 2).neg).div_const (w ^ 2)
    convert h using 1
    simp
  have h2 := (h1.exp).const_mul e
  convert h2 using 1
  ring

/-- C22, the code at `epsilon = 2`, `W = 0.15`, `r0 = 7`, `r = 7.15`: `potential`
returns `2 exp(-1)`, the documented formula `epsilon exp(-(r - r0)^2 / (2 W^2))` gives
`2 exp(-1/2)`. For every input the exponent of the code is `-(r - r0)^2 / W^2`, without
the factor `1/2`, because the constructor stores `-1/W^2`. -/
theorem gaussian_potential_misses_half :
    GaussianPotential.potential
        (⟨Real.pi, fun x => 1 / Real.sqrt x, Real.exp, Real.arccos, Real.sin, Real.cos⟩ : MathFns ℝ)
        (GaussianPotential.construct 2 (3 / 20) 7) (143 / 20)
      = 2 * Real.exp (-1)
    ∧ (2 : ℝ) * Real.exp (-((143 / 20 : ℝ) - 7) ^ 2 / (2 * (3 / 20 : ℝ) ^ 2))
      = 2 * Real.exp (-(1 / 2))
    ∧ (2 : ℝ) * Real.exp (-1) ≠ 2 * Real.exp (-(1 / 2))
    ∧ ∀ e w r0 r : ℝ, GaussianPotential.potential
        (⟨Real.pi, fun x => 1 / Real.sqrt x, Real.exp, Real.arccos, Real.sin, Real.cos⟩ : MathFns ℝ)
        (GaussianPotential.construct e w r0) r
      = e * Real.exp (-(r - r0) ^ 2 / w ^ 2) := by
  refine ⟨?_, ?_, ?_, gaussian_potential_eq⟩
  · rw [gaussian_potential_eq]
    norm_num
  · norm_num
  · intro h
    have h2 : Real.exp (-1) = Real.exp (-(1 / 2)) := by linarith
    have h3 := Real.exp_injective h2
    norm_num at h3

/-- C23, the code at `epsilon = 2`, `W = 0.15`, `r0 = 7`, `x = 7.15`: `derivative`
returns `-(40/3) exp(-1)`, while the derivative of `potential` at `x` is
`-(80/3) exp(-1)`, twice that. For every input the derivative of `potential` is twice the
value of `derivative`, so the two agree only where `derivative` vanishes. -/
theorem gaussian_derivative_is_half :
    GaussianPotential.derivative
        (⟨Real.pi, fun x => 1 / Real.sqrt x, Real.exp, Real.arccos, Real.sin, Real.cos⟩ : MathFns ℝ)
        (GaussianPotential.construct 2 (3 / 20) 7) (143 / 20)
      = -(40 / 3) * Real.exp (-1)
    ∧ HasDerivAt
        (fun x : ℝ => GaussianPotential.potential
          (⟨Real.pi, fun x => 1 / Real.sqrt x, Real.exp, Real.arccos, Real.sin, Real.cos⟩ : MathFns ℝ)
          (GaussianPotential.construct 2 (3 / 20) 7) x)
        (-(80 / 3) * Real.exp (-1)) (143 / 20)
    ∧ ¬ HasDerivAt
        (fun x : ℝ => GaussianPotential.potential
          (⟨Real.pi, fun x => 1 / Real.sqrt x, Real.exp, Real.arccos, Real.sin, Real.cos⟩ : MathFns ℝ)
          (GaussianPotential.construct 2 (3 / 20) 7) x)
        (GaussianPotential.derivative
          (⟨Real.pi, fun x => 1 / Real.sqrt x, Real.exp, Real.arccos, Real.sin, Real.cos⟩ : MathFns ℝ)
          (GaussianPotential.construct 2 (3 / 20) 7) (143 / 20)) (143 / 20)
    ∧ ∀ e w r0 x : ℝ, HasDerivAt
        (fun y : ℝ => GaussianPotential.potential
          (⟨Real.pi, fun x => 1 / Real.sqrt x, Real.exp, Real.arccos, Real.sin, Real.cos⟩ : MathFns ℝ)
          (GaussianPotential.construct e w r0) y)
        (2 * GaussianPotential.derivative
          (⟨Real.pi, fun x => 1 / Real.sqrt x, Real.exp, Real.arccos, Real.sin, Real.cos⟩ : MathFns ℝ)
          (GaussianPotential.construct e w r0) x) x := by
  have hd : GaussianPotential.derivative
        (⟨Real.pi, fun x => 1 / Real.sqrt x, Real.exp, Real.arccos, Real.sin, Real.cos⟩ : MathFns ℝ)
        (GaussianPotential.construct 2 (3 / 20) 7) (143 / 20)
      = -(40 / 3) * Real.exp (-1) := by
    rw [gaussian_derivative_eq]
    norm_num
  have hp : HasDerivAt
        (fun x : ℝ => GaussianPotential.potential
          (⟨Real.pi, fun x => 1 / Real.sqrt x, Real.exp, Real.arccos, Real.sin, Real.cos⟩ : MathFns ℝ)
          (GaussianPotential.construct 2 (3 / 20) 7) x)
        (-(80 / 3) * Real.exp (-1)) (143 / 20) := by
    have h := gaussian_potential_hasDerivAt 2 (3 / 20) 7 (143 / 20)
    convert h using 1
    norm_num
  refine ⟨hd, hp, ?_, ?_⟩
  · intro h
    rw [hd] at h
    have hu := h.unique hp
    have hpos := Real.exp_pos (-1)
    linarith
  · intro e w r0 x
    have h := gaussian_potential_hasDerivAt e w r0 x
    rw [gaussian_derivative_eq]
    convert h using 1
    ring

end gaussian

section lj_specialised

variable {α : Type} [LinearOrderedField α]

end lj_specialised

section spn2_slips

open ThreeSPN2BaseBaseInteraction

theorem sqrt_of_mul_self (x y : ℝ) (hy : 0 ≤ y) (h : x = y * y) : Real.sqrt x = y := by
  rw [h]
  exact Real.sqrt_mul_self hy

/-- The energy of a cross-stacking half, by the test `r0 < lBij` on the base pair. -/
theorem cross_stacking_half_energy_cases {α : Type} [LinearOrderedField α] (M : MathFns α)
    (cs : ThreeSPN2CrossStackingPotential α) (term : EnergyTerm) (cs_kind : Nat)
    (Badj_B SB : Vec3 α) (rlSB r0 lBij f3 : α)
    (hf : cs.f cs_kind (cross_stacking_theta M Badj_B SB rlSB) ≠ 0) :
    (¬ r0 < lBij
      → cross_stacking_half_energy M cs term cs_kind Badj_B SB rlSB r0 lBij f3
        = [(term, f3 * cs.f cs_kind (cross_stacking_theta M Badj_B SB rlSB)
            * -cs.epsilon cs_kind)])
    ∧ (r0 < lBij
      → cross_stacking_half_energy M cs term cs_kind Badj_B SB rlSB r0 lBij f3
        = [(term, f3 * cs.f cs_kind (cross_stacking_theta M Badj_B SB rlSB)
            * (-cs.epsilon cs_kind + cs.epsilon cs_kind
                * (1.0 - M.exp (-cs.alpha * (length_sq Badj_B * M.rsqrt (length_sq Badj_B)
                    - cs.r0 cs_kind)))
                * (1.0 - M.exp (-cs.alpha * (length_sq Badj_B * M.rsqrt (length_sq Badj_B)
                    - cs.r0 cs_kind)))))]) := by
  constructor
  · intro h
    unfold cross_stacking_half_energy
    simp only
    rw [if_pos hf, if_neg h]
  · intro h
    unfold cross_stacking_half_energy
    simp only
    rw [if_pos hf, if_pos h]

/-- The window of the sample cross-stacking potential is `1` at its centre. -/
theorem sample_cross_window_centre :
    window_f (⟨Real.pi, fun x => 1 / Real.sqrt x, Real.exp, Real.arccos, Real.sin,
      Real.cos⟩ : MathFns ℝ) 8 (Real.pi / 2) (Real.pi / 2) = 1 := by
  have hpi := Real.pi_pos
  unfold window_f
  simp only [sub_self, abs_zero]
  have h1 : (0 : ℝ) < Real.pi / 8 * 0.5 := by
    norm_num
    linarith
  rw [if_pos h1]
  norm_num

/-- C26, the code at a 5' half with `Bj5 -> Bi = (2,0,0)` (distance `d = 2`),
`SBi = (0,1,0)`, cross-stacking parameters `epsilon = 1`, `alpha = 1`, `r0_CS = 1`, and a
base pair with `r0 = 2` at distance `lBij = 1`: the half adds `f3 fCS (-1)` with
`U_attr = -epsilon_CS`, although `d > r0_CS`, where the documented function gives
`-1 + (1 - exp(-1))^2`. For every input the branch of `U_attr` is chosen by the test
`r0 < lBij` on the base pair and not by the distance of the half. -/
theorem spn2_cross_stacking_energy_branch :
    cross_stacking_half_energy
        (⟨Real.pi, fun x => 1 / Real.sqrt x, Real.exp, Real.arccos, Real.sin, Real.cos⟩ : MathFns ℝ)
        (sample_cross_stacking ⟨Real.pi, fun x => 1 / Real.sqrt x, Real.exp, Real.arccos,
          Real.sin, Real.cos⟩)
        EnergyTerm.cross_stacking_5 0 ⟨2, 0, 0⟩ ⟨0, 1, 0⟩ 1 2 1 1
      = [(EnergyTerm.cross_stacking_5, -1)]
    ∧ length_sq (⟨2, 0, 0⟩ : Vec3 ℝ) * (1 / Real.sqrt (length_sq (⟨2, 0, 0⟩ : Vec3 ℝ))) = 2
    ∧ (-1 : ℝ) + 1 * (1 - Real.exp (-1 * (2 - 1))) ^ 2 ≠ -1
    ∧ ∀ (M : MathFns ℝ) (cs : ThreeSPN2CrossStackingPotential ℝ) (term : EnergyTerm)
        (cs_kind : Nat) (Badj_B SB : Vec3 ℝ) (rlSB r0 lBij f3 : ℝ),
        cs.f cs_kind (cross_stacking_theta M Badj_B SB rlSB) ≠ 0 → ¬ r0 < lBij
        → cross_stacking_half_energy M cs term cs_kind Badj_B SB rlSB r0 lBij f3
          = [(term, f3 * cs.f cs_kind (cross_stacking_theta M Badj_B SB rlSB)
              * -cs.epsilon cs_kind)] := by
  have hl : length_sq (⟨2, 0, 0⟩ : Vec3 ℝ) = 4 := by
    simp [length_sq]
    norm_num
  have hs : Real.sqrt 4 = 2 := sqrt_of_mul_self 4 2 (by norm_num) (by norm_num)
  have hd : dot_product (⟨0, 1, 0⟩ : Vec3 ℝ) ⟨2, 0, 0⟩ = 0 := by simp [dot_product]
  have hclamp : clamp (0 : ℝ) (-1) 1 = 0 := by norm_num [clamp]
  have htheta : cross_stacking_theta
      (⟨Real.pi, fun x => 1 / Real.sqrt x, Real.exp, Real.arccos, Real.sin, Real.cos⟩ : MathFns ℝ)
      ⟨2, 0, 0⟩ ⟨0, 1, 0⟩ 1 = Real.pi / 2 := by
    unfold cross_stacking_theta
    simp only [hd, zero_mul, hclamp, Real.arccos_zero]
  have hf : (sample_cross_stacking (⟨Real.pi, fun x => 1 / Real.sqrt x, Real.exp,
      Real.arccos, Real.sin, Real.cos⟩ : MathFns ℝ)).f 0
        (cross_stacking_theta
          (⟨Real.pi, fun x => 1 / Real.sqrt x, Real.exp, Real.arccos, Real.sin, Real.cos⟩ : MathFns ℝ)
          ⟨2, 0, 0⟩ ⟨0, 1, 0⟩ 1) = 1 := by
    rw [htheta]
    exact sample_cross_window_centre
  refine ⟨?_, ?_, ?_, ?_⟩
  · rw [(cross_stacking_half_energy_cases _ _ _ _ _ _ _ _ _ _ (by rw [hf]; norm_num)).1
      (by norm_num), hf]
    simp [sample_cross_stacking]
  · rw [hl, hs]
    norm_num
  · have h1 : Real.exp (-1 * (2 - 1)) < 1 := by
      have h0 := Real.exp_lt_exp.mpr (show (-1 * (2 - 1) : ℝ) < 0 by norm_num)
      rw [Real.exp_zero] at h0
      exact h0
    have h2 : 0 < (1 - Real.exp (-1 * (2 - 1))) ^ 2 := by
      apply pow_pos
      linarith
    intro h
    linarith
  · intro M cs term cs_kind Badj_B SB rlSB r0 lBij f3 hf h
    exact (cross_stacking_half_energy_cases M cs term cs_kind Badj_B SB rlSB r0 lBij f3
      hf).1 h

/-- C27, the code at bases `(0,0,0)`, `(1,0,0)` with sugars `(0,10,0)`, `(-2,-4,0)`, so
`SBi = (0,-10,0)`, `SBj = (3,4,0)`, `Bij = (1,0,0)`: the factor `rlSBj` is
`1/|SBi| = 1/10` and not `1/|SBj| = 1/5`, and the cosine passed to `acos` for `theta2`
is `3/10`, where `(SBj . Bij) / (|SBj| |Bij|)` is `3/5`. For every configuration `rlSBj`
is computed from the squared length of `SBi`. -/
theorem spn2_theta2_uses_wrong_length :
    (pair_geometry
        (⟨Real.pi, fun x => 1 / Real.sqrt x, Real.exp, Real.arccos, Real.sin, Real.cos⟩ : MathFns ℝ)
        skew_particles 0 (1, { Si := 2, Sj := 3, bp_kind := 0 })).SBj = ⟨3, 4, 0⟩
    ∧ (pair_geometry
        (⟨Real.pi, fun x => 1 / Real.sqrt x, Real.exp, Real.arccos, Real.sin, Real.cos⟩ : MathFns ℝ)
        skew_particles 0 (1, { Si := 2, Sj := 3, bp_kind := 0 })).Bij = ⟨1, 0, 0⟩
    ∧ (pair_geometry
        (⟨Real.pi, fun x => 1 / Real.sqrt x, Real.exp, Real.arccos, Real.sin, Real.cos⟩ : MathFns ℝ)
        skew_particles 0 (1, { Si := 2, Sj := 3, bp_kind := 0 })).rlSBj = 1 / 10
    ∧ 1 / Real.sqrt (length_sq (⟨3, 4, 0⟩ : Vec3 ℝ)) = 1 / 5
    ∧ clamp ((pair_geometry
        (⟨Real.pi, fun x => 1 / Real.sqrt x, Real.exp, Real.arccos, Real.sin, Real.cos⟩ : MathFns ℝ)
        skew_particles 0 (1, { Si := 2, Sj := 3, bp_kind := 0 })).cos_theta2) (-1) 1 = 3 / 10
    ∧ (pair_geometry
        (⟨Real.pi, fun x => 1 / Real.sqrt x, Real.exp, Real.arccos, Real.sin, Real.cos⟩ : MathFns ℝ)
        skew_particles 0 (1, { Si := 2, Sj := 3, bp_kind := 0 })).theta2
        = Real.arccos (3 / 10)
    ∧ dot_product (⟨3, 4, 0⟩ : Vec3 ℝ) ⟨1, 0, 0⟩
        / (Real.sqrt (length_sq (⟨3, 4, 0⟩ : Vec3 ℝ))
            * Real.sqrt (length_sq (⟨1, 0, 0⟩ : Vec3 ℝ))) = 3 / 5
    ∧ Real.arccos (3 / 10) ≠ Real.arccos (3 / 5)
    ∧ ∀ (M : MathFns ℝ) (sys : System ℝ) (i : Nat) (ptnr : Nat × BasePairParameter),
        (pair_geometry M sys i ptnr).rlSBj
          = M.rsqrt (length_sq (pair_geometry M sys i ptnr).SBi)
        ∧ (pair_geometry M sys i ptnr).cos_theta2
          = dot_product (pair_geometry M sys i ptnr).SBj (pair_geometry M sys i ptnr).Bij
            * M.rsqrt (length_sq (pair_geometry M sys i ptnr).SBi)
            * M.rsqrt (length_sq (pair_geometry M sys i ptnr).Bij) := by
  have hp0 : (skew_particles : System ℝ).position 0 = ⟨0, 0, 0⟩ := rfl
  have hp1 : (skew_particles : System ℝ).position 1 = ⟨1, 0, 0⟩ := rfl
  have hp2 : (skew_particles : System ℝ).position 2 = ⟨0, 10, 0⟩ := rfl
  have hp3 : (skew_particles : System ℝ).position 3 = ⟨-2, -4, 0⟩ := rfl
  have hadj : ∀ w : Vec3 ℝ, (skew_particles : System ℝ).adjust_direction w = w := fun _ => rfl
  have hBij : (⟨1, 0, 0⟩ : Vec3 ℝ) - ⟨0, 0, 0⟩ = ⟨1, 0, 0⟩ := by ext <;> simp
  have hSBi : (⟨0, 0, 0⟩ : Vec3 ℝ) - ⟨0, 10, 0⟩ = ⟨0, -10, 0⟩ := by ext <;> simp
  have hSBj : (⟨1, 0, 0⟩ : Vec3 ℝ) - ⟨-2, -4, 0⟩ = ⟨3, 4, 0⟩ := by ext <;> norm_num
  have hl1 : length_sq (⟨1, 0, 0⟩ : Vec3 ℝ) = 1 := by simp [length_sq]
  have hl100 : length_sq (⟨0, -10, 0⟩ : Vec3 ℝ) = 100 := by
    simp [length_sq]
    norm_num
  have hl25 : length_sq (⟨3, 4, 0⟩ : Vec3 ℝ) = 25 := by
    simp [length_sq]
    norm_num
  have hs100 : Real.sqrt 100 = 10 := sqrt_of_mul_self 100 10 (by norm_num) (by norm_num)
  have hs25 : Real.sqrt 25 = 5 := sqrt_of_mul_self 25 5 (by norm_num) (by norm_num)
  have hd : dot_product (⟨3, 4, 0⟩ : Vec3 ℝ) ⟨1, 0, 0⟩ = 3 := by simp [dot_product]
  have hcos : (pair_geometry
        (⟨Real.pi, fun x => 1 / Real.sqrt x, Real.exp, Real.arccos, Real.sin, Real.cos⟩ : MathFns ℝ)
        skew_particles 0 (1, { Si := 2, Sj := 3, bp_kind := 0 })).cos_theta2 = 3 / 10 := by
    unfold pair_geometry
    simp only [hp0, hp1, hp2, hp3, hadj, hBij, hSBi, hSBj, hl1, hl100, hd, hs100,
      Real.sqrt_one]
    norm_num
  have hclamp : clamp (3 / 10 : ℝ) (-1) 1 = 3 / 10 := by norm_num [clamp]
  refine ⟨?_, ?_, ?_, ?_, ?_, ?_, ?_, ?_, ?_⟩
  · unfold pair_geometry
    simp only [hp1, hp3, hadj, hSBj]
  · unfold pair_geometry
    simp only [hp0, hp1, hadj, hBij]
  · unfold pair_geometry
    simp only [hp0, hp2, hadj, hSBi, hl100, hs100]
  · rw [hl25, hs25]
  · rw [hcos, hclamp]
  · have ht : (pair_geometry
        (⟨Real.pi, fun x => 1 / Real.sqrt x, Real.exp, Real.arccos, Real.sin, Real.cos⟩ : MathFns ℝ)
        skew_particles 0 (1, { Si := 2, Sj := 3, bp_kind := 0 })).theta2
        = Real.arccos (clamp ((pair_geometry
          (⟨Real.pi, fun x => 1 / Real.sqrt x, Real.exp, Real.arccos, Real.sin, Real.cos⟩ : MathFns ℝ)
          skew_particles 0 (1, { Si := 2, Sj := 3, bp_kind := 0 })).cos_theta2) (-1) 1) := rfl
    rw [ht, hcos, hclamp]
  · rw [hd, hl25, hl1, hs25, Real.sqrt_one]
    norm_num
  · intro h
    have h2 := Real.arccos_injOn (show (3 / 10 : ℝ) ∈ Set.Icc (-1) 1 by
      constructor <;> norm_num) (show (3 / 5 : ℝ) ∈ Set.Icc (-1) 1 by
      constructor <;> norm_num) h
    norm_num at h2
  · intro M sys i ptnr
    exact ⟨rfl, rfl⟩

end spn2_slips

section base_stacking_initialise

open ThreeSPN2BaseStackingPotential

variable {α : Type} [LinearOrderedField α]

/-- Once the flag is set, `initialize` changes nothing. -/
theorem initialise_converted (M : MathFns α) (energy_unit length_unit : String)
    (J_to_cal angstrom_to_nm : α) (self : ThreeSPN2BaseStackingPotential α) (sys : System α)
    (h : self.unit_converted_ = true) :
    initialise M energy_unit length_unit J_to_cal angstrom_to_nm self sys = some self := by
  unfold initialise
  rw [if_neg (by rw [h]; decide)]
  rfl

/-- What `initialize` returns has the flag set. -/
theorem initialise_sets_flag (M : MathFns α) (energy_unit length_unit : String)
    (J_to_cal angstrom_to_nm : α) (self s1 : ThreeSPN2BaseStackingPotential α)
    (sys : System α)
    (h : initialise M energy_unit length_unit J_to_cal angstrom_to_nm self sys = some s1) :
    s1.unit_converted_ = true := by
  unfold initialise at h
  by_cases hf : self.unit_converted_ = false
  · rw [if_pos hf] at h
    by_cases he : ¬ (energy_unit = "kJ/mol" ∨ energy_unit = "kcal/mol")
    · rw [if_pos he] at h
      cases h
    · rw [if_neg he] at h
      by_cases hlen : ¬ (length_unit = "nm" ∨ length_unit = "angstrom")
      · simp only [if_pos hlen] at h
        cases h
      · simp only [if_neg hlen, Option.some.injEq] at h
        rw [← h]
        rfl
  · rw [if_neg hf] at h
    simp only [Option.some.injEq] at h
    rw [← h]
    cases hb : self.unit_converted_
    · exact absurd hb hf
    · exact hb

/-- The first `initialize` of the constructed potential, for accepted units. -/
theorem initialise_constructed (M : MathFns α) (energy_unit length_unit : String)
    (J_to_cal angstrom_to_nm : α) (sys : System α)
    (he : energy_unit = "kJ/mol" ∨ energy_unit = "kcal/mol")
    (hlen : length_unit = "nm" ∨ length_unit = "angstrom") :
    ∃ s1, initialise M energy_unit length_unit J_to_cal angstrom_to_nm (constructed M) sys
        = some s1
      ∧ s1.theta0_BS_ = (constructed M).theta0_BS_.map (fun t => t * (M.pi / 180.0))
      ∧ s1.epsilon_BS_ = (if energy_unit = "kcal/mol"
          then (constructed M).epsilon_BS_.map (fun e => e * J_to_cal)
          else (constructed M).epsilon_BS_)
      ∧ s1.r0_BS_ = (if length_unit = "nm"
          then (constructed M).r0_BS_.map (fun r => r * angstrom_to_nm)
          else (constructed M).r0_BS_) := by
  unfold initialise
  have hf : (constructed M).unit_converted_ = false := rfl
  rw [if_pos hf, if_neg (not_not.mpr he)]
  simp only [if_neg (not_not.mpr hlen)]
  refine ⟨_, rfl, ?_, ?_, ?_⟩
  · by_cases h1 : energy_unit = "kcal/mol" <;> by_cases h2 : length_unit = "nm" <;>
      simp only [h1, h2, if_true, if_false, update]
  · by_cases h1 : energy_unit = "kcal/mol" <;> by_cases h2 : length_unit = "nm" <;>
      simp only [h1, h2, if_true, if_false, update]
  · by_cases h1 : energy_unit = "kcal/mol" <;> by_cases h2 : length_unit = "nm" <;>
      simp only [h1, h2, if_true, if_false, update]

/-- C30: `ThreeSPN2BaseStackingPotential::initialize` is idempotent. Under a fixed unit
system, a second `initialize` returns the potential that the first one returned, from
any state; for accepted units the first `initialize` of the constructed potential
returns, and after it, and after any number of further calls, `theta_0(bs)` is the
tabulated degree value times `pi / 180`, the conversion being applied once. -/
theorem base_stacking_initialise_idempotent (M : MathFns α)
    (energy_unit length_unit : String) (J_to_cal angstrom_to_nm : α) (sys : System α) :
    (∀ self s1 : ThreeSPN2BaseStackingPotential α,
        initialise M energy_unit length_unit J_to_cal angstrom_to_nm self sys = some s1
        → initialise M energy_unit length_unit J_to_cal angstrom_to_nm s1 sys = some s1)
    ∧ (∀ self : ThreeSPN2BaseStackingPotential α,
        (initialise M energy_unit length_unit J_to_cal angstrom_to_nm self sys).bind
            (fun s1 => initialise M energy_unit length_unit J_to_cal angstrom_to_nm s1 sys)
          = initialise M energy_unit length_unit J_to_cal angstrom_to_nm self sys)
    ∧ ((energy_unit = "kJ/mol" ∨ energy_unit = "kcal/mol")
        → (length_unit = "nm" ∨ length_unit = "angstrom")
        → ∃ s1, initialise M energy_unit length_unit J_to_cal angstrom_to_nm
              (constructed M) sys = some s1
            ∧ initialise M energy_unit length_unit J_to_cal angstrom_to_nm s1 sys = some s1
            ∧ ∀ bs, bs < 16
                → s1.theta_0 bs = (constructed M).theta_0 bs * (M.pi / 180.0)) := by
  have h1 : ∀ self s1 : ThreeSPN2BaseStackingPotential α,
      initialise M energy_unit length_unit J_to_cal angstrom_to_nm self sys = some s1
      → initialise M energy_unit length_unit J_to_cal angstrom_to_nm s1 sys = some s1 := by
    intro self s1 h
    exact initialise_converted M energy_unit length_unit J_to_cal angstrom_to_nm s1 sys
      (initialise_sets_flag M energy_unit length_unit J_to_cal angstrom_to_nm self s1 sys h)
  refine ⟨h1, ?_, ?_⟩
  · intro self
    cases h : initialise M energy_unit length_unit J_to_cal angstrom_to_nm self sys with
    | none => rfl
    | some s1 =>
      rw [Option.some_bind]
      exact h1 self s1 h
  · intro he hlen
    obtain ⟨s1, hs, ht, _, _⟩ := initialise_constructed M energy_unit length_unit J_to_cal
      angstrom_to_nm sys he hlen
    refine ⟨s1, hs, h1 _ s1 hs, ?_⟩
    intro bs hbs
    unfold theta_0
    rw [ht, List.getD_eq_getElem?_getD, List.getD_eq_getElem?_getD, List.getElem?_map]
    have hlt : bs < (constructed M).theta0_BS_.length := hbs
    rw [List.getElem?_eq_getElem hlt]
    rfl

end base_stacking_initialise

section annealing

open SimulatedAnnealingSimulator

variable {X R α : Type} [LinearOrderedField α]

/-- One `step` from a simulator that has counted `j < N` steps. -/
theorem annealing_step (P : SimulatorParts X R α) (N : Nat) (hN : N < 18446744073709551616)
    (hu : ∀ sys r, (P.integrator_update sys r).1.attributes "temperature"
      = sys.attributes "temperature")
    (ho : ∀ t sys r, (P.observer_output t sys r).1.attributes "temperature"
      = sys.attributes "temperature")
    (s : SimulatedAnnealingSimulator X R α) (j : Nat) (hj : j < N)
    (hc : s.step_count_ = j) (ht : s.total_step_ = N) (hr : s.r_total_step_ = 1 / (N : α)) :
    ∃ s2, step P s = some (decide (j + 1 < N), s2)
      ∧ s2.step_count_ = j + 1 ∧ s2.total_step_ = N ∧ s2.r_total_step_ = 1 / (N : α)
      ∧ s2.scheduler_ = s.scheduler_
      ∧ s2.system_.attributes "temperature"
        = s.scheduler_.first_ * ((N : α) - ((j + 1 : Nat) : α)) / (N : α)
          + s.scheduler_.last_ * ((j + 1 : Nat) : α) / (N : α) := by
  have hNpos : (0 : α) < (N : α) := by
    have : 0 < N := Nat.lt_of_le_of_lt (Nat.zero_le j) hj
    exact_mod_cast this
  have hmod : (s.step_count_ + 1) % 18446744073709551616 = j + 1 := by
    rw [hc]
    exact Nat.mod_eq_of_lt (by omega)
  have hratio : (0.0 : α) ≤ ((j + 1 : Nat) : α) * (1 / (N : α))
      ∧ ((j + 1 : Nat) : α) * (1 / (N : α)) ≤ 1.0 := by
    constructor
    · rw [show (0.0 : α) = 0 by norm_num]
      positivity
    · rw [show (1.0 : α) = 1 by norm_num, mul_one_div, div_le_one hNpos]
      exact_mod_cast hj
  unfold step
  simp only [hmod, hr, ht, linear_schedule.current, if_pos hratio]
  refine ⟨_, rfl, rfl, rfl, rfl, rfl, ?_⟩
  simp only
  have hset : ∀ (sys : AttributedSystem X α) (v : α),
      (sys.attribute_assign "temperature" v).attributes "temperature" = v := by
    intro sys v
    simp [AttributedSystem.attribute_assign]
  split_ifs
  · rw [ho, hu, hset, show (1.0 : α) = 1 by norm_num]
    field_simp
  · rw [hu, hset, show (1.0 : α) = 1 by norm_num]
    field_simp

/-- The simulator after `k <= N` steps, started from a simulator that has counted none. -/
theorem annealing_steps (P : SimulatorParts X R α) (N : Nat)
    (hN : N < 18446744073709551616)
    (hu : ∀ sys r, (P.integrator_update sys r).1.attributes "temperature"
      = sys.attributes "temperature")
    (ho : ∀ t sys r, (P.observer_output t sys r).1.attributes "temperature"
      = sys.attributes "temperature")
    (s0 : SimulatedAnnealingSimulator X R α)
    (hc : s0.step_count_ = 0) (ht : s0.total_step_ = N) (hr : s0.r_total_step_ = 1 / (N : α))
    (k : Nat) (hk : k ≤ N) :
    ∃ s, steps P k s0 = some s
      ∧ s.step_count_ = k ∧ s.total_step_ = N ∧ s.r_total_step_ = 1 / (N : α)
      ∧ s.scheduler_ = s0.scheduler_
      ∧ (1 ≤ k → s.system_.attributes "temperature"
          = s0.scheduler_.first_ * ((N : α) - (k : α)) / (N : α)
            + s0.scheduler_.last_ * (k : α) / (N : α)) := by
  induction k with
  | zero =>
    exact ⟨s0, rfl, hc, ht, hr, rfl, fun h => absurd h (by decide)⟩
  | succ j ih =>
    obtain ⟨s, hs, hsc, hst, hsr, hsch, _⟩ := ih (Nat.le_of_succ_le hk)
    obtain ⟨s2, h2, h2c, h2t, h2r, h2sch, h2T⟩ :=
      annealing_step P N hN hu ho s j (Nat.lt_of_succ_le hk) hsc hst hsr
    refine ⟨s2, ?_, h2c, h2t, h2r, h2sch.trans hsch, ?_⟩
    · show (steps P j s0).bind (fun s => (step P s).map Prod.snd) = some s2
      rw [hs, Option.some_bind, h2]
      rfl
    · intro _
      rw [h2T, hsch]

/-- The constructed simulator holds `1 / N`, before and after `initialize`. -/
theorem annealing_r_total_step (P : SimulatorParts X R α) (N : Nat)
    (sch : linear_schedule α) (sys : AttributedSystem X α) (parts : R) :
    (initialise P (construct N sch sys parts)).r_total_step_ = 1 / (N : α) := by
  show (1.0 : α) / (N : α) = 1 / (N : α)
  rw [show (1.0 : α) = 1 by norm_num]

/-- C24, where the code differs: `initialize` does not consult the schedule. With a force
field, an integrator and an observer that leave the system as it is, a simulator built
with the schedule from `300` to `10` on a system whose temperature attribute is `0` has
the temperature `0` after `initialize` and no `step`, where the formula gives `300` for
`k = 0`; after the first `step` it has `300 * 99/100 + 10 * 1/100`. -/
theorem annealing_temperature_before_first_step :
    (initialise idle_parts sample_annealing).system_.attributes "temperature" = 0
    ∧ (300 : ℚ) * (100 - 0) / 100 + 10 * 0 / 100 = 300
    ∧ (initialise idle_parts sample_annealing).system_.attributes "temperature"
        ≠ 300 * (100 - 0) / 100 + 10 * 0 / 100
    ∧ ((steps idle_parts 1 (initialise idle_parts sample_annealing)).map
          (fun s => s.system_.attributes "temperature"))
        = some (300 * (100 - 1) / 100 + 10 * 1 / 100) := by
  have h0 : (initialise idle_parts sample_annealing).system_.attributes "temperature" = 0 :=
    rfl
  refine ⟨h0, by norm_num, ?_, ?_⟩
  · rw [h0]
    norm_num
  · obtain ⟨s, hs, _, _, _, _, hT⟩ := annealing_steps idle_parts 100 (by norm_num)
      (fun _ _ => rfl) (fun _ _ _ => rfl) (initialise idle_parts sample_annealing)
      rfl rfl (annealing_r_total_step idle_parts 100 _ _ _) 1 (by norm_num)
    rw [hs, Option.map_some', hT (le_refl 1)]
    show some ((300 : ℚ) * (((100 : Nat) : ℚ) - ((1 : Nat) : ℚ)) / ((100 : Nat) : ℚ)
      + 10 * ((1 : Nat) : ℚ) / ((100 : Nat) : ℚ)) = _
    norm_num

/-- C24, as the code has it: for a simulator constructed with `total_step = N`
(a `std::size_t`) and a linear schedule from `T_begin` to `T_end`, whose
integrator update and observer output leave the temperature attribute as it is, after
`initialize` and `k` calls of `step`, for every `1 <= k <= N`, every call has returned
and the attribute "temperature" is `T_begin (N - k)/N + T_end k/N`. After `initialize`
alone the system is the one the initialisers of force field, integrator and observer
left, whatever the schedule. -/
theorem annealing_temperature_after_steps (P : SimulatorParts X R α) (N : Nat)
    (hN : N < 18446744073709551616)
    (hu : ∀ sys r, (P.integrator_update sys r).1.attributes "temperature"
      = sys.attributes "temperature")
    (ho : ∀ t sys r, (P.observer_output t sys r).1.attributes "temperature"
      = sys.attributes "temperature")
    (T_begin T_end : α) (sys : AttributedSystem X α) (parts : R) :
    (∀ k, 1 ≤ k → k ≤ N
      → ∃ s, steps P k (initialise P (construct N { first_ := T_begin, last_ := T_end }
            sys parts)) = some s
          ∧ s.system_.attributes "temperature"
            = T_begin * ((N : α) - (k : α)) / (N : α) + T_end * (k : α) / (N : α))
    ∧ (∀ sch : linear_schedule α,
        (initialise P (construct N sch sys parts)).system_
          = (initialise P (construct N { first_ := T_begin, last_ := T_end }
              sys parts)).system_) := by
  constructor
  · intro k h1 hk
    obtain ⟨s, hs, _, _, _, _, hT⟩ := annealing_steps P N hN hu ho
      (initialise P (construct N { first_ := T_begin, last_ := T_end } sys parts))
      rfl rfl (annealing_r_total_step P N _ sys parts) k hk
    exact ⟨s, hs, hT h1⟩
  · intro sch
    rfl

/-- Witness of C24: the idle parts, `N = 100`, the schedule from `300` to `10`. -/
theorem annealing_temperature_after_steps_witness :
    (100 : Nat) < 18446744073709551616
    ∧ (∀ (sys : AttributedSystem Unit ℚ) (r : Unit),
        (idle_parts.integrator_update sys r).1.attributes "temperature"
          = sys.attributes "temperature")
    ∧ (∀ (t : ℚ) (sys : AttributedSystem Unit ℚ) (r : Unit),
        (idle_parts.observer_output t sys r).1.attributes "temperature"
          = sys.attributes "temperature")
    ∧ ∃ s, steps idle_parts 50 (initialise idle_parts
          (construct 100 { first_ := 300, last_ := 10 }
            { attributes := fun _ => 0, rest := () } ())) = some s
        ∧ s.system_.attributes "temperature"
          = 300 * (((100 : Nat) : ℚ) - ((50 : Nat) : ℚ)) / ((100 : Nat) : ℚ)
            + 10 * ((50 : Nat) : ℚ) / ((100 : Nat) : ℚ) :=
  ⟨by norm_num, fun _ _ => rfl, fun _ _ _ => rfl,
    (annealing_temperature_after_steps idle_parts 100 (by norm_num) (fun _ _ => rfl)
      (fun _ _ _ => rfl) 300 10 { attributes := fun _ => 0, rest := () } ()).1 50
      (by norm_num) (by norm_num)⟩

end annealing

section omp_virial

variable {α : Type} [LinearOrderedField α]

theorem vec3_ext_get {β : Type} {u v : Vec3 β} (h : ∀ a, u.get a = v.get a) : u = v :=
  Vec3.ext (h 0) (h 1) (h 2)

theorem vec3_get_add {β : Type} [Add β] (u v : Vec3 β) (a : Fin 3) :
    (u + v).get a = u.get a + v.get a := by
  fin_cases a <;> rfl

theorem vec3_get_sub {β : Type} [Sub β] (u v : Vec3 β) (a : Fin 3) :
    (u - v).get a = u.get a - v.get a := by
  fin_cases a <;> rfl

theorem vec3_get_zero {β : Type} [Zero β] (a : Fin 3) : (0 : Vec3 β).get a = 0 := by
  fin_cases a <;> rfl

theorem vec3_get_neg (u : Vec3 α) (a : Fin 3) : (-u).get a = -u.get a := by
  fin_cases a <;> rfl

theorem vec3_get_tensor (u v : Vec3 α) (p q : Fin 3) :
    ((tensor_product u v).get p).get q = u.get p * v.get q := by
  fin_cases p <;> fin_cases q <;> rfl

theorem vec3_get_sum {β γ : Type} [Add β] [Zero β] (g : γ → Vec3 β) (l : List γ)
    (a : Fin 3) : ((l.map g).sum).get a = (l.map (fun k => (g k).get a)).sum := by
  induction l with
  | nil => exact vec3_get_zero a
  | cons k l ih =>
    rw [List.map_cons, List.map_cons, List.sum_cons, List.sum_cons, vec3_get_add, ih]

theorem list_range_sum_eq (g : Nat → α) (n : Nat) :
    ((List.range n).map g).sum = Finset.sum (Finset.range n) g := by
  induction n with
  | zero => rfl
  | succ n ih =>
    rw [List.range_succ, List.map_append, List.sum_append, ih, Finset.sum_range_succ]
    simp

/-- Adding `x` at index `i` changes the weighted sum by `c i * x` when `i` is in range;
the weights vanish out of range. -/
theorem weighted_sum_update (c g : Nat → α) (x : α) (i N : Nat)
    (hc : ∀ k, N ≤ k → c k = 0) :
    Finset.sum (Finset.range N) (fun k => c k * (if k = i then g k + x else g k))
      = Finset.sum (Finset.range N) (fun k => c k * g k) + c i * x := by
  have h1 : ∀ k, c k * (if k = i then g k + x else g k)
      = c k * g k + (if k = i then c k * x else 0) := by
    intro k
    split_ifs <;> ring
  simp only [h1]
  rw [Finset.sum_add_distrib, Finset.sum_ite_eq']
  by_cases hi : i ∈ Finset.range N
  · rw [if_pos hi]
  · rw [if_neg hi, hc i (by simpa using hi)]
    ring

end omp_virial

section lj_specialised_loop

variable {α : Type} [LinearOrderedField α]

/-- The pair force of the sample pair is not zero: with `sigma^2 = 25/4` and `|rij| = 1`
it is `24 * (s6 - 2 * s6^2)` along `x`, `s6 = (25/4)^3`. -/
theorem lj_sample_force_value :
    sample_lj_interaction.pair_force (fun x => x) two_particle_system 0 1
      = ⟨24 * ((25 / 4 : ℚ) ^ 3 - 2 * ((25 / 4) ^ 3) ^ 2), 0, 0⟩ := by
  simp [GlobalPairLennardJonesInteraction.pair_force, sample_lj_interaction, sample_lj,
    two_particle_system, ParticleSystem.position, LennardJonesPotential.radii,
    LennardJonesPotential.cutoff_ratio, length_sq]
  have hcut : ¬ (((3 + 2 : ℚ) * 0.5 * ((3 + 2) * 0.5) * (2.5 * 2.5)) < 1) := by norm_num
  rw [if_neg hcut]
  ext
  · simp
    norm_num
  · simp
  · simp

end lj_specialised_loop

section omp_virial_threads

variable {α : Type} [LinearOrderedField α]

/-- In the single-threaded execution the loop body is the body run by thread
`omp_get_thread_num`. -/
theorem omp_force_pair_on_current (self : OmpLennardJonesInteraction α) (i : Nat)
    (sys : OmpSystem α) (ptnr : Nat × (α × α)) :
    self.calc_force_pair i sys ptnr = self.calc_force_pair_on omp_get_thread_num i sys ptnr :=
  rfl

theorem list_range_map_getD (l : List Nat) :
    (List.range l.length).map (fun idx => l.getD idx 0) = l := by
  apply List.ext_getElem
  · simp
  · intro n h1 h2
    rw [List.getElem_map, List.getElem_range, List.getD_eq_getElem _ _ h2]

/-- The schedule that runs every iteration in order on the thread `omp_get_thread_num` is
the single-threaded `calc_force`. -/
theorem omp_calc_force_parallel_single_thread (self : OmpLennardJonesInteraction α)
    (sys : OmpSystem α) :
    self.calc_force_parallel
        ((List.range self.leading_participants.length).map
          (fun idx => (idx, omp_get_thread_num))) sys
      = self.calc_force sys := by
  unfold OmpLennardJonesInteraction.calc_force_parallel OmpLennardJonesInteraction.calc_force
    OmpLennardJonesInteraction.calc_force_iteration
  rw [List.foldl_map]
  conv_rhs => rw [← list_range_map_getD self.leading_participants]
  rw [List.foldl_map]
  rfl

/-- The loop body of thread `T` either leaves the system or applies one force `f` to the
pair and the tensor of the separation with `-f` to the virial, on the accumulators of
thread `T`. -/
theorem omp_force_pair_on_shape (self : OmpLennardJonesInteraction α) (T i : Nat)
    (s : OmpSystem α) (ptnr : Nat × (α × α)) :
    self.calc_force_pair_on T i s ptnr = s
    ∨ ∃ f : Vec3 α, self.calc_force_pair_on T i s ptnr
        = ((s.add_force_thread T i f).sub_force_thread T ptnr.1 f).add_virial_thread T
            (tensor_product (s.adjust_direction (s.position i) (s.position ptnr.1)) (-f)) := by
  unfold OmpLennardJonesInteraction.calc_force_pair_on
  simp only
  split_ifs
  · exact Or.inl rfl
  · exact Or.inr ⟨_, rfl⟩

theorem omp_force_pair_on_geometry (self : OmpLennardJonesInteraction α) (T i : Nat)
    (sys : OmpSystem α) (ptnr : Nat × (α × α)) :
    (self.calc_force_pair_on T i sys ptnr).positions = sys.positions
    ∧ (self.calc_force_pair_on T i sys ptnr).adjust_direction = sys.adjust_direction := by
  unfold OmpLennardJonesInteraction.calc_force_pair_on
  simp only
  split_ifs
  · exact ⟨rfl, rfl⟩
  · exact ⟨rfl, rfl⟩

/-- The loop body of thread `T` leaves the accumulators of every other thread. -/
theorem omp_force_pair_on_other_threads (self : OmpLennardJonesInteraction α) (T i : Nat)
    (sys : OmpSystem α) (ptnr : Nat × (α × α)) (t : Nat) (ht : t ≠ T) :
    (∀ k, (self.calc_force_pair_on T i sys ptnr).force_thread t k = sys.force_thread t k)
    ∧ (self.calc_force_pair_on T i sys ptnr).virial_thread t = sys.virial_thread t := by
  unfold OmpLennardJonesInteraction.calc_force_pair_on
  simp only
  split_ifs
  · exact ⟨fun _ => rfl, rfl⟩
  · constructor
    · intro k
      simp [OmpSystem.add_virial_thread, OmpSystem.sub_force_thread,
        OmpSystem.add_force_thread, ht]
    · simp [OmpSystem.add_virial_thread, OmpSystem.sub_force_thread,
        OmpSystem.add_force_thread, ht]

theorem omp_position_out_of_range (s : OmpSystem α) (p : Fin 3) (k : Nat)
    (hk : s.positions.length ≤ k) : (s.position k).get p = 0 := by
  unfold OmpSystem.position
  rw [List.getD_eq_default _ _ hk]
  exact vec3_get_zero p

/-- Under the unlimited boundary one application of a pair force by thread `T` keeps
every entry of `virial - sum_k r_k (x) force_k` on the accumulators of thread `T`. -/
theorem omp_pair_update_virial (s : OmpSystem α) (T i j : Nat) (f : Vec3 α)
    (hb : ∀ a b, s.adjust_direction a b = b - a) (p q : Fin 3) :
    (((((s.add_force_thread T i f).sub_force_thread T j f).add_virial_thread T
          (tensor_product (s.adjust_direction (s.position i) (s.position j))
            (-f))).virial_thread T).get p).get q
      - Finset.sum (Finset.range s.positions.length) (fun k => (s.position k).get p
          * ((((s.add_force_thread T i f).sub_force_thread T j f).add_virial_thread T
              (tensor_product (s.adjust_direction (s.position i) (s.position j))
                (-f))).force_thread T k).get q)
    = ((s.virial_thread T).get p).get q
      - Finset.sum (Finset.range s.positions.length) (fun k => (s.position k).get p
          * (s.force_thread T k).get q) := by
  have hf : ∀ k, ((((s.add_force_thread T i f).sub_force_thread T j f).add_virial_thread T
        (tensor_product (s.adjust_direction (s.position i) (s.position j))
          (-f))).force_thread T k).get q
      = (if k = j then
          (if k = i then (s.force_thread T k).get q + f.get q
            else (s.force_thread T k).get q) + -(f.get q)
        else
          (if k = i then (s.force_thread T k).get q + f.get q
            else (s.force_thread T k).get q)) := by
    intro k
    simp only [OmpSystem.add_virial_thread, OmpSystem.sub_force_thread,
      OmpSystem.add_force_thread, true_and]
    split_ifs <;> simp only [vec3_get_sub, vec3_get_add, sub_eq_add_neg]
  have hv : (((((s.add_force_thread T i f).sub_force_thread T j f).add_virial_thread T
        (tensor_product (s.adjust_direction (s.position i) (s.position j))
          (-f))).virial_thread T).get p).get q
      = ((s.virial_thread T).get p).get q
        + ((s.position j).get p - (s.position i).get p) * -(f.get q) := by
    simp only [OmpSystem.add_virial_thread, OmpSystem.sub_force_thread,
      OmpSystem.add_force_thread, if_true, vec3_get_add, vec3_get_tensor, hb, vec3_get_sub,
      vec3_get_neg]
  simp only [hf]
  rw [hv, weighted_sum_update (fun k => (s.position k).get p) _ (-(f.get q)) j _
      (omp_position_out_of_range s p),
    weighted_sum_update (fun k => (s.position k).get p)
      (fun k => (s.force_thread T k).get q) (f.get q) i _
      (omp_position_out_of_range s p)]
  ring

/-- What one loop body keeps, whichever thread `T` runs it, under the unlimited boundary:
positions and boundary, the accumulators of the threads that `keep` names when `T` is
not among them, and on every thread each entry of `virial - sum_k r_k (x) force_k`. -/
theorem omp_pair_on_keeps_virial_balance (self : OmpLennardJonesInteraction α)
    (sys : OmpSystem α) (hb : ∀ a b, sys.adjust_direction a b = b - a) (T i : Nat)
    (s : OmpSystem α) (ptnr : Nat × (α × α))
    (hs : s.positions = sys.positions ∧ s.adjust_direction = sys.adjust_direction
      ∧ ∀ (t : Nat) (p q : Fin 3),
        ((s.virial_thread t).get p).get q
          - Finset.sum (Finset.range sys.positions.length) (fun k => (sys.position k).get p
              * (s.force_thread t k).get q)
        = ((sys.virial_thread t).get p).get q
          - Finset.sum (Finset.range sys.positions.length) (fun k => (sys.position k).get p
              * (sys.force_thread t k).get q)) :
    (self.calc_force_pair_on T i s ptnr).positions = sys.positions
    ∧ (self.calc_force_pair_on T i s ptnr).adjust_direction = sys.adjust_direction
    ∧ ∀ (t : Nat) (p q : Fin 3),
        (((self.calc_force_pair_on T i s ptnr).virial_thread t).get p).get q
          - Finset.sum (Finset.range sys.positions.length) (fun k => (sys.position k).get p
              * ((self.calc_force_pair_on T i s ptnr).force_thread t k).get q)
        = ((sys.virial_thread t).get p).get q
          - Finset.sum (Finset.range sys.positions.length) (fun k => (sys.position k).get p
              * (sys.force_thread t k).get q) := by
  obtain ⟨hp, ha, hI⟩ := hs
  have hg := omp_force_pair_on_geometry self T i s ptnr
  refine ⟨hg.1.trans hp, hg.2.trans ha, ?_⟩
  intro t p q
  by_cases ht : t = T
  · subst ht
    have hpos : ∀ k, s.position k = sys.position k := by
      intro k
      unfold OmpSystem.position
      rw [hp]
    rcases omp_force_pair_on_shape self t i s ptnr with h | ⟨f, h⟩
    · rw [h]
      exact hI t p q
    · rw [h]
      have hb2 : ∀ a b, s.adjust_direction a b = b - a := by
        intro a b
        rw [ha]
        exact hb a b
      have hstep := omp_pair_update_virial s t i ptnr.1 f hb2 p q
      rw [hp] at hstep
      simp only [hpos] at hstep ⊢
      rw [hstep]
      exact hI t p q
  · have h1 := omp_force_pair_on_other_threads self T i s ptnr t ht
    rw [h1.2]
    simp only [h1.1]
    exact hI t p q

/-- Every execution of the parallel loop keeps, under the unlimited boundary, positions
and boundary and on every thread each entry of `virial - sum_k r_k (x) force_k`. -/
theorem omp_parallel_keeps_virial_balance (self : OmpLennardJonesInteraction α)
    (sys : OmpSystem α) (hb : ∀ a b, sys.adjust_direction a b = b - a)
    (schedule : List (Nat × Nat)) :
    (self.calc_force_parallel schedule sys).positions = sys.positions
    ∧ (self.calc_force_parallel schedule sys).adjust_direction = sys.adjust_direction
    ∧ ∀ (t : Nat) (p q : Fin 3),
        (((self.calc_force_parallel schedule sys).virial_thread t).get p).get q
          - Finset.sum (Finset.range sys.positions.length) (fun k => (sys.position k).get p
              * ((self.calc_force_parallel schedule sys).force_thread t k).get q)
        = ((sys.virial_thread t).get p).get q
          - Finset.sum (Finset.range sys.positions.length) (fun k => (sys.position k).get p
              * (sys.force_thread t k).get q) := by
  unfold OmpLennardJonesInteraction.calc_force_parallel
  refine foldl_keeps
    (fun s : OmpSystem α => s.positions = sys.positions
      ∧ s.adjust_direction = sys.adjust_direction
      ∧ ∀ (t : Nat) (p q : Fin 3),
          ((s.virial_thread t).get p).get q
            - Finset.sum (Finset.range sys.positions.length) (fun k => (sys.position k).get p
                * (s.force_thread t k).get q)
          = ((sys.virial_thread t).get p).get q
            - Finset.sum (Finset.range sys.positions.length)
                (fun k => (sys.position k).get p * (sys.force_thread t k).get q)) _ ?_ _ sys
    ⟨rfl, rfl, fun _ _ _ => rfl⟩
  intro s e hs
  unfold OmpLennardJonesInteraction.calc_force_iteration
  refine foldl_keeps
    (fun s : OmpSystem α => s.positions = sys.positions
      ∧ s.adjust_direction = sys.adjust_direction
      ∧ ∀ (t : Nat) (p q : Fin 3),
          ((s.virial_thread t).get p).get q
            - Finset.sum (Finset.range sys.positions.length) (fun k => (sys.position k).get p
                * (s.force_thread t k).get q)
          = ((sys.virial_thread t).get p).get q
            - Finset.sum (Finset.range sys.positions.length)
                (fun k => (sys.position k).get p * (sys.force_thread t k).get q)) _ ?_ _ s hs
  intro s2 ptnr hs2
  exact omp_pair_on_keeps_virial_balance self sys hb e.2 _ s2 ptnr hs2

/-- The balance does not depend on how fine the threads interleave: any sequence of loop
bodies, each run by any thread for any pair, keeps positions and boundary and on every
thread each entry of `virial - sum_k r_k (x) force_k`. -/
theorem omp_any_interleaving_keeps_virial_balance (self : OmpLennardJonesInteraction α)
    (sys : OmpSystem α) (hb : ∀ a b, sys.adjust_direction a b = b - a)
    (steps : List (Nat × Nat × (Nat × (α × α)))) :
    (steps.foldl (fun s e => self.calc_force_pair_on e.1 e.2.1 s e.2.2) sys).positions
      = sys.positions
    ∧ (steps.foldl (fun s e => self.calc_force_pair_on e.1 e.2.1 s e.2.2)
        sys).adjust_direction = sys.adjust_direction
    ∧ ∀ (t : Nat) (p q : Fin 3),
        (((steps.foldl (fun s e => self.calc_force_pair_on e.1 e.2.1 s e.2.2)
            sys).virial_thread t).get p).get q
          - Finset.sum (Finset.range sys.positions.length) (fun k => (sys.position k).get p
              * ((steps.foldl (fun s e => self.calc_force_pair_on e.1 e.2.1 s e.2.2)
                  sys).force_thread t k).get q)
        = ((sys.virial_thread t).get p).get q
          - Finset.sum (Finset.range sys.positions.length) (fun k => (sys.position k).get p
              * (sys.force_thread t k).get q) := by
  refine foldl_keeps
    (fun s : OmpSystem α => s.positions = sys.positions
      ∧ s.adjust_direction = sys.adjust_direction
      ∧ ∀ (t : Nat) (p q : Fin 3),
          ((s.virial_thread t).get p).get q
            - Finset.sum (Finset.range sys.positions.length) (fun k => (sys.position k).get p
                * (s.force_thread t k).get q)
          = ((sys.virial_thread t).get p).get q
            - Finset.sum (Finset.range sys.positions.length)
                (fun k => (sys.position k).get p * (sys.force_thread t k).get q)) _ ?_ _ sys
    ⟨rfl, rfl, fun _ _ _ => rfl⟩
  intro s e hs
  exact omp_pair_on_keeps_virial_balance self sys hb e.1 e.2.1 s e.2.2 hs

/-- A thread that runs no iteration of the schedule finds its accumulators as they
were. -/
theorem omp_parallel_idle_thread (self : OmpLennardJonesInteraction α) (sys : OmpSystem α)
    (schedule : List (Nat × Nat)) (t : Nat) (ht : ∀ e ∈ schedule, e.2 ≠ t) :
    (∀ k, (self.calc_force_parallel schedule sys).force_thread t k = sys.force_thread t k)
    ∧ (self.calc_force_parallel schedule sys).virial_thread t = sys.virial_thread t := by
  unfold OmpLennardJonesInteraction.calc_force_parallel
  induction schedule generalizing sys with
  | nil => exact ⟨fun _ => rfl, rfl⟩
  | cons e l ih =>
    rw [List.foldl_cons]
    have h1 := ih (self.calc_force_iteration e.2 e.1 sys)
      (fun e2 he2 => ht e2 (List.mem_cons_of_mem _ he2))
    have h2 : (∀ k, (self.calc_force_iteration e.2 e.1 sys).force_thread t k
          = sys.force_thread t k)
        ∧ (self.calc_force_iteration e.2 e.1 sys).virial_thread t = sys.virial_thread t := by
      unfold OmpLennardJonesInteraction.calc_force_iteration
      refine foldl_keeps
        (fun s : OmpSystem α => (∀ k, s.force_thread t k = sys.force_thread t k)
          ∧ s.virial_thread t = sys.virial_thread t) _ ?_ _ sys ⟨fun _ => rfl, rfl⟩
      intro s ptnr hs
      have h3 := omp_force_pair_on_other_threads self e.2
        (self.leading_participants.getD e.1 0) s ptnr t
        (fun h => ht e (List.mem_cons_self _ _) h.symm)
      exact ⟨fun k => (h3.1 k).trans (hs.1 k), h3.2.trans hs.2⟩
    exact ⟨fun k => (h1.1 k).trans (h2.1 k), h1.2.trans h2.2⟩

/-- C28: under the unlimited boundary (`adjust_direction(r_i, r_j) = r_j - r_i`), for
every schedule of the `omp parallel for` loop on `nthreads` threads (each iteration run
once, by any of the threads, in any order), the virial that the OpenMP `calc_force` adds,
summed over the thread accumulators, is the sum over all particles `k` of
`tensor_product(r_k, F_k)`, where `F_k` is the force that the call added to particle `k`,
summed over the thread accumulators; the accumulators of thread numbers from `nthreads`
on are not touched, so the two sums hold all that the call added. -/
theorem omp_lj_parallel_virial_is_position_force_sum (self : OmpLennardJonesInteraction α)
    (sys : OmpSystem α) (nthreads : Nat) (schedule : List (Nat × Nat))
    (hb : ∀ a b, sys.adjust_direction a b = b - a)
    (hsched : omp_schedule self.leading_participants.length nthreads schedule) :
    ((List.range nthreads).map
        (fun t => (self.calc_force_parallel schedule sys).virial_thread t
          - sys.virial_thread t)).sum
      = ((List.range sys.positions.length).map
          (fun k => tensor_product (sys.position k)
            ((List.range nthreads).map
              (fun t => (self.calc_force_parallel schedule sys).force_thread t k
                - sys.force_thread t k)).sum)).sum
    ∧ ∀ t, nthreads ≤ t →
        (∀ k, (self.calc_force_parallel schedule sys).force_thread t k
          = sys.force_thread t k)
        ∧ (self.calc_force_parallel schedule sys).virial_thread t = sys.virial_thread t := by
  constructor
  · obtain ⟨_, _, hI⟩ := omp_parallel_keeps_virial_balance self sys hb schedule
    apply vec3_ext_get
    intro p
    apply vec3_ext_get
    intro q
    rw [vec3_get_sum, vec3_get_sum, vec3_get_sum, vec3_get_sum]
    simp only [vec3_get_tensor, vec3_get_sum, vec3_get_sub]
    rw [list_range_sum_eq, list_range_sum_eq]
    simp only [list_range_sum_eq, Finset.mul_sum]
    rw [Finset.sum_comm]
    apply Finset.sum_congr rfl
    intro t _
    have h := hI t p q
    simp only [mul_sub]
    rw [Finset.sum_sub_distrib]
    linarith
  · intro t ht
    exact omp_parallel_idle_thread self sys schedule t
      (fun e he h => absurd (hsched.2 e he) (by rw [h]; exact not_lt.mpr ht))

/-- The sample schedule runs each of the two iterations once, on two threads. -/
theorem two_thread_schedule_valid :
    omp_schedule three_omp_interaction.leading_participants.length 2 two_thread_schedule := by
  decide

/-- On the sample both threads add forces: thread `0` the pairs `(0, 1)` and `(0, 2)`,
thread `1` the pair `(1, 2)`. -/
theorem three_omp_sample_forces :
    (three_omp_interaction.calc_force_parallel two_thread_schedule
        three_omp_system).force_thread 0 0 = ⟨-24, -24, 0⟩
    ∧ (three_omp_interaction.calc_force_parallel two_thread_schedule
        three_omp_system).force_thread 1 1 = ⟨-9 / 8, 9 / 8, 0⟩
    ∧ (three_omp_interaction.calc_force_parallel two_thread_schedule
        three_omp_system).virial_thread 1 = ⟨⟨-9 / 8, 9 / 8, 0⟩, ⟨9 / 8, -9 / 8, 0⟩, ⟨0, 0, 0⟩⟩ := by
  have h : three_omp_interaction.calc_force_parallel two_thread_schedule three_omp_system
      = three_omp_interaction.calc_force_pair_on 0 0
          (three_omp_interaction.calc_force_pair_on 0 0
            (three_omp_interaction.calc_force_pair_on 1 1 three_omp_system (2, (1, 1)))
            (1, (1, 1))) (2, (1, 1)) := rfl
  rw [h]
  refine ⟨?_, ?_, ?_⟩
  · norm_num [OmpLennardJonesInteraction.calc_force_pair_on,
      three_omp_interaction, three_omp_system, OmpSystem.position,
      OmpSystem.add_force_thread, OmpSystem.sub_force_thread, OmpSystem.add_virial_thread,
      length_sq]
    ext <;> norm_num
  · norm_num [OmpLennardJonesInteraction.calc_force_pair_on,
      three_omp_interaction, three_omp_system, OmpSystem.position,
      OmpSystem.add_force_thread, OmpSystem.sub_force_thread, OmpSystem.add_virial_thread,
      length_sq]
    ext <;> norm_num
  · norm_num [OmpLennardJonesInteraction.calc_force_pair_on,
      three_omp_interaction, three_omp_system, OmpSystem.position,
      OmpSystem.add_force_thread, OmpSystem.sub_force_thread, OmpSystem.add_virial_thread,
      length_sq, tensor_product]
    ext <;> norm_num

/-- Witness of C28: three particles, the two iterations on two different threads. -/
theorem omp_lj_parallel_virial_is_position_force_sum_witness :
    (∀ a b, three_omp_system.adjust_direction a b = b - a)
    ∧ omp_schedule three_omp_interaction.leading_participants.length 2 two_thread_schedule
    ∧ ((List.range 2).map
        (fun t => (three_omp_interaction.calc_force_parallel two_thread_schedule
            three_omp_system).virial_thread t
          - three_omp_system.virial_thread t)).sum
      = ((List.range three_omp_system.positions.length).map
          (fun k => tensor_product (three_omp_system.position k)
            ((List.range 2).map
              (fun t => (three_omp_interaction.calc_force_parallel two_thread_schedule
                  three_omp_system).force_thread t k
                - three_omp_system.force_thread t k)).sum)).sum :=
  ⟨fun _ _ => rfl, by decide,
    (omp_lj_parallel_virial_is_position_force_sum three_omp_interaction three_omp_system 2
      two_thread_schedule (fun _ _ => rfl) (by decide)).1⟩

end omp_virial_threads

end mjolnir
